import Mathlib

/-!
Genesis Plus GX, Wii/GameCube video backend (`gx/gx_video.c`).

A shallow embedding of the emulation-mode part of the video backend: the table
of emulation video modes, the aspect-ratio resolver `gxSetAspectRatio`, the
VI/GX scaler `gxResetScaler`, the per-frame driver `gx_video_Update`, the
vertical-sync callback, entering and leaving emulation mode (`gx_video_Start`,
`gx_video_Stop`), the display settings of `gx_video_Init`, the two NTSC
blitters and the RGBA8 tile loops of the PNG texture reader and writer,
followed by the properties the specification states about them.

Conventions of the embedding.

* C `int` values are `Int`; the arithmetic of the functions below stays far
  away from the 32-bit limits for the geometries the emulator produces, so
  signed overflow (undefined in C) is not modelled.  Stores into narrower or
  unsigned objects (`u16` fields of a `GXRModeObj`, `s16` vertices, `u32`
  texture sizes) wrap explicitly through `toU16`, `toS16`, `toU32`.
* C division truncates toward zero (`cdiv`).  A division whose divisor is read
  from memory has no result when that divisor is zero (`cdivq`), and a
  dereference of a null `rmode` or an index outside `tvmodes` has none either:
  the functions that contain them return an `Option`.
* Constants and macros that come from headers outside the translated file are
  the fields of `Hdr`, a parameter of every function that uses one.
* Calls into libogc (GX, VI, AUDIO) are recorded as `Event`s, calls of `free`
  as `Freed`, and the pixel stores of a blitter as `BlitOp`s.
* A pixel buffer is a function from an index to a value; a store through a
  pointer is `store`.
-/

namespace GxVideo

/-! ## Machine arithmetic -/

/-- C integer division by a non-zero constant: the quotient truncated toward zero. -/
def cdiv (a b : Int) : Int := Int.tdiv a b

/-- C integer division by a value read at run time: no result when the divisor is zero. -/
def cdivq (a b : Int) : Option Int :=
  if b = 0 then none else some (Int.tdiv a b)

/-- Conversion of an `int` to `u16` (a store into a `u16` object). -/
def toU16 (x : Int) : Int := x % 65536

/-- Conversion of an `int` to `s16` (a store into an `s16` object). -/
def toS16 (x : Int) : Int := (x + 32768) % 65536 - 32768

/-- Conversion of an `int` to `u32`, as done by the usual arithmetic conversions
when an `int` meets a `u32` operand, and by a store into a `u32` object. -/
def toU32 (x : Int) : Int := x % 4294967296

/-- Bitwise `x & ~m` on 32-bit patterns. -/
def andNot32 (x m : Nat) : Nat := x &&& (4294967295 ^^^ m)

/-! ## Header constants -/

/-- Constants and macros used by `gx_video.c` whose definitions live in headers
that are not part of the translated file (libogc `video_types.h`, the emulator
core and `osd.h`, the two NTSC filter headers). -/
structure Hdr where
  VI_MAX_WIDTH_NTSC : Int
  VI_MAX_HEIGHT_NTSC : Int
  VI_MAX_WIDTH_PAL : Int
  VI_MAX_HEIGHT_PAL : Int
  VI_TVMODE_PAL_DS : Nat
  VI_TVMODE_PAL_INT : Nat
  VI_TVMODE_EURGB60_DS : Nat
  VI_TVMODE_EURGB60_INT : Nat
  VI_XFBMODE_SF : Nat
  VI_XFBMODE_DF : Nat
  MCLOCK_NTSC : Nat
  SYSTEM_GG : Nat
  VIDEO_WAIT : Nat
  VIDEO_UPDATE : Nat
  MD_NTSC_OUT_WIDTH : Nat → Nat
  SMS_NTSC_OUT_WIDTH : Nat → Nat
  VI_INTERLACE : Nat
  VI_PROGRESSIVE : Nat
  VI_TVMODE_PAL_PROG : Nat
  MAX_DEVICES : Nat
  DEVICE_LIGHTGUN : Nat
  NO_DEVICE : Nat
  SYSTEM_LIGHTPHASER : Nat
  SYSTEM_MCD : Nat
  VI_PAL : Nat
  VI_NON_INTERLACE : Nat
  VI_TVMODE : Nat → Nat → Nat

/-! ## Data model -/

/-- The fields of libogc `GXRModeObj`. `field_rendering` and `aa` hold
`GX_TRUE` or `GX_FALSE`. -/
structure GXRModeObj where
  viTVMode : Nat
  fbWidth : Int
  efbHeight : Int
  xfbHeight : Int
  viXOrigin : Int
  viYOrigin : Int
  viWidth : Int
  viHeight : Int
  xfbMode : Nat
  field_rendering : Bool
  aa : Bool
  sample_pattern : List (Nat × Nat)
  vfilter : List Nat
  deriving DecidableEq, Repr

/-- Sample pattern shared by five of the six modes: every sample point at (6,6). -/
def samplesCentered : List (Nat × Nat) :=
  [(6,6),(6,6),(6,6), (6,6),(6,6),(6,6), (6,6),(6,6),(6,6), (6,6),(6,6),(6,6)]

/-- Sample pattern of `TV60hz_240i`. -/
def samplesInterlaced : List (Nat × Nat) :=
  [(3,2),(9,6),(3,10), (3,2),(9,6),(3,10), (9,2),(3,6),(9,10), (9,2),(3,6),(9,10)]

/-- Vertical filter of the single-field modes. -/
def vfilterOff : List Nat := [0, 0, 21, 22, 21, 0, 0]

/-- Vertical filter of the double-field modes. -/
def vfilterOn : List Nat := [8, 8, 10, 12, 10, 8, 8]

/-- 288 lines progressive (PAL 50Hz). -/
def TV50hz_288p (k : Hdr) : GXRModeObj :=
  { viTVMode := k.VI_TVMODE_PAL_DS
    fbWidth := 640
    efbHeight := cdiv k.VI_MAX_HEIGHT_PAL 2
    xfbHeight := cdiv k.VI_MAX_HEIGHT_PAL 2
    viXOrigin := 0
    viYOrigin := 0
    viWidth := k.VI_MAX_WIDTH_PAL
    viHeight := k.VI_MAX_HEIGHT_PAL
    xfbMode := k.VI_XFBMODE_SF
    field_rendering := false
    aa := false
    sample_pattern := samplesCentered
    vfilter := vfilterOff }

/-- 288 lines interlaced (PAL 50Hz). -/
def TV50hz_288i (k : Hdr) : GXRModeObj :=
  { viTVMode := k.VI_TVMODE_PAL_INT
    fbWidth := 640
    efbHeight := cdiv k.VI_MAX_HEIGHT_PAL 2
    xfbHeight := cdiv k.VI_MAX_HEIGHT_PAL 2
    viXOrigin := 0
    viYOrigin := 0
    viWidth := k.VI_MAX_WIDTH_PAL
    viHeight := k.VI_MAX_HEIGHT_PAL
    xfbMode := k.VI_XFBMODE_SF
    field_rendering := true
    aa := false
    sample_pattern := samplesCentered
    vfilter := vfilterOff }

/-- 576 lines interlaced (PAL 50Hz, scaled). -/
def TV50hz_576i (k : Hdr) : GXRModeObj :=
  { viTVMode := k.VI_TVMODE_PAL_INT
    fbWidth := 640
    efbHeight := 480
    xfbHeight := k.VI_MAX_HEIGHT_PAL
    viXOrigin := 0
    viYOrigin := 0
    viWidth := k.VI_MAX_WIDTH_PAL
    viHeight := k.VI_MAX_HEIGHT_PAL
    xfbMode := k.VI_XFBMODE_DF
    field_rendering := false
    aa := false
    sample_pattern := samplesCentered
    vfilter := vfilterOn }

/-- 240 lines progressive (NTSC or PAL 60Hz). -/
def TV60hz_240p (k : Hdr) : GXRModeObj :=
  { viTVMode := k.VI_TVMODE_EURGB60_DS
    fbWidth := 640
    efbHeight := cdiv k.VI_MAX_HEIGHT_NTSC 2
    xfbHeight := cdiv k.VI_MAX_HEIGHT_NTSC 2
    viXOrigin := 0
    viYOrigin := 0
    viWidth := k.VI_MAX_WIDTH_NTSC
    viHeight := k.VI_MAX_HEIGHT_NTSC
    xfbMode := k.VI_XFBMODE_SF
    field_rendering := false
    aa := false
    sample_pattern := samplesCentered
    vfilter := vfilterOff }

/-- 240 lines interlaced (NTSC or PAL 60Hz). -/
def TV60hz_240i (k : Hdr) : GXRModeObj :=
  { viTVMode := k.VI_TVMODE_EURGB60_INT
    fbWidth := 640
    efbHeight := cdiv k.VI_MAX_HEIGHT_NTSC 2
    xfbHeight := cdiv k.VI_MAX_HEIGHT_NTSC 2
    viXOrigin := 0
    viYOrigin := 0
    viWidth := k.VI_MAX_WIDTH_NTSC
    viHeight := k.VI_MAX_HEIGHT_NTSC
    xfbMode := k.VI_XFBMODE_SF
    field_rendering := true
    aa := false
    sample_pattern := samplesInterlaced
    vfilter := vfilterOff }

/-- 480 lines interlaced (NTSC or PAL 60Hz). -/
def TV60hz_480i (k : Hdr) : GXRModeObj :=
  { viTVMode := k.VI_TVMODE_EURGB60_INT
    fbWidth := 640
    efbHeight := k.VI_MAX_HEIGHT_NTSC
    xfbHeight := k.VI_MAX_HEIGHT_NTSC
    viXOrigin := 0
    viYOrigin := 0
    viWidth := k.VI_MAX_WIDTH_NTSC
    viHeight := k.VI_MAX_HEIGHT_NTSC
    xfbMode := k.VI_XFBMODE_DF
    field_rendering := false
    aa := false
    sample_pattern := samplesCentered
    vfilter := vfilterOn }

/-- The six static mode objects; a value of this type is the address of one of
them, which is what an entry of `tvmodes` and the pointer `rmode` hold. -/
inductive ModeId where
  | TV60hz_240p
  | TV60hz_240i
  | TV60hz_480i
  | TV50hz_288p
  | TV50hz_288i
  | TV50hz_576i
  deriving DecidableEq, Repr

/-- TV modes pointer table, `static GXRModeObj *tvmodes[6]`; an index outside
the table has no defined value. -/
def tvmodes : Nat → Option ModeId
  | 0 => some ModeId.TV60hz_240p
  | 1 => some ModeId.TV60hz_240i
  | 2 => some ModeId.TV60hz_480i
  | 3 => some ModeId.TV50hz_288p
  | 4 => some ModeId.TV50hz_288i
  | 5 => some ModeId.TV50hz_576i
  | _ => none

/-- Current contents of the six mode objects (they are writable statics). -/
structure ModeStore where
  TV60hz_240p : GXRModeObj
  TV60hz_240i : GXRModeObj
  TV60hz_480i : GXRModeObj
  TV50hz_288p : GXRModeObj
  TV50hz_288i : GXRModeObj
  TV50hz_576i : GXRModeObj
  deriving DecidableEq, Repr

/-- Read through a mode pointer. -/
def ModeStore.read (m : ModeStore) : ModeId → GXRModeObj
  | ModeId.TV60hz_240p => m.TV60hz_240p
  | ModeId.TV60hz_240i => m.TV60hz_240i
  | ModeId.TV60hz_480i => m.TV60hz_480i
  | ModeId.TV50hz_288p => m.TV50hz_288p
  | ModeId.TV50hz_288i => m.TV50hz_288i
  | ModeId.TV50hz_576i => m.TV50hz_576i

/-- Write through a mode pointer. -/
def ModeStore.write (m : ModeStore) (p : ModeId) (r : GXRModeObj) : ModeStore :=
  match p with
  | ModeId.TV60hz_240p => { m with TV60hz_240p := r }
  | ModeId.TV60hz_240i => { m with TV60hz_240i := r }
  | ModeId.TV60hz_480i => { m with TV60hz_480i := r }
  | ModeId.TV50hz_288p => { m with TV50hz_288p := r }
  | ModeId.TV50hz_288i => { m with TV50hz_288i := r }
  | ModeId.TV50hz_576i => { m with TV50hz_576i := r }

/-- The mode objects as statically initialised. -/
def staticModes (k : Hdr) : ModeStore :=
  { TV60hz_240p := TV60hz_240p k
    TV60hz_240i := TV60hz_240i k
    TV60hz_480i := TV60hz_480i k
    TV50hz_288p := TV50hz_288p k
    TV50hz_288i := TV50hz_288i k
    TV50hz_576i := TV50hz_576i k }

/-- The fields of `bitmap.viewport` the backend uses. -/
structure Viewport where
  x : Int
  y : Int
  w : Int
  h : Int
  changed : Nat
  deriving DecidableEq, Repr

/-- The fields of the global `config` the emulation-mode code uses. The five
NTSC knobs are floating-point values, held as the rationals they denote (they
are only copied); `gun_cursor0` and `gun_cursor1` are `config.gun_cursor[0]`
and `[1]`; `input_device` lists `config.input[i].device`. -/
structure Config where
  aspect : Nat
  overscan : Nat
  gg_extra : Nat
  render : Nat
  bilinear : Nat
  ntsc : Nat
  vsync : Nat
  vfilter : Nat
  xscale : Int
  yscale : Int
  xshift : Int
  yshift : Int
  tv_mode : Nat := 0
  fps : Nat := 0
  ntsc_sharpness : ℚ := 0
  ntsc_resolution : ℚ := 0
  ntsc_artifacts : ℚ := 0
  ntsc_fringing : ℚ := 0
  ntsc_bleed : ℚ := 0
  gun_cursor0 : Nat := 0
  gun_cursor1 : Nat := 0
  cd_leds : Nat := 0
  input_device : List Int := []
  deriving DecidableEq, Repr

/-- Vertex array `static s16 square[8]`: the four corners of the display quad. -/
structure Square where
  v0 : Int
  v1 : Int
  v2 : Int
  v3 : Int
  v4 : Int
  v5 : Int
  v6 : Int
  v7 : Int
  deriving DecidableEq, Repr

/-- A setup handed to `sms_ntsc_init` and `md_ntsc_init`: the composite, S-Video
or RGB preset constant of the filter, or the local `ntsc_custom`, whose fields
are zero except the five knobs copied from `config`. -/
inductive NtscSetup where
  | composite
  | svideo
  | rgb
  | custom (sharpness resolution artifacts fringing bleed : ℚ)
  deriving DecidableEq, Repr

/-- An allocated filter context (`sms_ntsc_t` or `md_ntsc_t`): the setup its
lookup table was last built from, none while it has never been initialised. -/
structure FilterCtx where
  table : Option NtscSetup
  deriving DecidableEq, Repr

/-- The embedded PNG images of the overlay textures. -/
inductive Png where
  | Crosshair_p1
  | Crosshair_p2
  | CD_access_off
  | CD_access_on
  | CD_ready_off
  | CD_ready_on
  deriving DecidableEq, Repr

/-- Module state of the backend together with the globals of the emulator core
it reads (`reg[12]`, `system_clock`, `system_hw`, `vdp_pal`, `interlaced`,
`snd.sample_rate`, `bitmap.viewport`, `config`, `input.dev`, `input.system[1]`).
A null pointer is `none`; `crosshair0` is `crosshair[0]`, `cd_leds01` is
`cd_leds[0][1]`, and so on; a texture is identified by the image it was opened
from. -/
structure State where
  config : Config
  viewport : Viewport
  reg12 : Nat
  system_clock : Nat
  system_hw : Nat
  vdp_pal : Nat
  interlaced : Nat
  sample_rate : Int
  gc_pal : Nat
  modes : ModeStore
  rmode : Option ModeId
  vwidth : Nat
  vheight : Nat
  square : Square
  videoSync : Nat
  videoWait : Nat
  osd : Nat
  sms_ntsc : Option FilterCtx := none
  md_ntsc : Option FilterCtx := none
  crosshair0 : Option Png := none
  crosshair1 : Option Png := none
  cd_leds00 : Option Png := none
  cd_leds01 : Option Png := none
  cd_leds10 : Option Png := none
  cd_leds11 : Option Png := none
  input_dev : List Nat := []
  input_system1 : Nat := 0
  deriving DecidableEq, Repr

/-! ## Update Aspect Ratio -/

/-- Translation of `gxSetAspectRatio`: the pair `(*xscale, *yscale)` it stores. -/
def gxSetAspectRatio (k : Hdr) (s : State) : Int × Int :=
  /- Vertical Scaling is disabled by default -/
  let yscale := cdiv (s.viewport.h + 2 * s.viewport.y) 2
  if s.config.aspect ≠ 0 then
    /- Original aspect ratio -/
    let yscale :=
      if s.vdp_pal ≠ 0 ∧ (s.gc_pal = 0 ∨ s.config.render ≠ 0) then
        cdiv (yscale * k.VI_MAX_HEIGHT_NTSC) k.VI_MAX_HEIGHT_PAL
      else if s.vdp_pal = 0 ∧ s.gc_pal ≠ 0 ∧ s.config.render = 0 then
        cdiv (yscale * k.VI_MAX_HEIGHT_PAL) k.VI_MAX_HEIGHT_NTSC
      else yscale
    let xscale : Int :=
      if s.config.overscan &&& 2 ≠ 0 then
        /- Horizontal borders are emulated -/
        if s.reg12 &&& 1 ≠ 0 then
          (if s.system_clock = k.MCLOCK_NTSC then 350 else 354)
        else
          (if s.system_clock = k.MCLOCK_NTSC then 357 else 361)
      else
        /- Horizontal borders are simulated -/
        if s.system_hw = k.SYSTEM_GG ∧ s.config.gg_extra = 0 then 202
        else (if s.system_clock = k.MCLOCK_NTSC then 322 else 325)
    /- Aspect correction for widescreen TV -/
    let xscale := if s.config.aspect &&& 2 ≠ 0 then cdiv (xscale * 3) 4 else xscale
    (xscale, yscale)
  else
    /- Manual aspect ratio -/
    let xscale := s.viewport.w + 2 * s.viewport.x
    /- Keep original aspect ratio in H32 modes -/
    let xscale := if s.reg12 &&& 1 = 0 then cdiv (xscale * 320) 256 else xscale
    /- Game Gear specific: if borders are disabled, upscale to fullscreen -/
    let gg := s.system_hw = k.SYSTEM_GG ∧ s.config.gg_extra = 0
    let yscale := if gg ∧ s.config.overscan &&& 1 = 0 then 112 else yscale
    let xscale := if gg ∧ s.config.overscan &&& 2 = 0 then 320 else xscale
    /- By default, keep NTSC aspect ratio -/
    let yscale :=
      if s.gc_pal ≠ 0 ∧ s.config.render = 0 then
        cdiv (yscale * k.VI_MAX_HEIGHT_PAL) k.VI_MAX_HEIGHT_NTSC
      else yscale
    /- Add user scaling -/
    (xscale + s.config.xscale, yscale + s.config.yscale)

/-! ## Reset GX/VI hardware scaler -/

/-- First step of `gxResetScaler`: the EFB width stored in `rmode->fbWidth`
by "default EFB width" and "no filtering, disable GX horizontal scaling",
before the VI width is configured. `width` is a `u32`, so `xscale` is converted
to `u32` in the comparison `width <= xscale`. -/
def efbWidth (c : Config) (width : Nat) (xscale : Int) : Int :=
  if c.bilinear = 0 ∧ c.ntsc = 0 then
    if width ≤ 320 ∧ (width : Int) ≤ toU32 xscale then toU16 ((width : Int) * 2)
    else if width ≤ 640 then toU16 (width : Int)
    else 640
  else 640

/-- Second step of `gxResetScaler`, "configure VI width", on the object `r`
that `rmode` points to (its `fbWidth` already set by the first step). Returns
the updated object and the value of the local `xscale`; there is no result when
the saved offset divides by a zero `rmode->viWidth`. -/
def configureVI (c : Config) (r : GXRModeObj) (xscale : Int) : Option (GXRModeObj × Int) :=
  if xscale * 2 > r.fbWidth then
    /- max width = 720 pixels: save offset for later, maximal width -/
    match (if xscale > 360 then cdivq ((xscale - 360) * r.fbWidth) r.viWidth else some 0) with
    | none => none
    | some offset =>
      let xscale := if xscale > 360 then 360 else xscale
      /- enable VI upscaling -/
      let r := { r with viWidth := toU16 (xscale * 2)
                        viXOrigin := toU16 (cdiv (720 - xscale * 2) 2) }
      /- default GX horizontal scaling -/
      let xscale := cdiv r.fbWidth 2
      /- handle additional upscaling -/
      if offset ≠ 0 then
        if c.bilinear = 0 ∧ c.ntsc = 0 then
          /- no filtering, reduce EFB width to increase VI upscaling -/
          some ({ r with fbWidth := toU16 (r.fbWidth - offset * 2) }, xscale)
        else
          /- increase GX horizontal scaling -/
          some (r, xscale + offset)
      else some (r, xscale)
  else
    /- VI horizontal scaling is disabled -/
    some ({ r with viWidth := r.fbWidth
                   viXOrigin := toU16 (cdiv (720 - r.fbWidth) 2) }, xscale)

/-- Translation of `gxResetScaler(width)`. There is no result when `rmode` is
null or when one of the three divisions by `rmode->viWidth` and
`rmode->viHeight` divides by zero. The cache maintenance calls on `square` are
not part of the state. -/
def gxResetScaler (k : Hdr) (s : State) (width : Nat) : Option State :=
  match s.rmode with
  | none => none
  | some p =>
    /- retrieve screen aspect ratio -/
    let a := gxSetAspectRatio k s
    let r0 := { s.modes.read p with fbWidth := efbWidth s.config width a.1 }
    match configureVI s.config r0 a.1 with
    | none => none
    | some (r, xscale) =>
      /- Adjust screen position -/
      match cdivq (s.config.xshift * r.fbWidth) r.viWidth,
            cdivq (s.config.yshift * r.efbHeight) r.viHeight with
      | some xshift, some yshift =>
        /- Double Resolution modes (480i/576i/480p) -/
        let yscale := if s.config.render ≠ 0 then a.2 * 2 else a.2
        /- Set GX scaler (Vertex Position matrix) -/
        some { s with
          modes := s.modes.write p r
          square :=
            { v0 := toS16 (xshift - xscale)
              v6 := toS16 (xshift - xscale)
              v2 := toS16 (xshift + xscale)
              v4 := toS16 (xshift + xscale)
              v1 := toS16 (yshift + yscale)
              v3 := toS16 (yshift + yscale)
              v5 := toS16 (yshift - yscale)
              v7 := toS16 (yshift - yscale) } }
      | _, _ => none

/-! ## GX render update -/

/-- The frame-rate argument of a call of `audio_set_rate`. It is a
floating-point value and is kept symbolic: the value returned by the call
`get_framerate()` (the frame rate of the new display mode), or the stored
`snd.frame_rate` (the frame rate in use). -/
inductive FrameRateArg where
  | get_framerate
  | snd_frame_rate
  deriving DecidableEq, Repr

/-- Calls that leave the module: libogc (GX, VI, AUDIO, cache) and the audio
collaborator. `gxResetScaler` is recorded too, as the first step of a timing
reprogram; `osd` stands for the whole on-screen-display block, which writes
none of the fields of `State`; `fieldSync` stands for the wait loop on
`VIDEO_WaitVSync` and `VIDEO_GetNextField`. -/
inductive Event where
  | GX_InitTexObj (vwidth vheight : Nat)
  | GX_InitTexObjFilterMode
  | GX_LoadTexObj
  | gxResetScaler (width : Nat)
  | gxResetMode (tvmode : ModeId) (vfilter_enabled : Nat)
  | VIDEO_Configure (tvmode : ModeId)
  | VIDEO_Flush
  | DCStoreRange (len : Nat)
  | GX_InvalidateTexAll
  | GX_CallDispList
  | osd
  | GX_SetDrawDone
  | audio_set_rate (samplerate : Int) (framerate : FrameRateArg)
  | fieldSync
  | AUDIO_StopDMA
  | AUDIO_StartDMA
  | sms_ntsc_init (setup : NtscSetup)
  | md_ntsc_init (setup : NtscSetup)
  | gxTextureOpenPNG (png : Png)
  | gxClearScreen
  | gxResetRendering (type : Nat)
  | VIDEO_SetPostRetraceCallback
  deriving DecidableEq, Repr

/-- An event that reprograms the video timing: the scaler reset, the GX mode
reset or the VI configuration. -/
def Event.isReprogram : Event → Bool
  | Event.gxResetScaler _ => true
  | Event.gxResetMode _ _ => true
  | Event.VIDEO_Configure _ => true
  | _ => false

/-- Index into `tvmodes` computed by "update rendering mode". -/
def tvmodeIndex (gc_pal render interlaced : Nat) : Nat :=
  if render ≠ 0 then gc_pal * 3 + 2 else gc_pal * 3 + interlaced

/-- New `(vwidth, vheight)` computed by "update texture size", "interlaced
mode" and "ntsc filter"; both are `u32`. -/
def textureSize (k : Hdr) (s : State) : Nat × Nat :=
  let vwidth := (toU32 (s.viewport.w + 2 * s.viewport.x)).toNat
  let vheight := (toU32 (s.viewport.h + 2 * s.viewport.y)).toNat
  let vheight :=
    if s.config.render ≠ 0 ∧ s.interlaced ≠ 0 then (vheight * 2) % 4294967296 else vheight
  let vwidth :=
    if s.config.ntsc ≠ 0 then
      let v := (if s.reg12 &&& 1 ≠ 0 then k.MD_NTSC_OUT_WIDTH vwidth
                else k.SMS_NTSC_OUT_WIDTH vwidth) % 4294967296
      /- texel width must remain multiple of 4: (vwidth >> 2) << 2 -/
      ((v / 4) * 4) % 4294967296
    else vwidth
  (vwidth, vheight)

/-- Body of "check if display has changed during frame" in `gx_video_Update`:
new texture size, texture object, rendering mode, scaler, GX mode, VI mode. -/
def displayChanged (k : Hdr) (s : State) : Option (State × List Event) :=
  let t := textureSize k s
  let s := { s with vwidth := t.1, vheight := t.2 }
  let evTex :=
    [Event.GX_InitTexObj t.1 t.2]
      ++ (if s.config.bilinear = 0 then [Event.GX_InitTexObjFilterMode] else [])
      ++ [Event.GX_LoadTexObj]
  /- update rendering mode -/
  match tvmodes (tvmodeIndex s.gc_pal s.config.render s.interlaced) with
  | none => none
  | some p =>
    let s := { s with rmode := some p }
    /- update aspect ratio -/
    match gxResetScaler k s s.vwidth with
    | none => none
    | some s =>
      some (s, evTex ++ [Event.gxResetScaler s.vwidth, Event.gxResetMode p s.config.vfilter,
                          Event.VIDEO_Configure p, Event.VIDEO_Flush])

/-- Second half of the `VIDEO_UPDATE` branch of `gx_video_Update`, from
"force texture cache update" to the end of the branch, followed by the return
statement: texture cache update and display list, on-screen display,
`GX_SetDrawDone`, the interlaced-mode-change check and the video-mode-change
check. `ev1` holds the calls made by the first half. -/
def submitFrame (k : Hdr) (s : State) (status : Nat) (ev1 : List Event) :
    Nat × State × List Event :=
  let ev2 :=
    [Event.DCStoreRange ((s.vwidth * s.vheight * 2) % 4294967296), Event.GX_InvalidateTexAll,
     Event.GX_CallDispList]
      ++ (if s.osd ≠ 0 then [Event.osd] else [])
      ++ [Event.GX_SetDrawDone]
  /- check interlaced mode change -/
  let ev3 :=
    if s.viewport.changed &&& 4 ≠ 0 ∧
        s.config.render = 0 ∧ s.config.vsync ≠ 0 ∧ s.gc_pal = s.vdp_pal then
      [Event.audio_set_rate s.sample_rate FrameRateArg.get_framerate]
    else []
  let s :=
    if s.viewport.changed &&& 4 ≠ 0 then
      { s with viewport := { s.viewport with changed := andNot32 s.viewport.changed 4 } }
    else s
  /- Check if video mode has changed -/
  let ev4 :=
    if s.viewport.changed &&& 1 ≠ 0 then
      [Event.fieldSync, Event.AUDIO_StopDMA, Event.AUDIO_StartDMA]
    else []
  let s :=
    if s.viewport.changed &&& 1 ≠ 0 then
      { s with viewport := { s.viewport with changed := andNot32 s.viewport.changed 1 } }
    else s
  (andNot32 status (k.VIDEO_WAIT ||| k.VIDEO_UPDATE) ||| s.videoWait, s,
    ev1 ++ ev2 ++ ev3 ++ ev4)

/-- Translation of `gx_video_Update(status)`: the returned status, the new
state and the calls made, in order. The retrace callback is not interleaved. -/
def gx_video_Update (k : Hdr) (s : State) (status : Nat) : Option (Nat × State × List Event) :=
  /- make sure current video frame has not already been updated -/
  if status &&& k.VIDEO_UPDATE ≠ 0 then
    /- set video wait flag if VSYNC is enabled -/
    let s := { s with videoWait := s.videoSync }
    /- check if display has changed during frame -/
    match (if s.viewport.changed &&& 1 ≠ 0 then displayChanged k s else some (s, [])) with
    | none => none
    | some (s, ev1) => some (submitFrame k s status ev1)
  else
    some (andNot32 status (k.VIDEO_WAIT ||| k.VIDEO_UPDATE) ||| s.videoWait, s, [])

/-- An event that is a call of `audio_set_rate`. -/
def Event.isAudioSetRate : Event → Bool
  | Event.audio_set_rate _ _ => true
  | _ => false

/-! ## VSYNC callback -/

/-- Modelled from the spec: `audio_set_rate(samplerate, framerate)` of the
audio collaborator (emulator core, not in this file), which sets the audio
resample rate; it records the new rate in `snd.sample_rate`. The frame rate is
a floating-point value and is not part of the state; the argument passed is
recorded in the event of the call. -/
def audio_set_rate (s : State) (samplerate : Int) : State :=
  { s with sample_rate := samplerate }

/-- Translation of `vi_callback(cnt)`; `dmaBytesLeft` is the value returned by
`AUDIO_GetDMABytesLeft()`, and `remain` is a `u16`. -/
def vi_callback (s : State) (dmaBytesLeft : Nat) : State × List Event :=
  /- get audio DMA remaining length -/
  let remain := (dmaBytesLeft / 32) % 65536
  /- adjust desired output samplerate if audio playback is not perfectly in sync with video -/
  let r : State × List Event :=
    if remain > 0 then
      let samplerate : Int := if remain < 5 then 47950 else 48050
      /- update resampler ratios if output samplerate has changed -/
      if samplerate ≠ s.sample_rate then
        (audio_set_rate s samplerate,
          [Event.audio_set_rate samplerate FrameRateArg.snd_frame_rate])
      else (s, [])
    else (s, [])
  /- clear VSYNC flag -/
  ({ r.1 with videoWait := 0 }, r.2)

/-! ## Menu mode -> Emulation mode -/

/-- Update of the mode object `tvmodes[i]` in place. -/
def patchMode (m : ModeStore) (i : Nat) (f : GXRModeObj → GXRModeObj) : ModeStore :=
  match tvmodes i with
  | some p => m.write p (f (m.read p))
  | none => m

/-- Block "Enable progressive or interlaced video mode" of `gx_video_Start`. -/
def startRenderModes (k : Hdr) (c : Config) (m : ModeStore) : ModeStore :=
  if c.render = 2 then
    /- 480p -/
    let m := patchMode m 2 fun r =>
      { r with viTVMode := andNot32 r.viTVMode 3 ||| k.VI_PROGRESSIVE
               xfbMode := k.VI_XFBMODE_SF }
    /- 576p -/
    patchMode m 5 fun r =>
      { r with viTVMode := k.VI_TVMODE_PAL_PROG, xfbMode := k.VI_XFBMODE_SF }
  else if c.render = 1 then
    /- 480i -/
    let m := patchMode m 2 fun r =>
      { r with viTVMode := andNot32 r.viTVMode 3 ||| k.VI_INTERLACE
               xfbMode := k.VI_XFBMODE_DF }
    /- 576i -/
    patchMode m 5 fun r =>
      { r with viTVMode := k.VI_TVMODE_PAL_INT, xfbMode := k.VI_XFBMODE_DF }
  else m

/-- The local `ntsc_custom` of `gx_video_Start`: all fields zero except the
five knobs copied from `config`. -/
def ntsc_custom (c : Config) : NtscSetup :=
  NtscSetup.custom c.ntsc_sharpness c.ntsc_resolution c.ntsc_artifacts c.ntsc_fringing
    c.ntsc_bleed

/-- The `switch (config.ntsc)` of `gx_video_Start`: the setups with which the
pair `sms_ntsc_init`, `md_ntsc_init` is called, in order. Cases 1, 2 and 4 end
with `break`; case 3 does not, so control continues into case 4. -/
def ntscSwitch (c : Config) : List NtscSetup :=
  match c.ntsc with
  | 1 => [NtscSetup.composite]
  | 2 => [NtscSetup.svideo]
  | 3 => NtscSetup.rgb :: [ntsc_custom c]
  | 4 => [ntsc_custom c]
  | _ => []

/-- Block "NTSC filter" of `gx_video_Start`: allocation of the two contexts
when they are null (the allocation is taken to succeed), then the
initialisations selected by the switch. -/
def startNtsc (s : State) : State × List Event :=
  if s.config.ntsc ≠ 0 then
    /- allocate filters -/
    let sms := match s.sms_ntsc with
      | none => FilterCtx.mk none
      | some c => c
    let md := match s.md_ntsc with
      | none => FilterCtx.mk none
      | some c => c
    /- setup filters default configuration -/
    let inits := ntscSwitch s.config
    ({ s with
        sms_ntsc := some (inits.foldl (fun _ setup => FilterCtx.mk (some setup)) sms)
        md_ntsc := some (inits.foldl (fun _ setup => FilterCtx.mk (some setup)) md) },
      inits.flatMap fun setup => [Event.sms_ntsc_init setup, Event.md_ntsc_init setup])
  else (s, [])

/-- One pass of the body of the lightgun loop of `gx_video_Start`, for device
index `i`: the new `player` index, the new state and the calls made.
`gxTextureOpenPNG` is taken to succeed. -/
def lightgunStep (k : Hdr) (acc : Nat × State × List Event) (i : Nat) :
    Nat × State × List Event :=
  let player := acc.1
  let s := acc.2.1
  let ev := acc.2.2
  let dev := s.input_dev.getD i 0
  let r : State × List Event :=
    /- Check for emulated lightguns -/
    if dev = k.DEVICE_LIGHTGUN then
      /- Check if input device is affected to player -/
      if s.config.input_device.getD player 0 ≥ 0 then
        if i = 0 ∨ (i = 4 ∧ s.input_system1 ≠ k.SYSTEM_LIGHTPHASER) then
          /- Lightgun #1 -/
          if s.config.gun_cursor0 ≠ 0 then
            ({ s with crosshair0 := some Png.Crosshair_p1, osd := 1 },
              ev ++ [Event.gxTextureOpenPNG Png.Crosshair_p1])
          else (s, ev)
        else
          /- Lightgun #2 -/
          if s.config.gun_cursor1 ≠ 0 then
            ({ s with crosshair1 := some Png.Crosshair_p2, osd := 1 },
              ev ++ [Event.gxTextureOpenPNG Png.Crosshair_p2])
          else (s, ev)
      else (s, ev)
    else (s, ev)
  /- Check for any emulated device: increment player index -/
  (if dev ≠ k.NO_DEVICE then player + 1 else player, r.1, r.2)

/-- Blocks "lightgun textures" and "CD leds textures" of `gx_video_Start`. -/
def startOverlays (k : Hdr) (s : State) : State × List Event :=
  let a := (List.range k.MAX_DEVICES).foldl (lightgunStep k) (0, s, [])
  let s := a.2.1
  /- CD leds textures -/
  if s.system_hw = k.SYSTEM_MCD ∧ s.config.cd_leds ≠ 0 then
    ({ s with
        cd_leds00 := some Png.CD_access_off
        cd_leds01 := some Png.CD_access_on
        cd_leds10 := some Png.CD_ready_off
        cd_leds11 := some Png.CD_ready_on
        osd := 1 },
      a.2.2 ++ [Event.gxTextureOpenPNG Png.CD_access_off,
                Event.gxTextureOpenPNG Png.CD_access_on,
                Event.gxTextureOpenPNG Png.CD_ready_off,
                Event.gxTextureOpenPNG Png.CD_ready_on])
  else (s, a.2.2)

/-- Translation of `gx_video_Start()`: the new state and the calls made, in
order. The on-screen message buffer, the frame counter and the start time are
not part of the state, and the two Wii-only VI settings are not recorded. -/
def gx_video_Start (k : Hdr) (s : State) : State × List Event :=
  /- TV mode: 50 Hz or 60 Hz -/
  let s := { s with
    gc_pal := if s.config.tv_mode = 1 ∨ (s.config.tv_mode = 2 ∧ s.vdp_pal ≠ 0) then 1 else 0 }
  /- Enable progressive or interlaced video mode -/
  let s := { s with modes := startRenderModes k s.config s.modes }
  /- update horizontal border width, force viewport update -/
  let s := { s with viewport := { s.viewport with
    x := if s.system_hw = k.SYSTEM_GG ∧ s.config.gg_extra = 0 then
           (if s.config.overscan &&& 2 ≠ 0 then 14 else -48)
         else ((s.config.overscan &&& 2 : Nat) : Int) * 7
    changed := 3 } }
  /- NTSC filter -/
  let n := startNtsc s
  /- on-screen display enable flag -/
  let s := { n.1 with osd := n.1.config.fps }
  /- lightgun textures, CD leds textures -/
  let o := startOverlays k s
  let s := o.1
  /- Emulation is synchronized with video hardware if VSYNC is set to AUTO & TV mode
     matches emulated video mode -/
  let sync := s.config.vsync ≠ 0 ∧ s.gc_pal = s.vdp_pal
  /- restart frame sync -/
  ({ s with videoSync := if sync then k.VIDEO_WAIT else 0, videoWait := 0 },
    n.2 ++ o.2 ++ [Event.gxClearScreen, Event.gxResetRendering 0, Event.fieldSync]
      ++ (if sync then [Event.VIDEO_SetPostRetraceCallback] else []))

/-! ## Initialize VIDEO subsystem -/

/-- Translation of `gx_video_Init()`; `viTVMode` is that field of the mode
object returned by `VIDEO_GetPreferredMode`, a `u32`. Of the variables of
`State` the function writes the three 60 Hz mode objects only, in "Adjust
display settings": the menu mode pointer `vmode`, the framebuffers and
`fbCurrent` are not part of the state, and the libogc calls are not recorded. -/
def gx_video_Init (k : Hdr) (viTVMode : Nat) (s : State) : State :=
  /- Adjust display settings -/
  let m := s.modes
  let m :=
    if viTVMode >>> 2 = k.VI_PAL then
      /- 576 lines scaled (PAL 50Hz) -/
      { m with
        TV60hz_240p := { m.TV60hz_240p with viTVMode := k.VI_TVMODE_EURGB60_DS }
        TV60hz_240i := { m.TV60hz_240i with viTVMode := k.VI_TVMODE_EURGB60_INT }
        TV60hz_480i := { m.TV60hz_480i with viTVMode := k.VI_TVMODE_EURGB60_INT } }
    else
      /- 480 lines (NTSC, MPAL or PAL 60Hz) -/
      { m with
        TV60hz_240p := { m.TV60hz_240p with
          viTVMode := k.VI_TVMODE (viTVMode >>> 2) k.VI_NON_INTERLACE }
        TV60hz_240i := { m.TV60hz_240i with
          viTVMode := k.VI_TVMODE (viTVMode >>> 2) k.VI_INTERLACE }
        TV60hz_480i := { m.TV60hz_480i with
          viTVMode := k.VI_TVMODE (viTVMode >>> 2) k.VI_INTERLACE } }
  { s with modes := m }

/-! ## Custom NTSC blitters -/

/-- C remainder `a % b` on `int`: the sign follows the dividend. -/
def cmod (a b : Int) : Int := Int.tmod a b

/-- Modelled from the spec: `sms_ntsc_in_chunk` of `sms_ntsc.h`, the number of
input pixels of one chunk of the low-res filter (3; the blitter handles "extra
0, 1, or 2 pixels" and reads three pixels per chunk). -/
def sms_ntsc_in_chunk : Int := 3

/-- Modelled from the spec: `sms_ntsc_out_chunk` of `sms_ntsc.h`, the number of
output pixels of one chunk of the low-res filter (7). -/
def sms_ntsc_out_chunk : Int := 7

/-- Modelled from the spec: the macro `SMS_NTSC_OUT_WIDTH` of `sms_ntsc.h`,
the number of output pixels for a given input width,
`(in_width / sms_ntsc_in_chunk + 1) * sms_ntsc_out_chunk`. -/
def SMS_NTSC_OUT_WIDTH (in_width : Int) : Int :=
  (cdiv in_width sms_ntsc_in_chunk + 1) * sms_ntsc_out_chunk

/-- Modelled from the spec: `md_ntsc_in_chunk` of `md_ntsc.h`, the number of
input pixels of one chunk of the high-res filter (4). -/
def md_ntsc_in_chunk : Int := 4

/-- Modelled from the spec: `md_ntsc_out_chunk` of `md_ntsc.h`, the number of
output pixels of one chunk of the high-res filter (8). -/
def md_ntsc_out_chunk : Int := 8

/-- Modelled from the spec: the macro `MD_NTSC_OUT_WIDTH` of `md_ntsc.h`,
the number of output pixels for a given input width,
`((in_width - 3) / md_ntsc_in_chunk + 1) * md_ntsc_out_chunk`. -/
def MD_NTSC_OUT_WIDTH (in_width : Int) : Int :=
  (cdiv (in_width - 3) md_ntsc_in_chunk + 1) * md_ntsc_out_chunk

/-- A value handed to the filter, kept symbolic in the palette table and in the
source row: `border` is `table[0]`, `pixel i` is `table[input[i]]` and
`masked i m` is `table[input[i]] & m`, where `input` is the row pointer the
blitter was called with. Each of the last two reads `input[i]`. -/
inductive Sample where
  | border
  | pixel (i : Int)
  | masked (i : Int) (m : Nat)
  deriving DecidableEq, Repr

/-- One step of a blitter: the begin-row macro with its border pixel and its
further pixels, a `COLOR_IN` of a sample into a slot, or an `RGB_OUT` of a slot
into the 16-bit pixel at a byte offset from `bitmap.data`. -/
inductive BlitOp where
  | beginRow (pixel0 : Sample) (pixels : List Sample)
  | colorIn (slot : Nat) (x : Sample)
  | rgbOut (slot : Nat) (byteOffset : Int)
  deriving DecidableEq, Repr

/-- Index step of the low-res blitter after a store: `offset++`, then
`if ((offset % 4) == 0) offset += 12`. -/
def smsNext (offset : Int) : Int :=
  if cmod (offset + 1) 4 = 0 then offset + 1 + 12 else offset + 1

/-- One pass of the body of the chunk loop of `sms_ntsc_blit` (and of its
"finish final pixels" block) for three samples: the steps, and the index after
the seven stores. `base` is the byte offset of `line_out` in `bitmap.data`. -/
def smsChunk (base : Int) (x0 x1 x2 : Sample) (offset : Int) : List BlitOp × Int :=
  let o1 := smsNext offset
  let o2 := smsNext o1
  let o3 := smsNext o2
  let o4 := smsNext o3
  let o5 := smsNext o4
  let o6 := smsNext o5
  ([BlitOp.colorIn 0 x0, BlitOp.rgbOut 0 (base + 2 * offset), BlitOp.rgbOut 1 (base + 2 * o1),
    BlitOp.colorIn 1 x1, BlitOp.rgbOut 2 (base + 2 * o2), BlitOp.rgbOut 3 (base + 2 * o3),
    BlitOp.colorIn 2 x2, BlitOp.rgbOut 4 (base + 2 * o4), BlitOp.rgbOut 5 (base + 2 * o5),
    BlitOp.rgbOut 6 (base + 2 * o6)], smsNext o6)

/-- The chunk loop of `sms_ntsc_blit`, `for ( n = chunk_count; n; --n )`, for a
non-negative count: the steps, and the index after the loop. `input` is the
current position of the row pointer, `offset` the current output index. -/
def smsChunks (base : Int) : Nat → Int → Int → List BlitOp × Int
  | 0, _, offset => ([], offset)
  | n + 1, input, offset =>
    let c := smsChunk base (Sample.pixel input) (Sample.pixel (input + 1))
      (Sample.pixel (input + 2)) offset
    let r := smsChunks base n (input + 3) c.2
    (c.1 ++ r.1, r.2)

/-- The mask `extra2` of `sms_ntsc_blit`, `(unsigned) -(in_extra >> 1 & 1)`:
all ones when bit 1 of `in_extra` is set, zero otherwise. -/
def extra2 (in_extra : Int) : Nat := (toU32 (-((in_extra / 2) % 2))).toNat

/-- The mask `extra1` of `sms_ntsc_blit`, `(unsigned) -(in_extra & 1) | extra2`. -/
def extra1 (in_extra : Int) : Nat := (toU32 (-(in_extra % 2))).toNat ||| extra2 in_extra

/-- Translation of `sms_ntsc_blit(ntsc, table, input, in_width, vline)`: the
steps it performs, in order. The filter arithmetic inside the macros is not
part of the model. `in_extra >> 1 & 1` and `in_extra & 1` are bits 1 and 0 of
`in_extra`, `vline & 3` is `vline` modulo 4. There is no result when
`chunk_count` is negative: the loop counter then never reaches zero. -/
def sms_ntsc_blit (in_width vline : Int) : Option (List BlitOp) :=
  let chunk_count := cdiv in_width sms_ntsc_in_chunk
  /- handle extra 0, 1, or 2 pixels by placing them at beginning of row -/
  let in_extra := in_width - chunk_count * sms_ntsc_in_chunk
  /- use palette entry 0 for unused pixels -/
  let begin := BlitOp.beginRow Sample.border
    [Sample.masked 0 (extra2 in_extra),
     Sample.masked ((extra2 in_extra &&& 1 : Nat) : Int) (extra1 in_extra)]
  /- directly fill the RGB565 texture: one tile is 32 byte = 4x4 pixels -/
  let tiles := cdiv (SMS_NTSC_OUT_WIDTH in_width) 4
  let base := (tiles * 32) * cdiv vline 4 + (vline % 4) * 8
  if chunk_count < 0 then none
  else
    let loop := smsChunks base chunk_count.toNat in_extra 0
    /- finish final pixels -/
    let final := smsChunk base Sample.border Sample.border Sample.border loop.2
    some (begin :: (loop.1 ++ final.1))

/-- One pass of the body of the chunk loop of `md_ntsc_blit` (and of its
"finish final pixels" block) for four samples; `out` is the position of
`line_out`, in pixels from its initial value, and `line_out += 12` skips to the
next tile after every four stores. -/
def mdChunk (base : Int) (x0 x1 x2 x3 : Sample) (out : Int) : List BlitOp :=
  [BlitOp.colorIn 0 x0, BlitOp.rgbOut 0 (base + 2 * out), BlitOp.rgbOut 1 (base + 2 * (out + 1)),
   BlitOp.colorIn 1 x1, BlitOp.rgbOut 2 (base + 2 * (out + 2)),
   BlitOp.rgbOut 3 (base + 2 * (out + 3)),
   BlitOp.colorIn 2 x2, BlitOp.rgbOut 4 (base + 2 * (out + 16)),
   BlitOp.rgbOut 5 (base + 2 * (out + 17)),
   BlitOp.colorIn 3 x3, BlitOp.rgbOut 6 (base + 2 * (out + 18)),
   BlitOp.rgbOut 7 (base + 2 * (out + 19))]

/-- The chunk loop of `md_ntsc_blit`, `for ( n = chunk_count; n; --n )`, for a
non-negative count: the steps, the row pointer and `line_out` after the loop. -/
def mdChunks (base : Int) : Nat → Int → Int → List BlitOp × Int × Int
  | 0, input, out => ([], input, out)
  | n + 1, input, out =>
    let c := mdChunk base (Sample.pixel input) (Sample.pixel (input + 1))
      (Sample.pixel (input + 2)) (Sample.pixel (input + 3)) out
    let r := mdChunks base n (input + 4) (out + 32)
    (c ++ r.1, r.2)

/-- Translation of `md_ntsc_blit(ntsc, table, input, in_width, vline)`: the
steps it performs, in order. The three `table[*input++]` arguments of the
begin-row macro are evaluated in the order of its pixel slots. `vline >> 2` is
the floor of `vline / 4` and `vline & 3` is `vline` modulo 4. There is no
result when `chunk_count` is negative: the loop counter then never reaches
zero. -/
def md_ntsc_blit (in_width vline : Int) : Option (List BlitOp) :=
  let chunk_count := cdiv in_width md_ntsc_in_chunk - 1
  /- use palette entry 0 for unused pixels -/
  let begin := BlitOp.beginRow Sample.border [Sample.pixel 0, Sample.pixel 1, Sample.pixel 2]
  /- directly fill the RGB565 texture: one tile is 32 byte = 4x4 pixels -/
  let tiles := MD_NTSC_OUT_WIDTH in_width / 4
  let base := (tiles * 32) * (vline / 4) + (vline % 4) * 8
  if chunk_count < 0 then none
  else
    let loop := mdChunks base chunk_count.toNat 3 0
    /- finish final pixels -/
    let final := mdChunk base (Sample.pixel loop.2.1) Sample.border Sample.border
      Sample.border loop.2.2
    some (begin :: (loop.1 ++ final))

/-- The samples a step hands to the filter. -/
def BlitOp.samples : BlitOp → List Sample
  | BlitOp.beginRow pixel0 pixels => pixel0 :: pixels
  | BlitOp.colorIn _ x => [x]
  | BlitOp.rgbOut _ _ => []

/-- All samples handed to the filter by a run, in order. -/
def fedSamples (ops : List BlitOp) : List Sample := ops.flatMap BlitOp.samples

/-- The index of `input` a sample reads, if it reads one. -/
def Sample.read : Sample → Option Int
  | Sample.border => none
  | Sample.pixel i => some i
  | Sample.masked i _ => some i

/-- The source pixel a sample carries: none for the border colour and for a
read that is masked to zero. -/
def Sample.source : Sample → Option Int
  | Sample.border => none
  | Sample.pixel i => some i
  | Sample.masked i m => if m = 0 then none else some i

/-- Indices at which a run reads `input`, in order. -/
def inputReads (ops : List BlitOp) : List Int := (fedSamples ops).filterMap Sample.read

/-- Source pixels a run feeds to the filter, in order. -/
def sourcesFed (ops : List BlitOp) : List Int := (fedSamples ops).filterMap Sample.source

/-- A step that stores an output pixel. -/
def BlitOp.isOut : BlitOp → Bool
  | BlitOp.rgbOut _ _ => true
  | _ => false

/-- Number of output pixels a run writes. -/
def pixelsWritten (ops : List BlitOp) : Nat := ops.countP BlitOp.isOut

/-- The run of unmasked source samples `table[input[a]]`, `table[input[a+1]]`,
and so on, `n` of them. -/
def pixelsFrom (a : Int) : Nat → List Sample
  | 0 => []
  | n + 1 => Sample.pixel a :: pixelsFrom (a + 1) n

/-! ## Tiled layout of the texture -/

/-- The byte offset at which a step stores an output pixel, if it stores one. -/
def BlitOp.outOffset : BlitOp → Option Int
  | BlitOp.rgbOut _ byteOffset => some byteOffset
  | _ => none

/-- Byte offsets from `bitmap.data` of the output pixels a run writes, in order. -/
def outOffsets (ops : List BlitOp) : List Int := ops.filterMap BlitOp.outOffset

/-- Address of pixel (x, y), as a byte offset, in a texture of 16-bit pixels
stored as 4x4 tiles of 32 bytes, `tiles` tiles in each row of tiles: the tile,
then the line inside the tile, then the pixel inside the line. -/
def tiledOffset (tiles x y : Int) : Int :=
  32 * (tiles * (y / 4) + x / 4) + 8 * (y % 4) + 2 * (x % 4)

/-- Position of the k-th pixel of a line, in 16-bit pixels from the first pixel
of that line: four pixels in each tile, tiles 16 pixels apart. -/
def lineIndex (k : Nat) : Int := 16 * ((k : Int) / 4) + (k : Int) % 4

/-! ## Emulation mode -> Menu mode -/

/-- A call of `free` made while leaving emulation mode: of a filter context, of
the pixel data of a texture, or of a texture itself. -/
inductive Freed where
  | sms_ntsc (ctx : FilterCtx)
  | md_ntsc (ctx : FilterCtx)
  | texture_data (texture : Png)
  | texture (texture : Png)
  deriving DecidableEq, Repr

/-- Translation of `gxTextureClose(p_texture)`: the new value of `*p_texture`
and the calls of `free` made. A texture that was opened has non-null data. When
`*p_texture` is null nothing is written and it stays null. -/
def gxTextureClose (p_texture : Option Png) : Option Png × List Freed :=
  match p_texture with
  | some texture => (none, [Freed.texture_data texture, Freed.texture texture])
  | none => (none, [])

/-- Translation of `gx_video_Stop()`: the new state and the calls of `free`
made, in order. The VI and GX calls of the function (callback removal, field
wait, menu rendering, snapshot, default TV mode) and its writes to the menu mode
object `vmode` touch none of the fields of `State` and are not recorded. -/
def gx_video_Stop (s : State) : State × List Freed :=
  /- unallocate NTSC filters -/
  let f1 := match s.sms_ntsc with
    | some ctx => [Freed.sms_ntsc ctx]
    | none => []
  let f2 := match s.md_ntsc with
    | some ctx => [Freed.md_ntsc ctx]
    | none => []
  /- lightgun textures -/
  let c0 := gxTextureClose s.crosshair0
  let c1 := gxTextureClose s.crosshair1
  /- CD leds textures -/
  let l00 := gxTextureClose s.cd_leds00
  let l01 := gxTextureClose s.cd_leds01
  let l10 := gxTextureClose s.cd_leds10
  let l11 := gxTextureClose s.cd_leds11
  ({ s with
      sms_ntsc := none
      md_ntsc := none
      crosshair0 := c0.1
      crosshair1 := c1.1
      cd_leds00 := l00.1
      cd_leds01 := l01.1
      cd_leds10 := l10.1
      cd_leds11 := l11.1 },
    f1 ++ f2 ++ c0.2 ++ c1.2 ++ l00.2 ++ l01.2 ++ l10.2 ++ l11.2)

/-! ## RGBA8 tile codec -/

/-- A store `a[i] = v` into an array of 16-bit or 32-bit objects, indexed in
units of its element size. -/
def store (a : Nat → Nat) (i v : Nat) : Nat → Nat := fun j => if j = i then v else a j

/-- The AR half of a 32-bit pixel,
`((pixel << 8) & 0xff00) | ((pixel >> 24) & 0x00ff)`, the shift being a `u32`
shift. -/
def texelAR (pixel : Nat) : Nat :=
  (((pixel <<< 8) % 4294967296) &&& 0xff00) ||| ((pixel >>> 24) &&& 0x00ff)

/-- The GB half of a 32-bit pixel, `(pixel >> 8) & 0xffff`. -/
def texelGB (pixel : Nat) : Nat := (pixel >>> 8) &&& 0xffff

/-- The 32-bit pixel rebuilt from its two halves,
`((*ar & 0xff) << 24) | (*gb << 8) | ((*ar & 0xff00) >> 8)`, stored in a `u32`. -/
def texelPixel (ar gb : Nat) : Nat :=
  ((((ar &&& 0xff) <<< 24) ||| (gb <<< 8)) ||| ((ar &&& 0xff00) >>> 8)) % 4294967296

/-- The loop `for (i=0; i<4; i++)` of the encoding loop of `gxTextureOpenPNG`,
for a count `n`: `pixel = *src++; *dst_ar++ = ...; *dst_gb++ = ...;`. `img` is
the decoded image as an array of `u32`, `data` the texture data as an array of
`u16`. Returns the row pointer, the two texel pointers and the texture data. -/
def encodePixels (img : Nat → Nat) :
    Nat → Nat → Nat → Nat → (Nat → Nat) → Nat × Nat × Nat × (Nat → Nat)
  | 0, src, dst_ar, dst_gb, data => (src, dst_ar, dst_gb, data)
  | n + 1, src, dst_ar, dst_gb, data =>
    let pixel := img src
    encodePixels img n (src + 1) (dst_ar + 1) (dst_gb + 1)
      (store (store data dst_ar (texelAR pixel)) dst_gb (texelGB pixel))

/-- Variables of the encoding loop of `gxTextureOpenPNG`: the four row pointers,
in 32-bit pixels from `img_data`, the two texel pointers, in 16-bit units from
`texture->data`, and the texture data. -/
structure EncodeVars where
  src1 : Nat
  src2 : Nat
  src3 : Nat
  src4 : Nat
  dst_ar : Nat
  dst_gb : Nat
  data : Nat → Nat

/-- One pass of the body of the loop `for (w=0; w<width; w+=4)` of the encoding
loop: lines N to N + 3 of one tile, then "next paired tiles". -/
def encodeTile (img : Nat → Nat) (v : EncodeVars) : EncodeVars :=
  /- line N (4 pixels) -/
  let l1 := encodePixels img 4 v.src1 v.dst_ar v.dst_gb v.data
  /- line N + 1 (4 pixels) -/
  let l2 := encodePixels img 4 v.src2 l1.2.1 l1.2.2.1 l1.2.2.2
  /- line N + 2 (4 pixels) -/
  let l3 := encodePixels img 4 v.src3 l2.2.1 l2.2.2.1 l2.2.2.2
  /- line N + 3 (4 pixels) -/
  let l4 := encodePixels img 4 v.src4 l3.2.1 l3.2.2.1 l3.2.2.2
  /- next paired tiles -/
  { src1 := l1.1, src2 := l2.1, src3 := l3.1, src4 := l4.1
    dst_ar := l4.2.1 + 16, dst_gb := l4.2.2.1 + 16, data := l4.2.2.2 }

/-- One pass of the body of the loop `for (h=0; h<height; h+=4)` of the encoding
loop: the tiles of four lines, then "next 4 lines". -/
def encodeRow (img : Nat → Nat) (width : Nat) (v : EncodeVars) : EncodeVars :=
  let v := Nat.iterate (encodeTile img) ((width + 3) / 4) v
  /- next 4 lines -/
  let src1 := v.src4
  let src2 := src1 + width
  let src3 := src2 + width
  let src4 := src3 + width
  { v with src1 := src1, src2 := src2, src3 := src3, src4 := src4 }

/-- The encoding loop of `gxTextureOpenPNG`, "encode to GX_TF_RGBA8 format (4x4
pixels paired titles)": the texture data it leaves, as an array of `u16`, from
the decoded image `img`. `stride` is `width << 2` bytes, that is `width` pixels,
and `texture->data + 32` is 16 units after `texture->data`; the data is zero
before the loop. -/
def gxTextureOpenPNG_encode (img : Nat → Nat) (width height : Nat) : Nat → Nat :=
  (Nat.iterate (encodeRow img width) ((height + 3) / 4)
    { src1 := 0, src2 := width, src3 := 2 * width, src4 := 3 * width
      dst_ar := 0, dst_gb := 16, data := fun _ => 0 }).data

/-- The loop `for (i=0; i<4; i++)` of the decoding loop of `gxTextureWritePNG`,
for a count `n`: `pixel = ...; *dst++ = pixel; ar++; gb++;`. `data` is the
texture data as an array of `u16`, `img_data` the image buffer as an array of
`u32`. Returns the row pointer, the two texel pointers and the image buffer. -/
def decodePixels (data : Nat → Nat) :
    Nat → Nat → Nat → Nat → (Nat → Nat) → Nat × Nat × Nat × (Nat → Nat)
  | 0, dst, ar, gb, img_data => (dst, ar, gb, img_data)
  | n + 1, dst, ar, gb, img_data =>
    let pixel := texelPixel (data ar) (data gb)
    decodePixels data n (dst + 1) (ar + 1) (gb + 1) (store img_data dst pixel)

/-- Variables of the decoding loop of `gxTextureWritePNG`: the four row
pointers, in 32-bit pixels from `img_data`, the two texel pointers, in 16-bit
units from `texture->data`, and the image buffer. -/
structure DecodeVars where
  dst1 : Nat
  dst2 : Nat
  dst3 : Nat
  dst4 : Nat
  ar : Nat
  gb : Nat
  img_data : Nat → Nat

/-- One pass of the body of the loop `for (w=0; w<texture->width; w+=4)` of the
decoding loop: lines N to N + 3 of one tile, then "next paired tiles". -/
def decodeTile (data : Nat → Nat) (v : DecodeVars) : DecodeVars :=
  /- line N (4 pixels) -/
  let l1 := decodePixels data 4 v.dst1 v.ar v.gb v.img_data
  /- line N + 1 (4 pixels) -/
  let l2 := decodePixels data 4 v.dst2 l1.2.1 l1.2.2.1 l1.2.2.2
  /- line N + 2 (4 pixels) -/
  let l3 := decodePixels data 4 v.dst3 l2.2.1 l2.2.2.1 l2.2.2.2
  /- line N + 3 (4 pixels) -/
  let l4 := decodePixels data 4 v.dst4 l3.2.1 l3.2.2.1 l3.2.2.2
  /- next paired tiles -/
  { dst1 := l1.1, dst2 := l2.1, dst3 := l3.1, dst4 := l4.1
    ar := l4.2.1 + 16, gb := l4.2.2.1 + 16, img_data := l4.2.2.2 }

/-- One pass of the body of the loop `for (h=0; h<texture->height; h+=4)` of the
decoding loop: the tiles of four lines, then "next 4 lines". -/
def decodeRow (data : Nat → Nat) (width : Nat) (v : DecodeVars) : DecodeVars :=
  let v := Nat.iterate (decodeTile data) ((width + 3) / 4) v
  /- next 4 lines -/
  let dst1 := v.dst4
  let dst2 := dst1 + width
  let dst3 := dst2 + width
  let dst4 := dst3 + width
  { v with dst1 := dst1, dst2 := dst2, dst3 := dst3, dst4 := dst4 }

/-- The decoding loop of `gxTextureWritePNG`, "decode GX_TF_RGBA8 format (4x4
pixels paired titles)": the image buffer it leaves, as an array of `u32`, from
the texture data `data` of a texture of the given width and height. The buffer
is freshly allocated; its initial contents are taken as zero. -/
def gxTextureWritePNG_decode (data : Nat → Nat) (width height : Nat) : Nat → Nat :=
  (Nat.iterate (decodeRow data width) ((height + 3) / 4)
    { dst1 := 0, dst2 := width, dst3 := width + width, dst4 := width + width + width
      ar := 0, gb := 16, img_data := fun _ => 0 }).img_data

/-! ## A concrete build, used to evaluate the model -/

/-- Header values of a concrete build: the VI limits of libogc (720 pixels;
240/480 and 288/576 lines, as the comments of the mode table say), its TV mode
and XFB mode numbers, the NTSC master clock and the Game Gear hardware id of
the emulator core, the two status flags of the front end, the output-width
macros of the two NTSC filter headers (3 pixels in and 7 out, 4 in and 8 out),
the device and system ids of the input layer, and the TV format numbers of
libogc with its macro `VI_TVMODE(fmt, mode)`, `((fmt) << 2) + (mode)`. -/
def hdr : Hdr :=
  { VI_MAX_WIDTH_NTSC := 720
    VI_MAX_HEIGHT_NTSC := 480
    VI_MAX_WIDTH_PAL := 720
    VI_MAX_HEIGHT_PAL := 576
    VI_TVMODE_PAL_DS := 5
    VI_TVMODE_PAL_INT := 4
    VI_TVMODE_EURGB60_DS := 21
    VI_TVMODE_EURGB60_INT := 20
    VI_XFBMODE_SF := 0
    VI_XFBMODE_DF := 1
    MCLOCK_NTSC := 53693175
    SYSTEM_GG := 64
    VIDEO_WAIT := 1
    VIDEO_UPDATE := 4
    MD_NTSC_OUT_WIDTH := fun w => ((toU32 ((w : Int) - 3)).toNat / 4 + 1) * 8
    SMS_NTSC_OUT_WIDTH := fun w => (w / 3 + 1) * 7
    VI_INTERLACE := 0
    VI_PROGRESSIVE := 2
    VI_TVMODE_PAL_PROG := 6
    MAX_DEVICES := 8
    DEVICE_LIGHTGUN := 4
    NO_DEVICE := 255
    SYSTEM_LIGHTPHASER := 8
    SYSTEM_MCD := 132
    VI_PAL := 1
    VI_NON_INTERLACE := 1
    VI_TVMODE := fun fmt mode => (fmt <<< 2) + mode }

/-- A Mega Drive NTSC game in H40 mode, 320x224 without borders, on a 60 Hz
display in original 4:3 aspect, no filtering, right after `gx_video_Start`
(viewport update forced, no mode selected yet). -/
def mdState : State :=
  { config :=
      { aspect := 1, overscan := 0, gg_extra := 0, render := 0, bilinear := 0, ntsc := 0
        vsync := 1, vfilter := 1, xscale := 0, yscale := 0, xshift := 0, yshift := 0 }
    viewport := { x := 0, y := 0, w := 320, h := 224, changed := 3 }
    reg12 := 129
    system_clock := 53693175
    system_hw := 128
    vdp_pal := 0
    interlaced := 0
    sample_rate := 48000
    gc_pal := 0
    modes := staticModes hdr
    rmode := none
    vwidth := 0
    vheight := 0
    square := { v0 := 0, v1 := 0, v2 := 0, v3 := 0, v4 := 0, v5 := 0, v6 := 0, v7 := 0 }
    videoSync := 1
    videoWait := 0
    osd := 0 }

/-- The same machine running a Master System game in H32 mode (256 pixels). -/
def h32State : State :=
  { mdState with reg12 := 0, viewport := { mdState.viewport with w := 256, h := 192 } }

/-- A Game Gear game without extended screen, manual aspect, no overscan and no
user scaling, shown on a 50 Hz display in a single-field mode. -/
def ggPalState : State :=
  { mdState with
    config := { mdState.config with aspect := 0 }
    system_hw := 64
    reg12 := 0
    viewport := { x := -48, y := 0, w := 256, h := 192, changed := 3 }
    gc_pal := 1 }

/-- A PAL Mega Drive game (240 lines) on a 50 Hz display in a double-resolution
render mode, original aspect. -/
def pal576State : State :=
  { mdState with
    config := { mdState.config with render := 1 }
    viewport := { mdState.viewport with h := 240 }
    vdp_pal := 1
    gc_pal := 1 }

/-- A Master System game (H32, 256 pixels wide) in original aspect with
widescreen correction, no filtering, 240p mode selected. -/
def wideH32State : State :=
  { mdState with
    config := { mdState.config with aspect := 2 }
    reg12 := 0
    viewport := { mdState.viewport with w := 256, h := 192 }
    rmode := some ModeId.TV60hz_240p }

/-- The Mega Drive state with the 240p mode selected. -/
def md240pState : State :=
  { mdState with rmode := some ModeId.TV60hz_240p }

/-- The Mega Drive state with bilinear filtering and the 240p mode selected. -/
def mdBilinearState : State :=
  { mdState with
    config := { mdState.config with bilinear := 1 }
    rmode := some ModeId.TV60hz_240p }

/-- The Mega Drive state in manual aspect with user scaling offsets. -/
def mdManualState : State :=
  { mdState with config := { mdState.config with aspect := 0, xscale := 4, yscale := -2 } }

/-- Frame-pacing invariant of the module: `videoSync` is zero or `VIDEO_WAIT`
(the only values `gx_video_Start` stores), and `videoWait` is zero or a copy of
`videoSync` (the only values `gx_video_Start`, `gx_video_Update` and the
retrace callback store). -/
def SyncOk (k : Hdr) (s : State) : Prop :=
  (s.videoSync = 0 ∨ s.videoSync = k.VIDEO_WAIT) ∧ (s.videoWait = 0 ∨ s.videoWait = s.videoSync)

/-- Two mode objects that agree on every field other than `fbWidth`, `viWidth`
and `viXOrigin`. -/
def sameButScaler (a b : GXRModeObj) : Prop :=
  { a with fbWidth := b.fbWidth, viWidth := b.viWidth, viXOrigin := b.viXOrigin } = b

/-- Two mode objects that agree on every field other than `viTVMode` and
`xfbMode`. -/
def sameButTvMode (a b : GXRModeObj) : Prop :=
  { a with viTVMode := b.viTVMode, xfbMode := b.xfbMode } = b

/-- The Mega Drive state with VSYNC off and only the interlace-changed flag set. -/
def novsyncState : State :=
  { mdState with
    config := { mdState.config with vsync := 0 }
    viewport := { mdState.viewport with changed := 4 } }

/-- The Mega Drive state with only the interlace-changed flag set. -/
def interlaceChangedState : State :=
  { mdState with viewport := { mdState.viewport with changed := 4 } }

/-- The Mega Drive state while the emulator waits for the next retrace. -/
def waitingState : State := { mdState with videoWait := 1 }

/-- The Mega Drive state with the RGB preset of the signal filter selected and a
custom sharpness of one half. -/
def rgbState : State :=
  { mdState with config := { mdState.config with ntsc := 3, ntsc_sharpness := 1 / 2 } }

/-- The Mega Drive state with the progressive double-resolution render mode. -/
def progressiveState : State :=
  { mdState with config := { mdState.config with render := 2 } }

/-- Scan mode of the specification, as selected by `config.render` and the
`interlaced` flag of the emulated VDP. -/
inductive ScanMode where
  | progressive
  | interlaced
  | doubleResolution
  deriving DecidableEq, Repr

/-- Scan mode requested by a render setting and an interlace flag. -/
def scanMode (render interlaced : Nat) : ScanMode :=
  if render ≠ 0 then ScanMode.doubleResolution
  else if interlaced ≠ 0 then ScanMode.interlaced
  else ScanMode.progressive

/-- The Mega Drive state with another emulated width and border and with user
scaling offsets. -/
def mdUserScaledState : State :=
  { mdState with
    config := { mdState.config with xscale := 10, yscale := -4 }
    viewport := { mdState.viewport with w := 256, x := 14 } }

/-- The PAL state in a double-resolution render mode with the 576-line mode
selected. -/
def pal576SelectedState : State :=
  { pal576State with rmode := some ModeId.TV50hz_576i }

/-- The Mega Drive state with the 240p mode selected and the largest horizontal
shift a 16-bit setting can hold. -/
def shiftedState : State :=
  { md240pState with config := { md240pState.config with xshift := 32767 } }

/-- The Mega Drive state with bilinear filtering in manual aspect with a user
scaling of 100 (resolved xscale 420), the 240p mode selected, and the mode
objects as a scaler reset in original aspect leaves them (VI width 644). -/
def staleViState : State :=
  { mdBilinearState with
    config := { mdBilinearState.config with aspect := 0, xscale := 100 }
    modes := (staticModes hdr).write ModeId.TV60hz_240p
      { TV60hz_240p hdr with viWidth := 644, viXOrigin := 38 } }

/-- The Master System state in H32 mode with the composite preset of the signal
filter selected. -/
def ntscH32State : State :=
  { h32State with config := { h32State.config with ntsc := 1 } }

/-- A 4x4 image with sixteen different pixels. -/
def sampleImage : Nat → Nat := fun i => (i * 16909060 + 2271560481) % 4294967296

/-- The Mega Drive state with an allocated low-resolution filter context, the
first crosshair and one CD led texture opened. -/
def overlayState : State :=
  { mdState with
    sms_ntsc := some { table := some NtscSetup.composite }
    crosshair0 := some Png.Crosshair_p1
    cd_leds01 := some Png.CD_access_on }

/-! ## Properties of the aspect resolver -/

theorem cdiv_of_nonneg (a b : Int) (ha : 0 ≤ a) (hb : 0 ≤ b) : cdiv a b = a / b :=
  Int.tdiv_eq_ediv ha hb

theorem land_two_ne_zero_imp {a : Nat} (h : a &&& 2 ≠ 0) : a ≠ 0 := by
  rintro rfl
  simp at h

/-- C1. Scenario 1: original aspect without widescreen correction, simulated
horizontal borders, H32 timing, a system other than Game Gear on the NTSC
master clock, emulated timing NTSC and hardware timing 60 Hz: the resolver
returns xscale 322 and the uncorrected yscale, half of the bordered height. -/
theorem scenario1_original_ntsc (k : Hdr) (s : State)
    (haspect : s.config.aspect = 1) (hover : s.config.overscan &&& 2 = 0)
    (_hreg : s.reg12 &&& 1 = 0) (hhw : s.system_hw ≠ k.SYSTEM_GG)
    (hclk : s.system_clock = k.MCLOCK_NTSC) (hvdp : s.vdp_pal = 0) (hgc : s.gc_pal = 0) :
    gxSetAspectRatio k s = (322, cdiv (s.viewport.h + 2 * s.viewport.y) 2) := by
  simp [gxSetAspectRatio, haspect, hover, hhw, hclk, hvdp, hgc]

theorem scenario1_original_ntsc_witness :
    gxSetAspectRatio hdr h32State
      = (322, cdiv (h32State.viewport.h + 2 * h32State.viewport.y) 2) :=
  scenario1_original_ntsc hdr h32State (by decide) (by decide) (by decide) (by decide)
    (by decide) (by decide) (by decide)

/-- C2 as stated fails: a Game Gear without extended screen in manual aspect,
overscan off and no user scaling, on a 50 Hz display in a single-field mode,
gets yscale 134 (112 upscaled by 576/480), not 112. -/
theorem scenario2_fails_on_pal_display :
    ggPalState.config.aspect = 0 ∧ ggPalState.system_hw = hdr.SYSTEM_GG ∧
    ggPalState.config.gg_extra = 0 ∧ ggPalState.config.overscan = 0 ∧
    ggPalState.config.xscale = 0 ∧ ggPalState.config.yscale = 0 ∧
    gxSetAspectRatio hdr ggPalState = (320, 134) ∧
    gxSetAspectRatio hdr ggPalState ≠ (320, 112) := by
  decide

/-- C2, amended. Scenario 2: manual aspect on a Game Gear without extended
screen, overscan off on both axes, no user scaling: xscale is 320 whatever the
viewport, and yscale is 112 on a 60 Hz display or in a double-resolution render
mode, and 112 upscaled by the PAL/NTSC height ratio otherwise. -/
theorem scenario2_manual_gamegear (k : Hdr) (s : State)
    (haspect : s.config.aspect = 0) (hhw : s.system_hw = k.SYSTEM_GG)
    (hgg : s.config.gg_extra = 0) (hover : s.config.overscan = 0)
    (hx : s.config.xscale = 0) (hy : s.config.yscale = 0) :
    gxSetAspectRatio k s =
      (320, if s.gc_pal ≠ 0 ∧ s.config.render = 0
            then cdiv (112 * k.VI_MAX_HEIGHT_PAL) k.VI_MAX_HEIGHT_NTSC else 112) := by
  simp [gxSetAspectRatio, haspect, hhw, hgg, hover, hx, hy]

theorem scenario2_manual_gamegear_witness :
    gxSetAspectRatio hdr ggPalState =
      (320, if ggPalState.gc_pal ≠ 0 ∧ ggPalState.config.render = 0
            then cdiv (112 * hdr.VI_MAX_HEIGHT_PAL) hdr.VI_MAX_HEIGHT_NTSC else 112) :=
  scenario2_manual_gamegear hdr ggPalState (by decide) (by decide) (by decide) (by decide)
    (by decide) (by decide)

/-! ## The timing table -/

/-- C3. Timing-table lookup: for a refresh class and an interlace flag in
0..1 the index used by the per-frame update lies in 0..5; two requests select
the same entry of the table exactly when they agree on the refresh class and on
the scan mode (progressive, interlaced, double resolution); every one of the
six mode objects is selected by some request; and the six statically defined
descriptors are pairwise different (the NTSC and PAL height limits differ). -/
theorem tvmodes_lookup_bijective (k : Hdr)
    (hheights : k.VI_MAX_HEIGHT_NTSC ≠ k.VI_MAX_HEIGHT_PAL) :
    (∀ g r i : Nat, g ≤ 1 → i ≤ 1 → tvmodeIndex g r i ≤ 5) ∧
    (∀ g r i g2 r2 i2 : Nat, g ≤ 1 → i ≤ 1 → g2 ≤ 1 → i2 ≤ 1 →
      (tvmodes (tvmodeIndex g r i) = tvmodes (tvmodeIndex g2 r2 i2) ↔
        g = g2 ∧ scanMode r i = scanMode r2 i2)) ∧
    (∀ p : ModeId, ∃ g r i : Nat, g ≤ 1 ∧ i ≤ 1 ∧ tvmodes (tvmodeIndex g r i) = some p) ∧
    (∀ p q : ModeId, p ≠ q → (staticModes k).read p ≠ (staticModes k).read q) := by
  refine ⟨?_, ?_, ?_, ?_⟩
  · intro g r i hg hi
    unfold tvmodeIndex
    split <;> omega
  · intro g r i g2 r2 i2 hg hi hg2 hi2
    have hg01 : g = 0 ∨ g = 1 := by omega
    have hi01 : i = 0 ∨ i = 1 := by omega
    have hg201 : g2 = 0 ∨ g2 = 1 := by omega
    have hi201 : i2 = 0 ∨ i2 = 1 := by omega
    by_cases hr : r = 0 <;> by_cases hr2 : r2 = 0 <;>
      rcases hg01 with rfl | rfl <;> rcases hg201 with rfl | rfl <;>
      rcases hi01 with rfl | rfl <;> rcases hi201 with rfl | rfl <;>
      simp [tvmodeIndex, scanMode, tvmodes, hr, hr2]
  · intro p
    cases p
    · exact ⟨0, 0, 0, by decide, by decide, rfl⟩
    · exact ⟨0, 0, 1, by decide, by decide, rfl⟩
    · exact ⟨0, 1, 0, by decide, by decide, rfl⟩
    · exact ⟨1, 0, 0, by decide, by decide, rfl⟩
    · exact ⟨1, 0, 1, by decide, by decide, rfl⟩
    · exact ⟨1, 1, 0, by decide, by decide, rfl⟩
  · intro p q hpq heq
    have hh := congrArg GXRModeObj.viHeight heq
    have hf := congrArg GXRModeObj.field_rendering heq
    have hv := congrArg GXRModeObj.vfilter heq
    cases p <;> cases q <;>
      simp [staticModes, ModeStore.read, TV60hz_240p, TV60hz_240i, TV60hz_480i,
        TV50hz_288p, TV50hz_288i, TV50hz_576i, vfilterOff, vfilterOn] at hpq hh hf hv
    all_goals first
      | exact hheights hh
      | exact hheights hh.symm

theorem tvmodes_lookup_bijective_witness :
    (∀ g r i : Nat, g ≤ 1 → i ≤ 1 → tvmodeIndex g r i ≤ 5) ∧
    (∀ g r i g2 r2 i2 : Nat, g ≤ 1 → i ≤ 1 → g2 ≤ 1 → i2 ≤ 1 →
      (tvmodes (tvmodeIndex g r i) = tvmodes (tvmodeIndex g2 r2 i2) ↔
        g = g2 ∧ scanMode r i = scanMode r2 i2)) ∧
    (∀ p : ModeId, ∃ g r i : Nat, g ≤ 1 ∧ i ≤ 1 ∧ tvmodes (tvmodeIndex g r i) = some p) ∧
    (∀ p q : ModeId, p ≠ q → (staticModes hdr).read p ≠ (staticModes hdr).read q) :=
  tvmodes_lookup_bijective hdr (by decide)

/-! ## Original and manual aspect -/

/-- C4 as stated fails: a PAL game on a 50 Hz display in a double-resolution
render mode has equal emulated and hardware timing classes, yet the vertical
scale is corrected (120 becomes 100). -/
theorem cross_correction_with_equal_classes :
    pal576State.config.aspect ≠ 0 ∧ pal576State.vdp_pal = pal576State.gc_pal ∧
    cdiv (pal576State.viewport.h + 2 * pal576State.viewport.y) 2 = 120 ∧
    (gxSetAspectRatio hdr pal576State).2 = 100 := by
  decide

/-- C4, amended. In original aspect mode the base vertical scale, half of the
bordered height, is corrected against the class of the EFB that is displayed,
which is PAL only on a 50 Hz display in a single-field render mode. With
config.render zero the correction is applied exactly when vdp_pal and gc_pal
differ (times NTSC/PAL for a PAL game, times PAL/NTSC for a 50 Hz display);
with config.render non-zero it is applied exactly when vdp_pal is set (times
NTSC/PAL), whatever gc_pal. -/
theorem vertical_cross_correction (k : Hdr) (s : State) (haspect : s.config.aspect ≠ 0) :
    (s.config.render = 0 →
      (s.vdp_pal = 0 → s.gc_pal = 0 →
        (gxSetAspectRatio k s).2 = cdiv (s.viewport.h + 2 * s.viewport.y) 2) ∧
      (s.vdp_pal ≠ 0 → s.gc_pal ≠ 0 →
        (gxSetAspectRatio k s).2 = cdiv (s.viewport.h + 2 * s.viewport.y) 2) ∧
      (s.vdp_pal ≠ 0 → s.gc_pal = 0 →
        (gxSetAspectRatio k s).2 =
          cdiv (cdiv (s.viewport.h + 2 * s.viewport.y) 2 * k.VI_MAX_HEIGHT_NTSC)
            k.VI_MAX_HEIGHT_PAL) ∧
      (s.vdp_pal = 0 → s.gc_pal ≠ 0 →
        (gxSetAspectRatio k s).2 =
          cdiv (cdiv (s.viewport.h + 2 * s.viewport.y) 2 * k.VI_MAX_HEIGHT_PAL)
            k.VI_MAX_HEIGHT_NTSC)) ∧
    (s.config.render ≠ 0 →
      (s.vdp_pal = 0 →
        (gxSetAspectRatio k s).2 = cdiv (s.viewport.h + 2 * s.viewport.y) 2) ∧
      (s.vdp_pal ≠ 0 →
        (gxSetAspectRatio k s).2 =
          cdiv (cdiv (s.viewport.h + 2 * s.viewport.y) 2 * k.VI_MAX_HEIGHT_NTSC)
            k.VI_MAX_HEIGHT_PAL)) := by
  refine ⟨fun hr => ⟨?_, ?_, ?_, ?_⟩, fun hr => ⟨?_, ?_⟩⟩ <;> intros <;>
    simp_all [gxSetAspectRatio]

theorem vertical_cross_correction_witness :
    (gxSetAspectRatio hdr pal576State).2 =
      cdiv (cdiv (pal576State.viewport.h + 2 * pal576State.viewport.y) 2
        * hdr.VI_MAX_HEIGHT_NTSC) hdr.VI_MAX_HEIGHT_PAL :=
  ((vertical_cross_correction hdr pal576State (by decide)).2 (by decide)).2 (by decide)

/-- C5. In original aspect mode without widescreen correction the horizontal
scale is the calibrated constant picked by the border policy and the H40 bit:
350 or 354 (emulated borders, H40), 357 or 361 (emulated borders, H32), 322 or
325 (simulated borders, either timing), the first of each pair on the NTSC
master clock, and 202 on a Game Gear without extended screen with simulated
borders. No other value is returned. -/
theorem original_aspect_xscale (k : Hdr) (s : State)
    (haspect : s.config.aspect ≠ 0) (hwide : s.config.aspect &&& 2 = 0) :
    (s.config.overscan &&& 2 ≠ 0 → s.reg12 &&& 1 ≠ 0 →
      (gxSetAspectRatio k s).1 = if s.system_clock = k.MCLOCK_NTSC then 350 else 354) ∧
    (s.config.overscan &&& 2 ≠ 0 → s.reg12 &&& 1 = 0 →
      (gxSetAspectRatio k s).1 = if s.system_clock = k.MCLOCK_NTSC then 357 else 361) ∧
    (s.config.overscan &&& 2 = 0 → ¬ (s.system_hw = k.SYSTEM_GG ∧ s.config.gg_extra = 0) →
      (gxSetAspectRatio k s).1 = if s.system_clock = k.MCLOCK_NTSC then 322 else 325) ∧
    (s.config.overscan &&& 2 = 0 → s.system_hw = k.SYSTEM_GG → s.config.gg_extra = 0 →
      (gxSetAspectRatio k s).1 = 202) ∧
    ((gxSetAspectRatio k s).1 = 350 ∨ (gxSetAspectRatio k s).1 = 354 ∨
      (gxSetAspectRatio k s).1 = 357 ∨ (gxSetAspectRatio k s).1 = 361 ∨
      (gxSetAspectRatio k s).1 = 322 ∨ (gxSetAspectRatio k s).1 = 325 ∨
      (gxSetAspectRatio k s).1 = 202) := by
  refine ⟨?_, ?_, ?_, ?_, ?_⟩
  · intro h1 h2
    simp_all [gxSetAspectRatio]
  · intro h1 h2
    simp_all [gxSetAspectRatio]
  · intro h1 h2
    simp_all [gxSetAspectRatio]
  · intro h1 h2 h3
    simp_all [gxSetAspectRatio]
  · simp only [gxSetAspectRatio, haspect, hwide]
    simp only [ne_eq, not_false_eq_true, not_true_eq_false, if_true, if_false]
    split_ifs <;> simp

theorem original_aspect_xscale_witness :
    (gxSetAspectRatio hdr mdState).1 = if mdState.system_clock = hdr.MCLOCK_NTSC then 322 else 325 :=
  (original_aspect_xscale hdr mdState (by decide) (by decide)).2.2.1 (by decide) (by decide)

/-- The horizontal scale of original aspect before widescreen correction is one
of the seven calibrated constants. -/
theorem original_xscale_values (k : Hdr) (s : State) :
    (gxSetAspectRatio k { s with config := { s.config with aspect := 1 } }).1 ∈
      ([350, 354, 357, 361, 322, 325, 202] : List Int) := by
  simp only [gxSetAspectRatio]
  split_ifs <;> simp_all

/-- C6. Widescreen correction: with the widescreen bit of config.aspect set,
the horizontal scale is the floor of three quarters of the horizontal scale
the same state gets with config.aspect = 1, and the vertical scale is the
same. -/
theorem widescreen_correction (k : Hdr) (s : State) (hwide : s.config.aspect &&& 2 ≠ 0) :
    (gxSetAspectRatio k s).1 =
      ⌊(3 * ((gxSetAspectRatio k { s with config := { s.config with aspect := 1 } }).1 : ℚ)) / 4⌋ ∧
    (gxSetAspectRatio k s).2 =
      (gxSetAspectRatio k { s with config := { s.config with aspect := 1 } }).2 := by
  have haspect : s.config.aspect ≠ 0 := land_two_ne_zero_imp hwide
  have hx : (gxSetAspectRatio k s).1 =
      cdiv ((gxSetAspectRatio k { s with config := { s.config with aspect := 1 } }).1 * 3) 4 := by
    simp [gxSetAspectRatio, haspect, hwide]
  have hy : (gxSetAspectRatio k s).2 =
      (gxSetAspectRatio k { s with config := { s.config with aspect := 1 } }).2 := by
    simp [gxSetAspectRatio, haspect]
  refine ⟨?_, hy⟩
  rw [hx]
  have hmem := original_xscale_values k s
  generalize (gxSetAspectRatio k { s with config := { s.config with aspect := 1 } }).1 = x0
    at hmem ⊢
  simp only [List.mem_cons, List.mem_singleton, List.not_mem_nil, or_false] at hmem
  clear hx hy
  rcases hmem with rfl | rfl | rfl | rfl | rfl | rfl | rfl <;>
    (rw [cdiv_of_nonneg _ _ (by norm_num) (by norm_num)]; symm
     rw [Int.floor_eq_iff]; constructor <;> norm_num)

theorem widescreen_correction_witness :
    (gxSetAspectRatio hdr { mdState with config := { mdState.config with aspect := 2 } }).1 =
      ⌊(3 * ((gxSetAspectRatio hdr
        { ({ mdState with config := { mdState.config with aspect := 2 } } : State) with
          config := { ({ mdState with config := { mdState.config with aspect := 2 } } : State).config
                      with aspect := 1 } }).1 : ℚ)) / 4⌋ :=
  (widescreen_correction hdr { mdState with config := { mdState.config with aspect := 2 } }
    (by decide)).1

/-- C7. Manual aspect on a system that is not a Game Gear without extended
screen, on a 60 Hz display: xscale is the bordered viewport width W (when the
H40 bit of reg[12] is set) or W*320/256 (when it is clear) plus config.xscale,
and yscale is half of the bordered height plus config.yscale. -/
theorem manual_aspect_scales (k : Hdr) (s : State)
    (haspect : s.config.aspect = 0)
    (hgg : ¬ (s.system_hw = k.SYSTEM_GG ∧ s.config.gg_extra = 0))
    (hgc : s.gc_pal = 0) :
    gxSetAspectRatio k s =
      ((if s.reg12 &&& 1 ≠ 0 then s.viewport.w + 2 * s.viewport.x
        else cdiv ((s.viewport.w + 2 * s.viewport.x) * 320) 256) + s.config.xscale,
       cdiv (s.viewport.h + 2 * s.viewport.y) 2 + s.config.yscale) := by
  by_cases hreg : s.reg12 &&& 1 = 0 <;>
    simp_all [gxSetAspectRatio]

theorem manual_aspect_scales_witness :
    gxSetAspectRatio hdr mdManualState =
      ((if mdManualState.reg12 &&& 1 ≠ 0 then mdManualState.viewport.w + 2 * mdManualState.viewport.x
        else cdiv ((mdManualState.viewport.w + 2 * mdManualState.viewport.x) * 320) 256)
          + mdManualState.config.xscale,
       cdiv (mdManualState.viewport.h + 2 * mdManualState.viewport.y) 2
          + mdManualState.config.yscale) :=
  manual_aspect_scales hdr mdManualState (by decide) (by decide) (by decide)

/-! ## Properties of the scaler -/

theorem ModeStore.read_write (m : ModeStore) (p : ModeId) (r : GXRModeObj) :
    (m.write p r).read p = r := by
  cases p <;> rfl

theorem efbWidth_bounds (c : Config) (width : Nat) (xscale : Int) :
    0 ≤ efbWidth c width xscale ∧ efbWidth c width xscale ≤ 640 := by
  unfold efbWidth toU16
  split_ifs <;> omega

/-- With `xscale` at most 360 no offset is saved: "configure VI width" divides
nothing, leaves `fbWidth` as the first step set it, and the VI width it stores
is positive when the EFB width or `xscale` is. -/
theorem configureVI_of_le (c : Config) (r : GXRModeObj) (xscale : Int) (hx : xscale ≤ 360) :
    ∃ r2 x2, configureVI c r xscale = some (r2, x2) ∧ r2.fbWidth = r.fbWidth ∧
      r2.viHeight = r.viHeight ∧
      (0 ≤ r.fbWidth → (0 < r.fbWidth ∨ 0 < xscale) → 0 < r2.viWidth) := by
  have hx2 : ¬ xscale > 360 := by omega
  unfold configureVI
  by_cases h : xscale * 2 > r.fbWidth
  · simp only [h, hx2, if_true, if_false, ne_eq, not_true_eq_false]
    refine ⟨_, _, rfl, rfl, rfl, ?_⟩
    intro h0 _
    simp only [toU16]
    omega
  · simp only [h, if_false]
    refine ⟨_, _, rfl, rfl, rfl, ?_⟩
    intro h0 hpos
    simp only
    omega

/-- When "configure VI width" has a result and leaves non-zero VI dimensions,
`gxResetScaler` has one, and the object `rmode` points to is the configured one. -/
theorem gxResetScaler_of_configureVI (k : Hdr) (s : State) (width : Nat) (p : ModeId)
    (r : GXRModeObj) (x : Int) (hp : s.rmode = some p)
    (hc : configureVI s.config
      { s.modes.read p with fbWidth := efbWidth s.config width (gxSetAspectRatio k s).1 }
      (gxSetAspectRatio k s).1 = some (r, x))
    (hw : r.viWidth ≠ 0) (hh : r.viHeight ≠ 0) :
    ∃ s2, gxResetScaler k s width = some s2 ∧ s2.modes.read p = r := by
  unfold gxResetScaler
  simp only [hp, hc, cdivq, hw, hh, if_false]
  exact ⟨_, rfl, ModeStore.read_write _ _ _⟩

/-- C8 as stated fails: a 256-pixel texture with no filtering and a resolved
xscale of 241 (original aspect with widescreen correction) is at most 320 wide
and xscale is at most 360, yet the EFB width is set to 256, not to 512. -/
theorem pixel_doubling_needs_width_le_xscale :
    wideH32State.config.bilinear = 0 ∧ wideH32State.config.ntsc = 0 ∧
    (gxSetAspectRatio hdr wideH32State).1 = 241 ∧
    (gxResetScaler hdr wideH32State 256).map
      (fun s2 => (s2.modes.read ModeId.TV60hz_240p).fbWidth) = some 256 := by
  decide

/-- C8, amended. Pixel doubling: for a texture width of at most 320, with
smoothing and the signal filter both off and the resolved xscale at most 360,
`gxResetScaler` sets `rmode->fbWidth` to exactly twice the width when the width
is at most the resolved xscale (compared as unsigned, as the code does), and to
the width itself otherwise. The call is defined when `rmode` is set, `viHeight`
is non-zero and the width or the resolved xscale is positive. -/
theorem pixel_doubling (k : Hdr) (s : State) (width : Nat) (p : ModeId)
    (hp : s.rmode = some p) (hvh : (s.modes.read p).viHeight ≠ 0)
    (hpos : 1 ≤ width ∨ 0 < (gxSetAspectRatio k s).1)
    (hw : width ≤ 320) (hb : s.config.bilinear = 0) (hn : s.config.ntsc = 0)
    (hx : (gxSetAspectRatio k s).1 ≤ 360) :
    ∃ s2, gxResetScaler k s width = some s2 ∧
      (s2.modes.read p).fbWidth =
        if (width : Int) ≤ toU32 (gxSetAspectRatio k s).1 then 2 * (width : Int)
        else (width : Int) := by
  have hfb : efbWidth s.config width (gxSetAspectRatio k s).1 =
      if (width : Int) ≤ toU32 (gxSetAspectRatio k s).1 then 2 * (width : Int)
      else (width : Int) := by
    have hw2 : width ≤ 640 := by omega
    by_cases hle : (width : Int) ≤ toU32 (gxSetAspectRatio k s).1
    · simp only [efbWidth, hb, hn, and_self, if_true, hw, hle, toU16]
      omega
    · simp only [efbWidth, hb, hn, and_self, if_true, hw, hw2, hle, and_false, if_false, toU16]
      omega
  obtain ⟨r2, x2, hc, hfb2, hvh2, hvw⟩ := configureVI_of_le s.config
    { s.modes.read p with fbWidth := efbWidth s.config width (gxSetAspectRatio k s).1 }
    (gxSetAspectRatio k s).1 hx
  have hvw2 : 0 < r2.viWidth := by
    apply hvw
    · show 0 ≤ efbWidth s.config width (gxSetAspectRatio k s).1
      exact (efbWidth_bounds _ _ _).1
    · show 0 < efbWidth s.config width (gxSetAspectRatio k s).1 ∨ 0 < (gxSetAspectRatio k s).1
      rcases hpos with h1 | h1
      · left
        rw [hfb]
        split_ifs <;> omega
      · exact Or.inr h1
  obtain ⟨s2, hs2, hr⟩ := gxResetScaler_of_configureVI k s width p r2 x2 hp hc
    (by omega) (by rw [hvh2]; exact hvh)
  exact ⟨s2, hs2, by rw [hr]; exact hfb2.trans hfb⟩

theorem pixel_doubling_witness :
    ∃ s2, gxResetScaler hdr md240pState 320 = some s2 ∧
      (s2.modes.read ModeId.TV60hz_240p).fbWidth =
        if ((320 : Nat) : Int) ≤ toU32 (gxSetAspectRatio hdr md240pState).1
        then 2 * ((320 : Nat) : Int) else ((320 : Nat) : Int) :=
  pixel_doubling hdr md240pState 320 ModeId.TV60hz_240p rfl (by decide) (by decide)
    (by decide) (by decide) (by decide) (by decide)

/-- With smoothing or the signal filter on, "configure VI width" keeps the EFB
width at its default of 640 and stores a positive VI width; it has a result as
soon as no offset is saved or the previous VI width is non-zero. -/
theorem configureVI_filtered (c : Config) (r : GXRModeObj) (xscale : Int)
    (hf : ¬ (c.bilinear = 0 ∧ c.ntsc = 0)) (hfb : r.fbWidth = 640)
    (hdef : xscale ≤ 360 ∨ r.viWidth ≠ 0) :
    ∃ r2 x2, configureVI c r xscale = some (r2, x2) ∧ r2.fbWidth = 640 ∧
      r2.viHeight = r.viHeight ∧ 0 < r2.viWidth := by
  unfold configureVI
  by_cases h : xscale * 2 > r.fbWidth
  · by_cases h360 : xscale > 360
    · have hvw : r.viWidth ≠ 0 := by
        rcases hdef with h1 | h1
        · omega
        · exact h1
      simp only [h, h360, if_true, cdivq, hvw, if_false, hf]
      by_cases hoff : Int.tdiv ((xscale - 360) * r.fbWidth) r.viWidth = 0
      · simp only [hoff, ne_eq, not_true_eq_false, if_false]
        exact ⟨_, _, rfl, hfb, rfl, by simp [toU16]⟩
      · simp only [hoff, ne_eq, not_false_eq_true, if_true]
        exact ⟨_, _, rfl, hfb, rfl, by simp [toU16]⟩
    · simp only [h, h360, if_true, if_false, ne_eq, not_true_eq_false]
      refine ⟨_, _, rfl, hfb, rfl, ?_⟩
      simp only [toU16]
      omega
  · simp only [h, if_false]
    refine ⟨_, _, rfl, hfb, rfl, ?_⟩
    simp only
    omega

/-- C9. The hardware-scale-disabled path needs both filters off: whenever
config.bilinear or config.ntsc is non-zero, for every width and every resolved
xscale, `gxResetScaler` leaves `rmode->fbWidth` at the default 640 (the call
has a result when `rmode` is set, `viHeight` is non-zero and either no offset
is saved or the previous `viWidth` is non-zero). And in every case the EFB
width selected before any over-width reduction lies in 0..640, below the
720-pixel hardware maximum. -/
theorem filtering_keeps_default_efb_width (k : Hdr) :
    (∀ (s : State) (width : Nat) (p : ModeId),
      s.rmode = some p → (s.modes.read p).viHeight ≠ 0 →
      ((gxSetAspectRatio k s).1 ≤ 360 ∨ (s.modes.read p).viWidth ≠ 0) →
      (s.config.bilinear ≠ 0 ∨ s.config.ntsc ≠ 0) →
      ∃ s2, gxResetScaler k s width = some s2 ∧ (s2.modes.read p).fbWidth = 640) ∧
    (∀ (c : Config) (width : Nat) (xscale : Int),
      0 ≤ efbWidth c width xscale ∧ efbWidth c width xscale ≤ 640 ∧
      efbWidth c width xscale ≤ 720) := by
  constructor
  · intro s width p hp hvh hdef hf
    have hf2 : ¬ (s.config.bilinear = 0 ∧ s.config.ntsc = 0) := by
      rintro ⟨h1, h2⟩
      rcases hf with h | h
      · exact h h1
      · exact h h2
    have hfb : efbWidth s.config width (gxSetAspectRatio k s).1 = 640 := by
      simp only [efbWidth, hf2, if_false]
    obtain ⟨r2, x2, hc, hfb2, hvh2, hvw⟩ := configureVI_filtered s.config
      { s.modes.read p with fbWidth := efbWidth s.config width (gxSetAspectRatio k s).1 }
      (gxSetAspectRatio k s).1 hf2 hfb hdef
    obtain ⟨s2, hs2, hr⟩ := gxResetScaler_of_configureVI k s width p r2 x2 hp hc
      (by omega) (by rw [hvh2]; exact hvh)
    exact ⟨s2, hs2, by rw [hr]; exact hfb2⟩
  · intro c width xscale
    have h := efbWidth_bounds c width xscale
    omega

theorem filtering_keeps_default_efb_width_witness :
    ∃ s2, gxResetScaler hdr mdBilinearState 320 = some s2 ∧
      (s2.modes.read ModeId.TV60hz_240p).fbWidth = 640 :=
  (filtering_keeps_default_efb_width hdr).1 mdBilinearState 320 ModeId.TV60hz_240p rfl
    (by decide) (by decide) (by decide)

/-! ## Properties of the per-frame update -/

theorem andNot32_one_land_one (c : Nat) : andNot32 c 1 &&& 1 = 0 := by
  unfold andNot32
  rw [Nat.land_assoc, show (4294967295 ^^^ 1) &&& 1 = 0 from rfl, Nat.and_zero]

theorem andNot32_four_land_four (c : Nat) : andNot32 c 4 &&& 4 = 0 := by
  unfold andNot32
  rw [Nat.land_assoc, show (4294967295 ^^^ 4) &&& 4 = 0 from rfl, Nat.and_zero]

theorem andNot32_four_land_one (c : Nat) : andNot32 c 4 &&& 1 = c &&& 1 := by
  unfold andNot32
  rw [Nat.land_assoc, show (4294967295 ^^^ 4) &&& 1 = 1 from rfl]

theorem andNot32_one_land_four (c : Nat) : andNot32 c 1 &&& 4 = c &&& 4 := by
  unfold andNot32
  rw [Nat.land_assoc, show (4294967295 ^^^ 1) &&& 4 = 4 from rfl]

/-- The scaler reset does not touch the viewport. -/
theorem gxResetScaler_viewport (k : Hdr) (s : State) (width : Nat) (s2 : State)
    (h : gxResetScaler k s width = some s2) : s2.viewport = s.viewport := by
  unfold gxResetScaler at h
  cases hp : s.rmode with
  | none => simp [hp] at h
  | some p =>
    simp only [hp] at h
    generalize configureVI _ _ _ = c at h
    cases c with
    | none => simp at h
    | some rx =>
      obtain ⟨r, x⟩ := rx
      simp only at h
      generalize cdivq (s.config.xshift * _) _ = cx at h
      generalize cdivq (s.config.yshift * _) _ = cy at h
      cases cx <;> cases cy <;> simp only [Option.some.injEq, reduceCtorEq] at h
      rw [← h]

/-- The display-changed block does not touch the viewport. -/
theorem displayChanged_viewport (k : Hdr) (s : State) (s2 : State) (ev : List Event)
    (h : displayChanged k s = some (s2, ev)) : s2.viewport = s.viewport := by
  unfold displayChanged at h
  simp only at h
  generalize tvmodes _ = op at h
  cases op with
  | none => simp at h
  | some p =>
    simp only at h
    cases hs3 : gxResetScaler k
        { s with vwidth := (textureSize k s).1, vheight := (textureSize k s).2, rmode := some p }
        (textureSize k s).1 with
    | none => simp [hs3] at h
    | some s3 =>
      simp only [hs3, Option.some.injEq, Prod.mk.injEq] at h
      rw [← h.1]
      have hv := gxResetScaler_viewport k _ _ _ hs3
      exact hv

/-- After the second half of the update both change flags are clear. -/
theorem submitFrame_changed (k : Hdr) (s : State) (status : Nat) (ev1 : List Event) :
    (submitFrame k s status ev1).2.1.viewport.changed &&& 1 = 0 ∧
    (submitFrame k s status ev1).2.1.viewport.changed &&& 4 = 0 := by
  unfold submitFrame
  by_cases h4 : s.viewport.changed &&& 4 = 0 <;> by_cases h1 : s.viewport.changed &&& 1 = 0 <;>
    simp only [h4, h1, ne_eq, not_true_eq_false, not_false_eq_true, if_true, if_false,
      andNot32_one_land_one, andNot32_four_land_four, andNot32_four_land_one,
      andNot32_one_land_four, and_self]

/-- The second half of the update writes nothing but the change flags. -/
theorem submitFrame_frame (k : Hdr) (s : State) (status : Nat) (ev1 : List Event) :
    (submitFrame k s status ev1).2.1.rmode = s.rmode ∧
    (submitFrame k s status ev1).2.1.modes = s.modes ∧
    (submitFrame k s status ev1).2.1.vwidth = s.vwidth ∧
    (submitFrame k s status ev1).2.1.vheight = s.vheight ∧
    (submitFrame k s status ev1).2.1.square = s.square := by
  unfold submitFrame
  by_cases h4 : s.viewport.changed &&& 4 = 0 <;> by_cases h1 : s.viewport.changed &&& 1 = 0 <;>
    simp only [h4, h1, ne_eq, not_true_eq_false, not_false_eq_true, if_true, if_false,
      andNot32_four_land_one, and_self]

/-- The second half of the update makes no timing-reprogram call of its own. -/
theorem submitFrame_events (k : Hdr) (s : State) (status : Nat) :
    ∀ e ∈ (submitFrame k s status []).2.2, e.isReprogram = false := by
  have h : (submitFrame k s status []).2.2.all (fun e => !e.isReprogram) = true := by
    unfold submitFrame
    simp only [List.nil_append]
    split_ifs <;> simp [Event.isReprogram]
  intro e he
  have h2 := List.all_eq_true.mp h e he
  simpa using h2

/-- "Configure VI width" has a result whenever the previous VI width is
non-zero, and it stores a positive VI width when the EFB width selected by the
first step is positive. -/
theorem configureVI_defined (c : Config) (r : GXRModeObj) (xscale : Int)
    (hfb : 0 < r.fbWidth) (hvw : r.viWidth ≠ 0) :
    ∃ r2 x2, configureVI c r xscale = some (r2, x2) ∧ r2.viHeight = r.viHeight ∧
      0 < r2.viWidth := by
  unfold configureVI
  by_cases h : xscale * 2 > r.fbWidth
  · by_cases h360 : xscale > 360
    · simp only [h, h360, if_true, cdivq, hvw, if_false]
      by_cases hoff : Int.tdiv ((xscale - 360) * r.fbWidth) r.viWidth = 0
      · simp only [hoff, ne_eq, not_true_eq_false, if_false]
        exact ⟨_, _, rfl, rfl, by simp [toU16]⟩
      · simp only [hoff, ne_eq, not_false_eq_true, if_true]
        by_cases hf : c.bilinear = 0 ∧ c.ntsc = 0
        · simp only [hf, and_self, if_true]
          exact ⟨_, _, rfl, rfl, by simp [toU16]⟩
        · simp only [hf, if_false]
          exact ⟨_, _, rfl, rfl, by simp [toU16]⟩
    · simp only [h, h360, if_true, if_false, ne_eq, not_true_eq_false]
      refine ⟨_, _, rfl, rfl, ?_⟩
      simp only [toU16]
      omega
  · simp only [h, if_false]
    exact ⟨_, _, rfl, rfl, hfb⟩

/-- The EFB width selected by the first step is positive for a non-empty texture. -/
theorem efbWidth_pos (c : Config) (width : Nat) (xscale : Int) (hw : 1 ≤ width) :
    0 < efbWidth c width xscale := by
  unfold efbWidth toU16
  split_ifs <;> omega

/-- The scaler reset is defined when `rmode` points to an object with non-zero
VI width and height and the texture is not empty. -/
theorem gxResetScaler_defined (k : Hdr) (s : State) (width : Nat) (p : ModeId)
    (hp : s.rmode = some p) (hvw : (s.modes.read p).viWidth ≠ 0)
    (hvh : (s.modes.read p).viHeight ≠ 0) (hw : 1 ≤ width) :
    ∃ s2, gxResetScaler k s width = some s2 := by
  obtain ⟨r2, x2, hc, hvh2, hvw2⟩ := configureVI_defined s.config
    { s.modes.read p with fbWidth := efbWidth s.config width (gxSetAspectRatio k s).1 }
    (gxSetAspectRatio k s).1 (efbWidth_pos _ _ _ hw) hvw
  obtain ⟨s2, hs2, _⟩ := gxResetScaler_of_configureVI k s width p r2 x2 hp hc
    (by omega) (by rw [hvh2]; exact hvh)
  exact ⟨s2, hs2⟩

/-- The per-frame update is defined when the display has not changed, and also
when the selected entry of `tvmodes` exists, has non-zero VI width and height,
and the new texture is not empty. -/
theorem gx_video_Update_defined (k : Hdr) (s : State) (status : Nat)
    (hpre : s.viewport.changed &&& 1 = 0 ∨
      ∃ p, tvmodes (tvmodeIndex s.gc_pal s.config.render s.interlaced) = some p ∧
        (s.modes.read p).viWidth ≠ 0 ∧ (s.modes.read p).viHeight ≠ 0 ∧
        1 ≤ (textureSize k s).1) :
    ∃ r, gx_video_Update k s status = some r := by
  unfold gx_video_Update
  by_cases hupd : status &&& k.VIDEO_UPDATE = 0
  · simp only [hupd, ne_eq, not_true_eq_false, if_false]
    exact ⟨_, rfl⟩
  · simp only [hupd, ne_eq, not_false_eq_true, if_true]
    by_cases hch : s.viewport.changed &&& 1 = 0
    · simp only [hch, not_true_eq_false, if_false]
      exact ⟨_, rfl⟩
    · rcases hpre with h0 | ⟨p, hidx, hvw, hvh, hw⟩
      · exact absurd h0 hch
      · obtain ⟨s2, hs2⟩ := gxResetScaler_defined k
          { s with videoWait := s.videoSync, vwidth := (textureSize k s).1,
                   vheight := (textureSize k s).2, rmode := some p }
          (textureSize k s).1 p rfl hvw hvh hw
        have htex : textureSize k { s with videoWait := s.videoSync } = textureSize k s := rfl
        have hdc : ∃ ev, displayChanged k { s with videoWait := s.videoSync } = some (s2, ev) := by
          unfold displayChanged
          simp only [htex, hidx]
          rw [hs2]
          exact ⟨_, rfl⟩
        obtain ⟨ev, hev⟩ := hdc
        simp only [hch, not_false_eq_true, if_true, hev]
        exact ⟨_, rfl⟩

/-- C10. Idempotence of the per-frame update. A call of `gx_video_Update` with
`VIDEO_UPDATE` set returns whenever the display has not changed or the selected
mode object has non-zero VI dimensions and the texture is not empty; after such
a call bits 0 and 2 of `bitmap.viewport.changed` are clear; hence a second call
with `VIDEO_UPDATE` set, from any state with that viewport, returns, makes no
timing-reprogram call (no `gxResetScaler`, `gxResetMode` or `VIDEO_Configure`)
and leaves `rmode`, the mode objects, `vwidth`, `vheight` and the quad vertices
unchanged. -/
theorem update_idempotent (k : Hdr) (s : State) (status : Nat)
    (hupd : status &&& k.VIDEO_UPDATE ≠ 0) :
    ((s.viewport.changed &&& 1 = 0 ∨
        ∃ p, tvmodes (tvmodeIndex s.gc_pal s.config.render s.interlaced) = some p ∧
          (s.modes.read p).viWidth ≠ 0 ∧ (s.modes.read p).viHeight ≠ 0 ∧
          1 ≤ (textureSize k s).1) →
      ∃ r, gx_video_Update k s status = some r) ∧
    ∀ (r1 : Nat) (s1 : State) (ev1 : List Event),
      gx_video_Update k s status = some (r1, s1, ev1) →
      s1.viewport.changed &&& 1 = 0 ∧ s1.viewport.changed &&& 4 = 0 ∧
      ∀ (t : State) (status2 : Nat), t.viewport = s1.viewport →
        status2 &&& k.VIDEO_UPDATE ≠ 0 →
        ∃ r2 s2 ev2, gx_video_Update k t status2 = some (r2, s2, ev2) ∧
          (∀ e ∈ ev2, e.isReprogram = false) ∧
          s2.rmode = t.rmode ∧ s2.modes = t.modes ∧ s2.vwidth = t.vwidth ∧
          s2.vheight = t.vheight ∧ s2.square = t.square := by
  refine ⟨gx_video_Update_defined k s status, ?_⟩
  intro r1 s1 ev1 hcall
  have hbits : s1.viewport.changed &&& 1 = 0 ∧ s1.viewport.changed &&& 4 = 0 := by
    unfold gx_video_Update at hcall
    simp only [hupd, if_true, ne_eq, not_false_eq_true] at hcall
    split at hcall
    · simp at hcall
    · simp only [Option.some.injEq] at hcall
      rename_i sa eva _
      have h := submitFrame_changed k sa status eva
      rw [hcall] at h
      exact h
  refine ⟨hbits.1, hbits.2, ?_⟩
  intro t status2 hview hupd2
  have hclear : t.viewport.changed &&& 1 = 0 := by rw [hview]; exact hbits.1
  have hcall2 : gx_video_Update k t status2 =
      some (submitFrame k { t with videoWait := t.videoSync } status2 []) := by
    unfold gx_video_Update
    simp only [hupd2, hclear, ne_eq, not_true_eq_false, not_false_eq_true, if_true, if_false]
  refine ⟨_, _, _, hcall2, submitFrame_events k _ status2, ?_⟩
  exact submitFrame_frame k { t with videoWait := t.videoSync } status2 []

theorem update_idempotent_witness :
    ∃ r1 s1 ev1, gx_video_Update hdr mdState 4 = some (r1, s1, ev1) ∧
      ev1.any Event.isReprogram = true ∧
      s1.viewport.changed &&& 1 = 0 ∧ s1.viewport.changed &&& 4 = 0 ∧
      ∀ (t : State) (status2 : Nat), t.viewport = s1.viewport →
        status2 &&& hdr.VIDEO_UPDATE ≠ 0 →
        ∃ r2 s2 ev2, gx_video_Update hdr t status2 = some (r2, s2, ev2) ∧
          (∀ e ∈ ev2, e.isReprogram = false) ∧
          s2.rmode = t.rmode ∧ s2.modes = t.modes ∧ s2.vwidth = t.vwidth ∧
          s2.vheight = t.vheight ∧ s2.square = t.square := by
  obtain ⟨⟨r1, s1, ev1⟩, hcall⟩ := (update_idempotent hdr mdState 4 (by decide)).1
    (Or.inr ⟨ModeId.TV60hz_240p, by decide, by decide, by decide, by decide⟩)
  have hany : ev1.any Event.isReprogram = true := by
    have hd : (gx_video_Update hdr mdState 4).map (fun r => r.2.2.any Event.isReprogram)
        = some true := by decide
    rw [hcall] at hd
    simpa using hd
  exact ⟨r1, s1, ev1, hcall, hany,
    (update_idempotent hdr mdState 4 (by decide)).2 r1 s1 ev1 hcall⟩

/-! ## Properties of the NTSC blitters -/

theorem fedSamples_append (a b : List BlitOp) :
    fedSamples (a ++ b) = fedSamples a ++ fedSamples b := by
  simp [fedSamples, List.flatMap_append]

theorem pixelsWritten_append (a b : List BlitOp) :
    pixelsWritten (a ++ b) = pixelsWritten a + pixelsWritten b := by
  simp [pixelsWritten, List.countP_append]

theorem smsChunk_fed (base : Int) (x0 x1 x2 : Sample) (offset : Int) :
    fedSamples (smsChunk base x0 x1 x2 offset).1 = [x0, x1, x2] := rfl

theorem smsChunk_written (base : Int) (x0 x1 x2 : Sample) (offset : Int) :
    pixelsWritten (smsChunk base x0 x1 x2 offset).1 = 7 := rfl

theorem mdChunk_fed (base : Int) (x0 x1 x2 x3 : Sample) (out : Int) :
    fedSamples (mdChunk base x0 x1 x2 x3 out) = [x0, x1, x2, x3] := rfl

theorem mdChunk_written (base : Int) (x0 x1 x2 x3 : Sample) (out : Int) :
    pixelsWritten (mdChunk base x0 x1 x2 x3 out) = 8 := rfl

theorem pixelsFrom_append (a : Int) (m n : Nat) :
    pixelsFrom a (m + n) = pixelsFrom a m ++ pixelsFrom (a + m) n := by
  induction m generalizing a with
  | zero => simp [pixelsFrom]
  | succ m ih =>
    have e : a + ((m + 1 : Nat) : Int) = a + 1 + (m : Int) := by push_cast; ring
    rw [Nat.succ_add, pixelsFrom, pixelsFrom, ih (a + 1), e]
    rfl

theorem smsChunks_fed (base : Int) (n : Nat) (input offset : Int) :
    fedSamples (smsChunks base n input offset).1 = pixelsFrom input (3 * n) := by
  induction n generalizing input offset with
  | zero => rfl
  | succ n ih =>
    rw [smsChunks]
    simp only [fedSamples_append, smsChunk_fed, ih]
    rw [show 3 * (n + 1) = 3 + 3 * n by omega, pixelsFrom_append]
    simp [pixelsFrom, add_assoc]

theorem smsChunks_written (base : Int) (n : Nat) (input offset : Int) :
    pixelsWritten (smsChunks base n input offset).1 = 7 * n := by
  induction n generalizing input offset with
  | zero => rfl
  | succ n ih =>
    rw [smsChunks]
    simp only [pixelsWritten_append, smsChunk_written, ih]
    omega

theorem mdChunks_fed (base : Int) (n : Nat) (input out : Int) :
    fedSamples (mdChunks base n input out).1 = pixelsFrom input (4 * n) ∧
    (mdChunks base n input out).2.1 = input + 4 * n := by
  induction n generalizing input out with
  | zero => exact ⟨rfl, by simp [mdChunks]⟩
  | succ n ih =>
    rw [mdChunks]
    simp only [fedSamples_append, mdChunk_fed, (ih _ _).1, (ih _ _).2]
    refine ⟨?_, by push_cast; omega⟩
    rw [show 4 * (n + 1) = 4 + 4 * n by omega, pixelsFrom_append]
    simp [pixelsFrom, add_assoc]

theorem mdChunks_written (base : Int) (n : Nat) (input out : Int) :
    pixelsWritten (mdChunks base n input out).1 = 8 * n := by
  induction n generalizing input out with
  | zero => rfl
  | succ n ih =>
    rw [mdChunks]
    simp only [pixelsWritten_append, mdChunk_written, ih]
    omega

theorem pixelsFrom_read (a : Int) (n : Nat) :
    (pixelsFrom a n).filterMap Sample.read = (List.range n).map (fun (j : Nat) => a + (j : Int)) := by
  induction n generalizing a with
  | zero => rfl
  | succ n ih =>
    rw [pixelsFrom, List.range_succ_eq_map,
      List.filterMap_cons_some (by rfl : Sample.read (Sample.pixel a) = some a), ih]
    simp only [List.map_cons, List.map_map, Nat.cast_zero, add_zero]
    congr 1
    apply List.map_congr_left
    intro j _
    simp only [Function.comp, Nat.succ_eq_add_one, Nat.cast_add, Nat.cast_one]
    omega

theorem pixelsFrom_source (a : Int) (n : Nat) :
    (pixelsFrom a n).filterMap Sample.source = (List.range n).map (fun (j : Nat) => a + (j : Int)) := by
  induction n generalizing a with
  | zero => rfl
  | succ n ih =>
    rw [pixelsFrom, List.range_succ_eq_map,
      List.filterMap_cons_some (by rfl : Sample.source (Sample.pixel a) = some a), ih]
    simp only [List.map_cons, List.map_map, Nat.cast_zero, add_zero]
    congr 1
    apply List.map_congr_left
    intro j _
    simp only [Function.comp, Nat.succ_eq_add_one, Nat.cast_add, Nat.cast_one]
    omega



theorem extra_masks :
    extra2 0 = 0 ∧ extra1 0 = 0 ∧ extra2 1 = 0 ∧ extra1 1 = 4294967295 ∧
    extra2 2 = 4294967295 ∧ extra1 2 = 4294967295 := by
  decide

/-- Shape of a run of the low-res blitter for a non-negative width. -/
theorem sms_ntsc_blit_shape (in_width vline : Int) (h : 0 ≤ in_width) :
    ∃ base : Int, sms_ntsc_blit in_width vline = some
      (BlitOp.beginRow Sample.border
          [Sample.masked 0 (extra2 (in_width % 3)),
           Sample.masked ((extra2 (in_width % 3) &&& 1 : Nat) : Int) (extra1 (in_width % 3))]
        :: ((smsChunks base (in_width / 3).toNat (in_width % 3) 0).1
          ++ (smsChunk base Sample.border Sample.border Sample.border
                (smsChunks base (in_width / 3).toNat (in_width % 3) 0).2).1)) := by
  have hcc : cdiv in_width 3 = in_width / 3 := Int.tdiv_eq_ediv h (by decide)
  have hex : in_width - in_width / 3 * 3 = in_width % 3 := by omega
  have hneg : ¬ in_width / 3 < 0 := by omega
  unfold sms_ntsc_blit
  simp only [sms_ntsc_in_chunk, hcc, hex, hneg, if_false]
  exact ⟨_, rfl⟩

/-- Shape of a run of the high-res blitter for a width of at least 4. -/
theorem md_ntsc_blit_shape (in_width vline : Int) (h : 4 ≤ in_width) :
    ∃ base : Int, md_ntsc_blit in_width vline = some
      (BlitOp.beginRow Sample.border [Sample.pixel 0, Sample.pixel 1, Sample.pixel 2]
        :: ((mdChunks base (in_width / 4 - 1).toNat 3 0).1
          ++ mdChunk base (Sample.pixel (mdChunks base (in_width / 4 - 1).toNat 3 0).2.1)
              Sample.border Sample.border Sample.border
              (mdChunks base (in_width / 4 - 1).toNat 3 0).2.2)) := by
  have hcc : cdiv in_width 4 = in_width / 4 := Int.tdiv_eq_ediv (by omega) (by decide)
  have hneg : ¬ in_width / 4 - 1 < 0 := by omega
  unfold md_ntsc_blit
  simp only [md_ntsc_in_chunk, hcc, hneg, if_false]
  exact ⟨_, rfl⟩

theorem pixelsWritten_cons_beginRow (p : Sample) (ps : List Sample) (ops : List BlitOp) :
    pixelsWritten (BlitOp.beginRow p ps :: ops) = pixelsWritten ops := by
  simp [pixelsWritten, BlitOp.isOut]

theorem fedSamples_cons_beginRow (p : Sample) (ps : List Sample) (ops : List BlitOp) :
    fedSamples (BlitOp.beginRow p ps :: ops) = p :: ps ++ fedSamples ops := by
  simp [fedSamples, BlitOp.samples]

/-- C14. Output length of the low-res blitter: for every non-negative input
width `sms_ntsc_blit` returns, and the number of output pixels it writes is
7 * (in_width / 3 + 1), which is `SMS_NTSC_OUT_WIDTH(in_width)`. -/
theorem sms_blit_output_length (in_width vline : Int) (h : 0 ≤ in_width) :
    ∃ ops, sms_ntsc_blit in_width vline = some ops ∧
      (pixelsWritten ops : Int) = 7 * (cdiv in_width 3 + 1) ∧
      (pixelsWritten ops : Int) = SMS_NTSC_OUT_WIDTH in_width := by
  obtain ⟨base, hb⟩ := sms_ntsc_blit_shape in_width vline h
  have hcc : cdiv in_width 3 = in_width / 3 := Int.tdiv_eq_ediv h (by decide)
  have hw : (pixelsWritten
      (BlitOp.beginRow Sample.border
          [Sample.masked 0 (extra2 (in_width % 3)),
           Sample.masked ((extra2 (in_width % 3) &&& 1 : Nat) : Int) (extra1 (in_width % 3))]
        :: ((smsChunks base (in_width / 3).toNat (in_width % 3) 0).1
          ++ (smsChunk base Sample.border Sample.border Sample.border
                (smsChunks base (in_width / 3).toNat (in_width % 3) 0).2).1)) : Int)
      = 7 * (in_width / 3 + 1) := by
    rw [pixelsWritten_cons_beginRow, pixelsWritten_append, smsChunks_written, smsChunk_written]
    push_cast
    omega
  refine ⟨_, hb, ?_, ?_⟩
  · rw [hw, hcc]
  · rw [hw]
    simp only [SMS_NTSC_OUT_WIDTH, sms_ntsc_in_chunk, sms_ntsc_out_chunk, hcc]
    ring

theorem sms_blit_output_length_witness :
    (∃ ops, sms_ntsc_blit 3 0 = some ops ∧ (pixelsWritten ops : Int) = 14) ∧
    (∃ ops, sms_ntsc_blit 4 0 = some ops ∧ (pixelsWritten ops : Int) = 14) := by
  obtain ⟨ops3, h3, e3, _⟩ := sms_blit_output_length 3 0 (by decide)
  obtain ⟨ops4, h4, e4, _⟩ := sms_blit_output_length 4 0 (by decide)
  exact ⟨⟨ops3, h3, by rw [e3]; decide⟩, ⟨ops4, h4, by rw [e4]; decide⟩⟩

/-- C15, amended. Output length of the high-res blitter: for every input
width of at least 4 `md_ntsc_blit` returns and writes 8 * (in_width / 4) output
pixels. That is `MD_NTSC_OUT_WIDTH(in_width)` whenever in_width mod 4 is not 3,
in particular for every multiple of 4; when in_width mod 4 is 3 it is 8 less
than `MD_NTSC_OUT_WIDTH(in_width)`. -/
theorem md_blit_output_length (in_width vline : Int) (h : 4 ≤ in_width) :
    ∃ ops, md_ntsc_blit in_width vline = some ops ∧
      (pixelsWritten ops : Int) = 8 * cdiv in_width 4 ∧
      (in_width % 4 ≠ 3 → (pixelsWritten ops : Int) = MD_NTSC_OUT_WIDTH in_width) ∧
      (in_width % 4 = 3 → (pixelsWritten ops : Int) + 8 = MD_NTSC_OUT_WIDTH in_width) := by
  obtain ⟨base, hb⟩ := md_ntsc_blit_shape in_width vline h
  have hcc : cdiv in_width 4 = in_width / 4 := Int.tdiv_eq_ediv (by omega) (by decide)
  have hcc3 : cdiv (in_width - 3) 4 = (in_width - 3) / 4 :=
    Int.tdiv_eq_ediv (by omega) (by decide)
  have hw : (pixelsWritten
      (BlitOp.beginRow Sample.border [Sample.pixel 0, Sample.pixel 1, Sample.pixel 2]
        :: ((mdChunks base (in_width / 4 - 1).toNat 3 0).1
          ++ mdChunk base (Sample.pixel (mdChunks base (in_width / 4 - 1).toNat 3 0).2.1)
              Sample.border Sample.border Sample.border
              (mdChunks base (in_width / 4 - 1).toNat 3 0).2.2)) : Int)
      = 8 * (in_width / 4) := by
    rw [pixelsWritten_cons_beginRow, pixelsWritten_append, mdChunks_written, mdChunk_written]
    push_cast
    omega
  refine ⟨_, hb, ?_, ?_, ?_⟩
  · rw [hw, hcc]
  · intro h3
    rw [hw]
    simp only [MD_NTSC_OUT_WIDTH, md_ntsc_in_chunk, md_ntsc_out_chunk, hcc3]
    omega
  · intro h3
    rw [hw]
    simp only [MD_NTSC_OUT_WIDTH, md_ntsc_in_chunk, md_ntsc_out_chunk, hcc3]
    omega

theorem md_blit_output_length_witness :
    (∃ ops, md_ntsc_blit 4 0 = some ops ∧ (pixelsWritten ops : Int) = 8) ∧
    (∃ ops, md_ntsc_blit 5 0 = some ops ∧ (pixelsWritten ops : Int) = 8) := by
  obtain ⟨ops4, h4, e4, _⟩ := md_blit_output_length 4 0 (by decide)
  obtain ⟨ops5, h5, e5, _⟩ := md_blit_output_length 5 0 (by decide)
  exact ⟨⟨ops4, h4, by rw [e4]; decide⟩, ⟨ops5, h5, by rw [e5]; decide⟩⟩

/-- C15 as stated fails: for an input width of 7 the high-res blitter writes 8
pixels while `MD_NTSC_OUT_WIDTH(7)` is 16. -/
theorem md_blit_shorter_than_out_width :
    (md_ntsc_blit 7 0).map pixelsWritten = some 8 ∧ MD_NTSC_OUT_WIDTH 7 = 16 := by
  decide



theorem range_cast_split (a k : Nat) :
    (List.range (a + k)).map (fun (j : Nat) => (j : Int)) =
      (List.range a).map (fun (j : Nat) => (j : Int)) ++
        (List.range k).map (fun (j : Nat) => (a : Int) + (j : Int)) := by
  rw [List.range_add, List.map_append, List.map_map]
  congr 1

/-- Samples fed by a run of the low-res blitter. -/
theorem sms_ntsc_blit_fed (in_width vline : Int) (h : 0 ≤ in_width) :
    ∃ ops, sms_ntsc_blit in_width vline = some ops ∧
      fedSamples ops =
        [Sample.border, Sample.masked 0 (extra2 (in_width % 3)),
          Sample.masked ((extra2 (in_width % 3) &&& 1 : Nat) : Int) (extra1 (in_width % 3))]
        ++ pixelsFrom (in_width % 3) (3 * (in_width / 3).toNat)
        ++ [Sample.border, Sample.border, Sample.border] := by
  obtain ⟨base, hb⟩ := sms_ntsc_blit_shape in_width vline h
  refine ⟨_, hb, ?_⟩
  rw [fedSamples_cons_beginRow, fedSamples_append, smsChunks_fed, smsChunk_fed]
  simp

/-- Samples fed by a run of the high-res blitter. -/
theorem md_ntsc_blit_fed (in_width vline : Int) (h : 4 ≤ in_width) :
    ∃ ops, md_ntsc_blit in_width vline = some ops ∧
      ops.head? = some (BlitOp.beginRow Sample.border
        [Sample.pixel 0, Sample.pixel 1, Sample.pixel 2]) ∧
      fedSamples ops =
        Sample.border :: (pixelsFrom 0 (4 * (in_width / 4).toNat)
          ++ [Sample.border, Sample.border, Sample.border]) := by
  obtain ⟨base, hb⟩ := md_ntsc_blit_shape in_width vline h
  refine ⟨_, hb, rfl, ?_⟩
  rw [fedSamples_cons_beginRow, fedSamples_append, (mdChunks_fed _ _ _ _).1, mdChunk_fed,
    (mdChunks_fed _ _ _ _).2]
  have e : 4 * (in_width / 4).toNat = 3 + (4 * (in_width / 4 - 1).toNat + 1) := by omega
  rw [e, pixelsFrom_append, pixelsFrom_append]
  simp [pixelsFrom]

theorem mem_range_cast {a : Int} {k : Nat} {i : Int}
    (hi : i ∈ (List.range k).map (fun (j : Nat) => a + (j : Int))) : a ≤ i ∧ i < a + k := by
  simp only [List.mem_map, List.mem_range] at hi
  obtain ⟨j, hj, rfl⟩ := hi
  omega

/-- C16. Neither blitter reads outside the source row: for an input width of
at least 1 every index at which `sms_ntsc_blit` reads `input`, the two
begin-row reads included, lies in 0..in_width-1, and for an input width of at
least 4 so does every index at which `md_ntsc_blit` reads `input`. -/
theorem blitters_read_inside_row :
    (∀ in_width vline : Int, 1 ≤ in_width →
      ∃ ops, sms_ntsc_blit in_width vline = some ops ∧
        ∀ i ∈ inputReads ops, 0 ≤ i ∧ i < in_width) ∧
    (∀ in_width vline : Int, 4 ≤ in_width →
      ∃ ops, md_ntsc_blit in_width vline = some ops ∧
        ∀ i ∈ inputReads ops, 0 ≤ i ∧ i < in_width) := by
  constructor
  · intro in_width vline h
    obtain ⟨ops, hops, hfed⟩ := sms_ntsc_blit_fed in_width vline (by omega)
    refine ⟨ops, hops, ?_⟩
    intro i hi
    rw [inputReads, hfed] at hi
    simp only [List.filterMap_append, pixelsFrom_read, List.mem_append] at hi
    have hr : in_width % 3 = 0 ∨ in_width % 3 = 1 ∨ in_width % 3 = 2 := by omega
    rcases hi with (hi | hi) | hi
    · rcases hr with hr | hr | hr <;> rw [hr] at hi <;>
        simp [Sample.read, extra_masks] at hi <;> omega
    · have := mem_range_cast hi
      omega
    · simp [Sample.read] at hi
  · intro in_width vline h
    obtain ⟨ops, hops, _, hfed⟩ := md_ntsc_blit_fed in_width vline h
    refine ⟨ops, hops, ?_⟩
    intro i hi
    rw [inputReads, hfed] at hi
    simp only [List.filterMap_cons_none (by rfl : Sample.read Sample.border = none),
      List.filterMap_append, pixelsFrom_read, List.mem_append] at hi
    rcases hi with hi | hi
    · have := mem_range_cast hi
      omega
    · simp [Sample.read] at hi

theorem blitters_read_inside_row_witness :
    (∃ ops, sms_ntsc_blit 256 0 = some ops ∧ ∀ i ∈ inputReads ops, 0 ≤ i ∧ i < 256) ∧
    (∃ ops, md_ntsc_blit 320 0 = some ops ∧ ∀ i ∈ inputReads ops, 0 ≤ i ∧ i < 320) :=
  ⟨blitters_read_inside_row.1 256 0 (by decide), blitters_read_inside_row.2 320 0 (by decide)⟩

/-- C17 as stated fails: for an input width of 5 the high-res blitter feeds the
source pixels 0, 1, 2, 3 and never reads pixel 4. -/
theorem md_blit_drops_trailing_pixel :
    (md_ntsc_blit 5 0).map sourcesFed = some [0, 1, 2, 3] := by
  decide

/-- C17, amended. For every input width of at least 4, `md_ntsc_blit` feeds the
source pixels `input[i]` for i below 4 * (in_width / 4), each exactly once and
in increasing order of i: three through the begin-row slots, the rest through
the chunk loop and the final chunk, followed by three border samples. Every
pixel of the row is fed when the width is a multiple of 4; otherwise the last
in_width mod 4 pixels are not read. -/
theorem md_blit_feeds_whole_chunks (in_width vline : Int) (h : 4 ≤ in_width) :
    ∃ ops, md_ntsc_blit in_width vline = some ops ∧
      ops.head? = some (BlitOp.beginRow Sample.border
        [Sample.pixel 0, Sample.pixel 1, Sample.pixel 2]) ∧
      fedSamples ops =
        Sample.border :: (pixelsFrom 0 (4 * (in_width / 4).toNat)
          ++ [Sample.border, Sample.border, Sample.border]) ∧
      sourcesFed ops = (List.range (4 * (in_width / 4).toNat)).map (fun (j : Nat) => (j : Int)) ∧
      (in_width % 4 = 0 →
        sourcesFed ops = (List.range in_width.toNat).map (fun (j : Nat) => (j : Int))) := by
  obtain ⟨ops, hops, hhead, hfed⟩ := md_ntsc_blit_fed in_width vline h
  have hsrc : sourcesFed ops =
      (List.range (4 * (in_width / 4).toNat)).map (fun (j : Nat) => (j : Int)) := by
    rw [sourcesFed, hfed]
    simp only [List.filterMap_cons_none (by rfl : Sample.source Sample.border = none),
      List.filterMap_append, pixelsFrom_source, List.filterMap_nil, List.append_nil]
    apply List.map_congr_left
    intro j _
    simp
  refine ⟨ops, hops, hhead, hfed, hsrc, ?_⟩
  intro h0
  rw [hsrc]
  have e : 4 * (in_width / 4).toNat = in_width.toNat := by omega
  rw [e]

theorem md_blit_feeds_whole_chunks_witness :
    ∃ ops, md_ntsc_blit 8 0 = some ops ∧
      sourcesFed ops = (List.range (8 : Int).toNat).map (fun (j : Nat) => (j : Int)) := by
  obtain ⟨ops, h1, _, _, _, h5⟩ := md_blit_feeds_whole_chunks 8 0 (by decide)
  exact ⟨ops, h1, h5 (by decide)⟩

/-- C18. Order and padding in the low-res blitter: for an input width of at
least 1 with r = in_width mod 3, the begin-row slots after the border pixel
hold the first r source pixels in their last r places and reads masked to zero
in the others; the chunk loop then feeds `input[r]` up to `input[in_width-1]`
in increasing order, and three border samples follow. The source pixels fed
are 0, 1, up to in_width - 1, each once and in order. -/
theorem sms_blit_order_and_padding (in_width vline : Int) (h : 1 ≤ in_width) :
    ∃ ops p1 p2, sms_ntsc_blit in_width vline = some ops ∧
      fedSamples ops =
        [Sample.border, p1, p2]
        ++ pixelsFrom (in_width % 3) (in_width - in_width % 3).toNat
        ++ [Sample.border, Sample.border, Sample.border] ∧
      (in_width % 3 = 0 → p1 = Sample.masked 0 0 ∧ p2 = Sample.masked 0 0) ∧
      (in_width % 3 = 1 → p1 = Sample.masked 0 0 ∧ p2 = Sample.masked 0 4294967295) ∧
      (in_width % 3 = 2 →
        p1 = Sample.masked 0 4294967295 ∧ p2 = Sample.masked 1 4294967295) ∧
      sourcesFed ops = (List.range in_width.toNat).map (fun (j : Nat) => (j : Int)) := by
  obtain ⟨ops, hops, hfed⟩ := sms_ntsc_blit_fed in_width vline (by omega)
  have hk : 3 * (in_width / 3).toNat = (in_width - in_width % 3).toNat := by omega
  rw [hk] at hfed
  refine ⟨ops, _, _, hops, hfed, ?_, ?_, ?_, ?_⟩
  · intro hr
    rw [hr]
    simp [extra_masks]
  · intro hr
    rw [hr]
    simp [extra_masks]
  · intro hr
    rw [hr]
    simp [extra_masks]
  · rw [sourcesFed, hfed]
    simp only [List.filterMap_append, pixelsFrom_source]
    have hr : in_width % 3 = 0 ∨ in_width % 3 = 1 ∨ in_width % 3 = 2 := by omega
    rcases hr with hr | hr | hr
    · have e : in_width.toNat = 0 + (in_width - 0).toNat := by omega
      rw [hr, e, range_cast_split]
      simp [Sample.source, extra_masks]
    · have e : in_width.toNat = 1 + (in_width - 1).toNat := by omega
      rw [hr, e, range_cast_split]
      simp [Sample.source, extra_masks, List.range_succ]
    · have e : in_width.toNat = 2 + (in_width - 2).toNat := by omega
      rw [hr, e, range_cast_split]
      simp [Sample.source, extra_masks, List.range_succ]

theorem sms_blit_order_and_padding_witness :
    ∃ ops p1 p2, sms_ntsc_blit 8 0 = some ops ∧
      fedSamples ops =
        [Sample.border, p1, p2]
        ++ pixelsFrom ((8 : Int) % 3) ((8 : Int) - 8 % 3).toNat
        ++ [Sample.border, Sample.border, Sample.border] ∧
      ((8 : Int) % 3 = 0 → p1 = Sample.masked 0 0 ∧ p2 = Sample.masked 0 0) ∧
      ((8 : Int) % 3 = 1 → p1 = Sample.masked 0 0 ∧ p2 = Sample.masked 0 4294967295) ∧
      ((8 : Int) % 3 = 2 →
        p1 = Sample.masked 0 4294967295 ∧ p2 = Sample.masked 1 4294967295) ∧
      sourcesFed ops = (List.range (8 : Int).toNat).map (fun (j : Nat) => (j : Int)) :=
  sms_blit_order_and_padding 8 0 (by decide)

/-! ## Status flags, retrace callback, filter presets and mode objects -/

/-- The scaler reset writes only the mode objects and the quad. -/
theorem gxResetScaler_frame (k : Hdr) (s : State) (width : Nat) (s2 : State)
    (h : gxResetScaler k s width = some s2) :
    ∃ m sq, s2 = { s with modes := m, square := sq } := by
  unfold gxResetScaler at h
  cases hp : s.rmode with
  | none => simp [hp] at h
  | some p =>
    simp only [hp] at h
    generalize configureVI _ _ _ = c at h
    cases c with
    | none => simp at h
    | some rx =>
      obtain ⟨r, x⟩ := rx
      simp only at h
      generalize cdivq (s.config.xshift * _) _ = cx at h
      generalize cdivq (s.config.yshift * _) _ = cy at h
      cases cx <;> cases cy <;> simp only [Option.some.injEq, reduceCtorEq] at h
      exact ⟨_, _, h.symm⟩

/-- The display-changed block writes only the texture size, `rmode`, the mode
objects and the quad, and calls nothing of the audio collaborator. -/
theorem displayChanged_frame (k : Hdr) (s : State) (s2 : State) (ev : List Event)
    (h : displayChanged k s = some (s2, ev)) :
    (∃ vw vh rm m sq,
      s2 = { s with vwidth := vw, vheight := vh, rmode := rm, modes := m, square := sq }) ∧
    ∀ e ∈ ev, e.isAudioSetRate = false := by
  unfold displayChanged at h
  simp only at h
  generalize tvmodes _ = op at h
  cases op with
  | none => simp at h
  | some p =>
    simp only at h
    cases hs3 : gxResetScaler k
        { s with vwidth := (textureSize k s).1, vheight := (textureSize k s).2, rmode := some p }
        (textureSize k s).1 with
    | none => simp [hs3] at h
    | some s3 =>
      simp only [hs3, Option.some.injEq, Prod.mk.injEq] at h
      obtain ⟨m, sq, hm⟩ := gxResetScaler_frame k _ _ _ hs3
      constructor
      · refine ⟨(textureSize k s).1, (textureSize k s).2, some p, m, sq, ?_⟩
        rw [← h.1, hm]
      · intro e he
        rw [← h.2] at he
        simp only [List.mem_append, List.mem_cons, List.mem_singleton, List.not_mem_nil,
          or_false] at he
        rcases he with ((he | he) | he) | he
        · subst he; rfl
        · split_ifs at he
          · simp only [List.mem_singleton] at he; subst he; rfl
          · simp at he
        · subst he; rfl
        · rcases he with rfl | rfl | rfl | rfl <;> rfl



/-- What a returning call of `gx_video_Update` with `VIDEO_UPDATE` set did
before its second half. -/
theorem gx_video_Update_inv (k : Hdr) (s : State) (status r : Nat) (s1 : State)
    (ev : List Event) (hupd : status &&& k.VIDEO_UPDATE ≠ 0)
    (h : gx_video_Update k s status = some (r, s1, ev)) :
    ∃ sa eva, (r, s1, ev) = submitFrame k sa status eva ∧
      (∀ e ∈ eva, e.isAudioSetRate = false) ∧
      ∃ vw vh rm m sq, sa = { s with videoWait := s.videoSync, vwidth := vw, vheight := vh,
                                     rmode := rm, modes := m, square := sq } := by
  unfold gx_video_Update at h
  simp only [hupd, ne_eq, not_false_eq_true, if_true] at h
  by_cases hch : s.viewport.changed &&& 1 = 0
  · simp only [hch, not_true_eq_false, if_false, Option.some.injEq] at h
    exact ⟨_, _, h.symm, by simp, s.vwidth, s.vheight, s.rmode, s.modes, s.square, rfl⟩
  · simp only [hch, not_false_eq_true, if_true] at h
    cases hd : displayChanged k { s with videoWait := s.videoSync } with
    | none => simp [hd] at h
    | some x =>
      obtain ⟨sa, eva⟩ := x
      simp only [hd, Option.some.injEq] at h
      obtain ⟨⟨vw, vh, rm, m, sq, hsa⟩, hev⟩ := displayChanged_frame k _ _ _ hd
      exact ⟨sa, eva, h.symm, hev, vw, vh, rm, m, sq, hsa⟩

/-- The second half of the update writes only `bitmap.viewport.changed`. -/
theorem submitFrame_state (k : Hdr) (s : State) (status : Nat) (ev1 : List Event) :
    ∃ c, (submitFrame k s status ev1).2.1 = { s with viewport := { s.viewport with changed := c } } := by
  unfold submitFrame
  by_cases h4 : s.viewport.changed &&& 4 = 0 <;> by_cases h1 : s.viewport.changed &&& 1 = 0 <;>
    simp only [h4, h1, ne_eq, not_true_eq_false, not_false_eq_true, if_true, if_false,
      andNot32_four_land_one]
  · exact ⟨s.viewport.changed, rfl⟩
  · exact ⟨_, rfl⟩
  · exact ⟨_, rfl⟩
  · exact ⟨_, rfl⟩

/-- Calls of `audio_set_rate` made by the second half of the update. -/
theorem submitFrame_audio (k : Hdr) (s : State) (status : Nat) (ev1 : List Event)
    (hev : ∀ e ∈ ev1, e.isAudioSetRate = false) :
    (submitFrame k s status ev1).2.2.countP Event.isAudioSetRate =
      (if s.viewport.changed &&& 4 ≠ 0 ∧ s.config.render = 0 ∧ s.config.vsync ≠ 0 ∧
          s.gc_pal = s.vdp_pal then 1 else 0) ∧
    ∀ e ∈ (submitFrame k s status ev1).2.2, e.isAudioSetRate = true →
      e = Event.audio_set_rate s.sample_rate FrameRateArg.get_framerate := by
  have h0 : ev1.countP Event.isAudioSetRate = 0 := by
    rw [List.countP_eq_zero]
    intro e he
    simp [hev e he]
  unfold submitFrame
  constructor
  · simp only [List.countP_append, h0]
    split_ifs <;> simp [Event.isAudioSetRate]
  · intro e he ha
    simp only [List.mem_append] at he
    rcases he with ((he | he) | he) | he
    · rw [hev e he] at ha
      cases ha
    · exfalso
      revert ha
      simp only [List.mem_append, List.mem_cons, List.mem_singleton, List.not_mem_nil,
        or_false] at he
      rcases he with (he | he) | he
      · rcases he with rfl | rfl | rfl <;> simp [Event.isAudioSetRate]
      · split_ifs at he
        · simp only [List.mem_singleton] at he; subst he; simp [Event.isAudioSetRate]
        · simp at he
      · subst he; simp [Event.isAudioSetRate]
    · split_ifs at he
      · simpa using he
      · simp at he
    · exfalso
      revert ha
      split_ifs at he <;>
        first
          | (simp only [List.mem_cons, List.mem_singleton, List.not_mem_nil, or_false] at he
             rcases he with rfl | rfl | rfl <;> simp [Event.isAudioSetRate])
          | simp at he



/-- The frame-pacing invariant is established by `gx_video_Start` and kept by
`gx_video_Update` and by the retrace callback. -/
theorem syncOk_invariant (k : Hdr) (s : State) :
    SyncOk k (gx_video_Start k s).1 ∧
    (SyncOk k s → ∀ b, SyncOk k (vi_callback s b).1) ∧
    (SyncOk k s → ∀ status r s1 ev, gx_video_Update k s status = some (r, s1, ev) →
      SyncOk k s1) := by
  refine ⟨?_, ?_, ?_⟩
  · unfold gx_video_Start SyncOk
    simp only
    split_ifs <;> simp
  · intro hok b
    have hvs : (vi_callback s b).1.videoSync = s.videoSync := by
      unfold vi_callback audio_set_rate
      simp only
      split_ifs <;> rfl
    have hvw : (vi_callback s b).1.videoWait = 0 := rfl
    exact ⟨by rw [hvs]; exact hok.1, Or.inl hvw⟩
  · intro hok status r s1 ev hcall
    by_cases hupd : status &&& k.VIDEO_UPDATE = 0
    · unfold gx_video_Update at hcall
      simp only [hupd, ne_eq, not_true_eq_false, if_false, Option.some.injEq,
        Prod.mk.injEq] at hcall
      rw [← hcall.2.1]
      exact hok
    · obtain ⟨sa, eva, hsub, _, vw, vh, rm, m, sq, hsa⟩ :=
        gx_video_Update_inv k s status r s1 ev hupd hcall
      have hs1 : s1 = (submitFrame k sa status eva).2.1 := congrArg (fun x => x.2.1) hsub
      obtain ⟨c, hc⟩ := submitFrame_state k sa status eva
      rw [hc, hsa] at hs1
      rw [hs1]
      exact ⟨hok.1, Or.inr rfl⟩

/-- C12 as stated fails: with VSYNC off, a call with the interlace-changed flag
set makes no call of `audio_set_rate`. -/
theorem interlace_change_without_vsync :
    novsyncState.viewport.changed &&& 4 ≠ 0 ∧
    (gx_video_Update hdr novsyncState 4).map
      (fun r => r.2.2.countP Event.isAudioSetRate) = some 0 := by
  decide

/-- C12, amended. Scenario 3: a call of `gx_video_Update` with `VIDEO_UPDATE`
set clears the interlace-changed flag, and it calls `audio_set_rate` exactly
once, with the current sample rate and the new frame rate (the value of
`get_framerate()`), when the flag was set and config.render is zero,
config.vsync is on and gc_pal equals vdp_pal; in every other case, in
particular when the flag was clear, it calls it zero times. -/
theorem interlace_change_notifies_audio (k : Hdr) (s : State) (status : Nat)
    (hupd : status &&& k.VIDEO_UPDATE ≠ 0) :
    ((s.viewport.changed &&& 1 = 0 ∨
        ∃ p, tvmodes (tvmodeIndex s.gc_pal s.config.render s.interlaced) = some p ∧
          (s.modes.read p).viWidth ≠ 0 ∧ (s.modes.read p).viHeight ≠ 0 ∧
          1 ≤ (textureSize k s).1) →
      ∃ r, gx_video_Update k s status = some r) ∧
    ∀ (r : Nat) (s1 : State) (ev : List Event),
      gx_video_Update k s status = some (r, s1, ev) →
      s1.viewport.changed &&& 4 = 0 ∧
      ev.countP Event.isAudioSetRate =
        (if s.viewport.changed &&& 4 ≠ 0 ∧ s.config.render = 0 ∧ s.config.vsync ≠ 0 ∧
            s.gc_pal = s.vdp_pal then 1 else 0) ∧
      ∀ e ∈ ev, e.isAudioSetRate = true →
        e = Event.audio_set_rate s.sample_rate FrameRateArg.get_framerate := by
  refine ⟨gx_video_Update_defined k s status, ?_⟩
  intro r s1 ev hcall
  obtain ⟨sa, eva, hsub, heva, vw, vh, rm, m, sq, hsa⟩ :=
    gx_video_Update_inv k s status r s1 ev hupd hcall
  have hs1 : s1 = (submitFrame k sa status eva).2.1 := congrArg (fun x => x.2.1) hsub
  have hev : ev = (submitFrame k sa status eva).2.2 := congrArg (fun x => x.2.2) hsub
  obtain ⟨ha1, ha2⟩ := submitFrame_audio k sa status eva heva
  have e1 : sa.viewport = s.viewport := by rw [hsa]
  have e2 : sa.config = s.config := by rw [hsa]
  have e3 : sa.gc_pal = s.gc_pal := by rw [hsa]
  have e4 : sa.vdp_pal = s.vdp_pal := by rw [hsa]
  have e5 : sa.sample_rate = s.sample_rate := by rw [hsa]
  rw [e1, e2, e3, e4] at ha1
  rw [e5] at ha2
  refine ⟨?_, ?_, ?_⟩
  · rw [hs1]
    exact (submitFrame_changed k sa status eva).2
  · rw [hev]
    exact ha1
  · rw [hev]
    exact ha2

theorem interlace_change_notifies_audio_witness :
    ∃ r s1 ev,
      gx_video_Update hdr interlaceChangedState 4 = some (r, s1, ev) ∧
      s1.viewport.changed &&& 4 = 0 ∧ ev.countP Event.isAudioSetRate = 1 := by
  have h := interlace_change_notifies_audio hdr interlaceChangedState 4 (by decide)
  obtain ⟨⟨r, s1, ev⟩, hcall⟩ := h.1 (Or.inl (by decide))
  obtain ⟨h1, h2, _⟩ := h.2 r s1 ev hcall
  refine ⟨r, s1, ev, hcall, h1, ?_⟩
  rw [h2]
  decide

/-- C20 as stated fails: the callback clears the frame-pacing flag `videoWait`,
also when it makes no call of `audio_set_rate`. -/
theorem vi_callback_clears_video_wait :
    waitingState.videoWait = 1 ∧ (vi_callback waitingState 0).1.videoWait = 0 ∧
    (vi_callback waitingState 0).2 = [] := by
  decide

/-- C20, amended. The retrace callback has two effects, and every other
variable of the module is the same after it. It always clears `videoWait`.
With remain the 16-bit value of `AUDIO_GetDMABytesLeft() / 32` and rate the
value 47950 when remain is below 5 and 48050 otherwise: when remain is positive
and rate differs from the current sample rate it makes exactly one call
`audio_set_rate(rate, snd.frame_rate)`, which sets the sample rate to rate; when
remain is zero, or rate is the current sample rate, it makes no call and leaves
the sample rate. -/
theorem vi_callback_effects (s : State) (dmaBytesLeft : Nat) :
    (dmaBytesLeft / 32 % 65536 = 0 →
      vi_callback s dmaBytesLeft = ({ s with videoWait := 0 }, [])) ∧
    (∀ rate : Int, 0 < dmaBytesLeft / 32 % 65536 →
      rate = (if dmaBytesLeft / 32 % 65536 < 5 then 47950 else 48050) →
      (rate = s.sample_rate →
        vi_callback s dmaBytesLeft = ({ s with videoWait := 0 }, [])) ∧
      (rate ≠ s.sample_rate →
        vi_callback s dmaBytesLeft =
          ({ s with sample_rate := rate, videoWait := 0 },
            [Event.audio_set_rate rate FrameRateArg.snd_frame_rate]))) := by
  constructor
  · intro h0
    have hrem : ¬ dmaBytesLeft / 32 % 65536 > 0 := by omega
    unfold vi_callback
    simp only [hrem, if_false]
  · intro rate hpos hrate
    have hrem : dmaBytesLeft / 32 % 65536 > 0 := hpos
    subst hrate
    constructor
    · intro he
      unfold vi_callback
      simp only [hrem, if_true, he, ne_eq, not_true_eq_false, if_false]
    · intro hne
      unfold vi_callback audio_set_rate
      simp only [hrem, if_true, hne, ne_eq, not_false_eq_true]

theorem vi_callback_effects_witness :
    vi_callback waitingState 64 =
        ({ waitingState with sample_rate := 47950, videoWait := 0 },
          [Event.audio_set_rate 47950 FrameRateArg.snd_frame_rate]) ∧
    vi_callback waitingState 0 = ({ waitingState with videoWait := 0 }, []) :=
  ⟨((vi_callback_effects waitingState 64).2 47950 (by decide) (by decide)).2 (by decide),
    (vi_callback_effects waitingState 0).1 (by decide)⟩

theorem ModeStore.read_write_ne (m : ModeStore) (p q : ModeId) (r : GXRModeObj) (h : q ≠ p) :
    (m.write p r).read q = m.read q := by
  cases p <;> cases q <;> first | rfl | exact absurd rfl h

theorem configureVI_frame (c : Config) (r : GXRModeObj) (xscale : Int) (r2 : GXRModeObj)
    (x2 : Int) (h : configureVI c r xscale = some (r2, x2)) : sameButScaler r2 r := by
  unfold configureVI at h
  unfold sameButScaler
  by_cases hgt : xscale * 2 > r.fbWidth
  · simp only [hgt, if_true] at h
    cases hq : (if xscale > 360 then cdivq ((xscale - 360) * r.fbWidth) r.viWidth
        else some 0) with
    | none => simp [hq] at h
    | some off =>
      simp only [hq] at h
      split_ifs at h <;>
        (simp only [Option.some.injEq, Prod.mk.injEq] at h; rw [← h.1])
  · simp only [hgt, if_false, Option.some.injEq, Prod.mk.injEq] at h
    rw [← h.1]

theorem sameButScaler_of_fbWidth (r2 rp : GXRModeObj) (e : Int)
    (h : sameButScaler r2 { rp with fbWidth := e }) : sameButScaler r2 rp := by
  unfold sameButScaler at h ⊢
  obtain ⟨a1, a2, a3, a4, a5, a6, a7, a8, a9, a10, a11, a12, a13⟩ := r2
  obtain ⟨b1, b2, b3, b4, b5, b6, b7, b8, b9, b10, b11, b12, b13⟩ := rp
  simp only [GXRModeObj.mk.injEq] at h ⊢
  tauto

/-- What the scaler reset does to the mode objects: it writes the object `rmode`
points to, and only its three scaler fields. -/
theorem gxResetScaler_modes (k : Hdr) (s : State) (width : Nat) (s2 : State)
    (h : gxResetScaler k s width = some s2) :
    ∃ p r2, s.rmode = some p ∧ s2.rmode = some p ∧ s2.modes = s.modes.write p r2 ∧
      sameButScaler r2 (s.modes.read p) := by
  unfold gxResetScaler at h
  cases hp : s.rmode with
  | none => simp [hp] at h
  | some p =>
    simp only [hp] at h
    cases hc : configureVI s.config
        { s.modes.read p with fbWidth := efbWidth s.config width (gxSetAspectRatio k s).1 }
        (gxSetAspectRatio k s).1 with
    | none => simp [hc] at h
    | some rx =>
      obtain ⟨r, x⟩ := rx
      simp only [hc] at h
      generalize cdivq (s.config.xshift * _) _ = cx at h
      generalize cdivq (s.config.yshift * _) _ = cy at h
      cases cx <;> cases cy <;> simp only [Option.some.injEq, reduceCtorEq] at h
      refine ⟨p, r, rfl, ?_, ?_, sameButScaler_of_fbWidth _ _ _ (configureVI_frame _ _ _ _ _ hc)⟩
      · rw [← h]
      · rw [← h]

theorem displayChanged_modes (k : Hdr) (s : State) (s2 : State) (ev : List Event)
    (h : displayChanged k s = some (s2, ev)) :
    ∃ p r2, s2.rmode = some p ∧ s2.modes = s.modes.write p r2 ∧
      sameButScaler r2 (s.modes.read p) := by
  unfold displayChanged at h
  simp only at h
  generalize tvmodes _ = op at h
  cases op with
  | none => simp at h
  | some p =>
    simp only at h
    cases hs3 : gxResetScaler k
        { s with vwidth := (textureSize k s).1, vheight := (textureSize k s).2, rmode := some p }
        (textureSize k s).1 with
    | none => simp [hs3] at h
    | some s3 =>
      simp only [hs3, Option.some.injEq, Prod.mk.injEq] at h
      obtain ⟨p2, r2, _, h2, h3, h4⟩ := gxResetScaler_modes k _ _ _ hs3
      rw [← h.1]
      exact ⟨p2, r2, h2, h3, h4⟩

theorem gx_video_Update_modes (k : Hdr) (s : State) (status r : Nat) (s1 : State)
    (ev : List Event) (h : gx_video_Update k s status = some (r, s1, ev)) :
    s1.modes = s.modes ∨
    ∃ p r2, s1.rmode = some p ∧ s1.modes = s.modes.write p r2 ∧
      sameButScaler r2 (s.modes.read p) := by
  unfold gx_video_Update at h
  by_cases hupd : status &&& k.VIDEO_UPDATE = 0
  · simp only [hupd, ne_eq, not_true_eq_false, if_false, Option.some.injEq,
      Prod.mk.injEq] at h
    left
    rw [← h.2.1]
  · simp only [hupd, ne_eq, not_false_eq_true, if_true] at h
    by_cases hch : s.viewport.changed &&& 1 = 0
    · simp only [hch, not_true_eq_false, if_false, Option.some.injEq] at h
      left
      have hs1 : s1 = (submitFrame k { s with videoWait := s.videoSync } status []).2.1 :=
        congrArg (fun x => x.2.1) h.symm
      rw [hs1]
      exact (submitFrame_frame k _ status []).2.1
    · simp only [hch, not_false_eq_true, if_true] at h
      cases hd : displayChanged k { s with videoWait := s.videoSync } with
      | none => simp [hd] at h
      | some x =>
        obtain ⟨sa, eva⟩ := x
        simp only [hd, Option.some.injEq] at h
        obtain ⟨p, r2, h1, h2, h3⟩ := displayChanged_modes k _ _ _ hd
        have hs1 : s1 = (submitFrame k sa status eva).2.1 := congrArg (fun x => x.2.1) h.symm
        have hf := submitFrame_frame k sa status eva
        right
        refine ⟨p, r2, ?_, ?_, h3⟩
        · rw [hs1, hf.1]; exact h1
        · rw [hs1, hf.2.1]; exact h2

theorem lightgunStep_frame (k : Hdr) (acc : Nat × State × List Event) (i : Nat) :
    (lightgunStep k acc i).2.1.modes = acc.2.1.modes ∧
    (lightgunStep k acc i).2.1.sms_ntsc = acc.2.1.sms_ntsc ∧
    (lightgunStep k acc i).2.1.md_ntsc = acc.2.1.md_ntsc := by
  unfold lightgunStep
  simp only
  split_ifs <;> exact ⟨rfl, rfl, rfl⟩

theorem lightgunLoop_frame (k : Hdr) (l : List Nat) (acc : Nat × State × List Event) :
    (l.foldl (lightgunStep k) acc).2.1.modes = acc.2.1.modes ∧
    (l.foldl (lightgunStep k) acc).2.1.sms_ntsc = acc.2.1.sms_ntsc ∧
    (l.foldl (lightgunStep k) acc).2.1.md_ntsc = acc.2.1.md_ntsc := by
  induction l generalizing acc with
  | nil => exact ⟨rfl, rfl, rfl⟩
  | cons i l ih =>
    rw [List.foldl_cons]
    obtain ⟨h1, h2, h3⟩ := ih (lightgunStep k acc i)
    obtain ⟨g1, g2, g3⟩ := lightgunStep_frame k acc i
    exact ⟨h1.trans g1, h2.trans g2, h3.trans g3⟩

theorem startOverlays_frame (k : Hdr) (s : State) :
    (startOverlays k s).1.modes = s.modes ∧
    (startOverlays k s).1.sms_ntsc = s.sms_ntsc ∧
    (startOverlays k s).1.md_ntsc = s.md_ntsc := by
  obtain ⟨h1, h2, h3⟩ := lightgunLoop_frame k (List.range k.MAX_DEVICES) (0, s, [])
  unfold startOverlays
  simp only
  split_ifs <;> exact ⟨h1, h2, h3⟩

theorem startNtsc_modes (s : State) : (startNtsc s).1.modes = s.modes := by
  unfold startNtsc
  split_ifs <;> rfl

theorem gx_video_Start_modes (k : Hdr) (s : State) :
    (gx_video_Start k s).1.modes = startRenderModes k s.config s.modes := by
  unfold gx_video_Start
  simp only
  rw [(startOverlays_frame k _).1]
  exact startNtsc_modes _

theorem startRenderModes_frame (k : Hdr) (c : Config) (m : ModeStore) :
    (∀ q, sameButTvMode ((startRenderModes k c m).read q) (m.read q)) ∧
    (∀ q, q ≠ ModeId.TV60hz_480i → q ≠ ModeId.TV50hz_576i →
      (startRenderModes k c m).read q = m.read q) ∧
    (c.render ≠ 1 → c.render ≠ 2 → startRenderModes k c m = m) := by
  refine ⟨?_, ?_, ?_⟩
  · intro q
    unfold startRenderModes patchMode sameButTvMode
    split_ifs <;> cases q <;> rfl
  · intro q h1 h2
    unfold startRenderModes patchMode
    split_ifs <;> cases q <;> first | rfl | exact absurd rfl h1 | exact absurd rfl h2
  · intro h1 h2
    unfold startRenderModes
    simp only [h1, h2, if_false]

/-- What "Enable progressive or interlaced video mode" stores in `tvmodes[2]`
and `tvmodes[5]`. -/
theorem startRenderModes_writes (k : Hdr) (c : Config) (m : ModeStore) :
    (c.render = 2 →
      (startRenderModes k c m).read ModeId.TV60hz_480i =
        { m.read ModeId.TV60hz_480i with
          viTVMode := andNot32 (m.read ModeId.TV60hz_480i).viTVMode 3 ||| k.VI_PROGRESSIVE
          xfbMode := k.VI_XFBMODE_SF } ∧
      (startRenderModes k c m).read ModeId.TV50hz_576i =
        { m.read ModeId.TV50hz_576i with
          viTVMode := k.VI_TVMODE_PAL_PROG
          xfbMode := k.VI_XFBMODE_SF }) ∧
    (c.render = 1 →
      (startRenderModes k c m).read ModeId.TV60hz_480i =
        { m.read ModeId.TV60hz_480i with
          viTVMode := andNot32 (m.read ModeId.TV60hz_480i).viTVMode 3 ||| k.VI_INTERLACE
          xfbMode := k.VI_XFBMODE_DF } ∧
      (startRenderModes k c m).read ModeId.TV50hz_576i =
        { m.read ModeId.TV50hz_576i with
          viTVMode := k.VI_TVMODE_PAL_INT
          xfbMode := k.VI_XFBMODE_DF }) := by
  constructor
  · intro h
    unfold startRenderModes
    simp only [h, if_true]
    exact ⟨rfl, rfl⟩
  · intro h
    have h2 : ¬ c.render = 2 := by omega
    unfold startRenderModes
    simp only [h, h2, if_true, if_false]
    exact ⟨rfl, rfl⟩

/-- What `gx_video_Init` stores in the mode objects. -/
theorem gx_video_Init_modes (k : Hdr) (v : Nat) (s : State) :
    (gx_video_Init k v s).modes.read ModeId.TV60hz_240p =
      { s.modes.read ModeId.TV60hz_240p with
        viTVMode := if v >>> 2 = k.VI_PAL then k.VI_TVMODE_EURGB60_DS
          else k.VI_TVMODE (v >>> 2) k.VI_NON_INTERLACE } ∧
    (gx_video_Init k v s).modes.read ModeId.TV60hz_240i =
      { s.modes.read ModeId.TV60hz_240i with
        viTVMode := if v >>> 2 = k.VI_PAL then k.VI_TVMODE_EURGB60_INT
          else k.VI_TVMODE (v >>> 2) k.VI_INTERLACE } ∧
    (gx_video_Init k v s).modes.read ModeId.TV60hz_480i =
      { s.modes.read ModeId.TV60hz_480i with
        viTVMode := if v >>> 2 = k.VI_PAL then k.VI_TVMODE_EURGB60_INT
          else k.VI_TVMODE (v >>> 2) k.VI_INTERLACE } ∧
    (gx_video_Init k v s).modes.read ModeId.TV50hz_288p = s.modes.read ModeId.TV50hz_288p ∧
    (gx_video_Init k v s).modes.read ModeId.TV50hz_288i = s.modes.read ModeId.TV50hz_288i ∧
    (gx_video_Init k v s).modes.read ModeId.TV50hz_576i = s.modes.read ModeId.TV50hz_576i := by
  unfold gx_video_Init
  by_cases h : v >>> 2 = k.VI_PAL
  · simp only [h, if_true]
    exact ⟨rfl, rfl, rfl, rfl, rfl, rfl⟩
  · simp only [h, if_false]
    exact ⟨rfl, rfl, rfl, rfl, rfl, rfl⟩

/-- What the scaler reset stores in the mode objects: the result of "configure
VI width" in the object `rmode` points to. -/
theorem gxResetScaler_writes (k : Hdr) (s : State) (width : Nat) (s2 : State)
    (h : gxResetScaler k s width = some s2) :
    ∃ p r2 x, s.rmode = some p ∧ s2.rmode = some p ∧
      configureVI s.config
        { s.modes.read p with fbWidth := efbWidth s.config width (gxSetAspectRatio k s).1 }
        (gxSetAspectRatio k s).1 = some (r2, x) ∧
      s2.modes = s.modes.write p r2 := by
  unfold gxResetScaler at h
  cases hp : s.rmode with
  | none => simp [hp] at h
  | some p =>
    simp only [hp] at h
    cases hc : configureVI s.config
        { s.modes.read p with fbWidth := efbWidth s.config width (gxSetAspectRatio k s).1 }
        (gxSetAspectRatio k s).1 with
    | none => simp [hc] at h
    | some x =>
      obtain ⟨r, x⟩ := x
      simp only [hc] at h
      generalize cdivq (s.config.xshift * _) _ = cx at h
      generalize cdivq (s.config.yshift * _) _ = cy at h
      cases cx <;> cases cy <;> simp only [Option.some.injEq, reduceCtorEq] at h
      refine ⟨p, r, x, rfl, ?_, hc, ?_⟩
      · rw [← h]
      · rw [← h]

theorem displayChanged_writes (k : Hdr) (s : State) (s2 : State) (ev : List Event)
    (h : displayChanged k s = some (s2, ev)) :
    ∃ p r2 x, tvmodes (tvmodeIndex s.gc_pal s.config.render s.interlaced) = some p ∧
      s2.rmode = some p ∧
      configureVI s.config
        { s.modes.read p with
          fbWidth := efbWidth s.config (textureSize k s).1 (gxSetAspectRatio k s).1 }
        (gxSetAspectRatio k s).1 = some (r2, x) ∧
      s2.modes = s.modes.write p r2 := by
  unfold displayChanged at h
  simp only at h
  cases hop : tvmodes (tvmodeIndex s.gc_pal s.config.render s.interlaced) with
  | none => simp [hop] at h
  | some p =>
    simp only [hop] at h
    cases hs3 : gxResetScaler k
        { s with vwidth := (textureSize k s).1, vheight := (textureSize k s).2, rmode := some p }
        (textureSize k s).1 with
    | none => simp [hs3] at h
    | some s3 =>
      simp only [hs3, Option.some.injEq, Prod.mk.injEq] at h
      obtain ⟨p2, r2, x, h1, h2, h3, h4⟩ := gxResetScaler_writes k _ _ _ hs3
      have hp2 : p2 = p := by
        have e : some p = some p2 := h1
        injection e with e
        exact e.symm
      subst hp2
      rw [← h.1]
      exact ⟨p2, r2, x, rfl, h2, h3, h4⟩

/-- What an update stores in the mode objects: nothing when it does not find
the display changed, the result of "configure VI width" in the newly selected
mode object when it does. -/
theorem gx_video_Update_writes (k : Hdr) (s : State) (status r : Nat) (s1 : State)
    (ev : List Event) (h : gx_video_Update k s status = some (r, s1, ev)) :
    ((status &&& k.VIDEO_UPDATE = 0 ∨ s.viewport.changed &&& 1 = 0) → s1.modes = s.modes) ∧
    (status &&& k.VIDEO_UPDATE ≠ 0 → s.viewport.changed &&& 1 ≠ 0 →
      ∃ p r2 x, tvmodes (tvmodeIndex s.gc_pal s.config.render s.interlaced) = some p ∧
        s1.rmode = some p ∧
        configureVI s.config
          { s.modes.read p with
            fbWidth := efbWidth s.config (textureSize k s).1 (gxSetAspectRatio k s).1 }
          (gxSetAspectRatio k s).1 = some (r2, x) ∧
        s1.modes = s.modes.write p r2) := by
  unfold gx_video_Update at h
  by_cases hupd : status &&& k.VIDEO_UPDATE = 0
  · simp only [hupd, ne_eq, not_true_eq_false, if_false, Option.some.injEq,
      Prod.mk.injEq] at h
    refine ⟨fun _ => ?_, fun h1 => absurd hupd h1⟩
    rw [← h.2.1]
  · simp only [hupd, ne_eq, not_false_eq_true, if_true] at h
    by_cases hch : s.viewport.changed &&& 1 = 0
    · simp only [hch, not_true_eq_false, if_false, Option.some.injEq] at h
      refine ⟨fun _ => ?_, fun _ h2 => absurd hch h2⟩
      have hs1 : s1 = (submitFrame k { s with videoWait := s.videoSync } status []).2.1 :=
        congrArg (fun x => x.2.1) h.symm
      rw [hs1]
      exact (submitFrame_frame k _ status []).2.1
    · simp only [hch, not_false_eq_true, if_true] at h
      refine ⟨fun h0 => ?_, fun _ _ => ?_⟩
      · rcases h0 with h0 | h0
        · exact absurd h0 hupd
        · exact absurd h0 hch
      · cases hd : displayChanged k { s with videoWait := s.videoSync } with
        | none => simp [hd] at h
        | some x =>
          obtain ⟨sa, eva⟩ := x
          simp only [hd, Option.some.injEq] at h
          obtain ⟨p, r2, x, h1, h2, h3, h4⟩ := displayChanged_writes k _ _ _ hd
          have hs1 : s1 = (submitFrame k sa status eva).2.1 :=
            congrArg (fun x => x.2.1) h.symm
          have hf := submitFrame_frame k sa status eva
          refine ⟨p, r2, x, h1, ?_, h3, ?_⟩
          · rw [hs1, hf.1]; exact h2
          · rw [hs1, hf.2.1]; exact h4

/-- C19 as stated fails: the first update of a 320-pixel display stores a VI
width of 644 in `TV60hz_240p`, statically 720, and `gx_video_Start` with the
progressive render mode stores `VI_XFBMODE_SF` in `TV60hz_480i`, statically
`VI_XFBMODE_DF`. -/
theorem mode_objects_are_rewritten :
    ((staticModes hdr).read ModeId.TV60hz_240p).viWidth = 720 ∧
    (gx_video_Update hdr mdState 4).map
      (fun r => (r.2.1.modes.read ModeId.TV60hz_240p).viWidth) = some 644 ∧
    ((staticModes hdr).read ModeId.TV60hz_480i).xfbMode = 1 ∧
    ((gx_video_Start hdr progressiveState).1.modes.read ModeId.TV60hz_480i).xfbMode = 0 := by
  decide

/-- C19, amended. The mode objects are writable and three operations assign to
them. `gx_video_Init` stores in `viTVMode` of the three 60 Hz objects the
EURGB60 modes when the format of the preferred mode (`viTVMode >> 2`) is
`VI_PAL`, and `VI_TVMODE(format, scan)` otherwise, with scan
`VI_NON_INTERLACE` for `TV60hz_240p` and `VI_INTERLACE` for the other two.
`gx_video_Start` stores in `tvmodes[2]` its TV mode with the two low bits
replaced by `VI_PROGRESSIVE` and `VI_XFBMODE_SF`, and in `tvmodes[5]`
`VI_TVMODE_PAL_PROG` and `VI_XFBMODE_SF`, when config.render is 2; the
interlaced values with `VI_XFBMODE_DF` when it is 1; nothing otherwise.
`gx_video_Update` stores nothing unless it finds the display changed, and then
stores, through `gxResetScaler`, the result of "configure VI width" in the
object of `tvmodes` it selects as `rmode`, which differs from the old one in
`fbWidth`, `viWidth` and `viXOrigin` at most. Each of the three leaves every
other field of every mode object unchanged. -/
theorem mode_objects_frame (k : Hdr) (s : State) :
    (∀ v : Nat,
      (gx_video_Init k v s).modes.read ModeId.TV60hz_240p =
        { s.modes.read ModeId.TV60hz_240p with
          viTVMode := if v >>> 2 = k.VI_PAL then k.VI_TVMODE_EURGB60_DS
            else k.VI_TVMODE (v >>> 2) k.VI_NON_INTERLACE } ∧
      (gx_video_Init k v s).modes.read ModeId.TV60hz_240i =
        { s.modes.read ModeId.TV60hz_240i with
          viTVMode := if v >>> 2 = k.VI_PAL then k.VI_TVMODE_EURGB60_INT
            else k.VI_TVMODE (v >>> 2) k.VI_INTERLACE } ∧
      (gx_video_Init k v s).modes.read ModeId.TV60hz_480i =
        { s.modes.read ModeId.TV60hz_480i with
          viTVMode := if v >>> 2 = k.VI_PAL then k.VI_TVMODE_EURGB60_INT
            else k.VI_TVMODE (v >>> 2) k.VI_INTERLACE } ∧
      (gx_video_Init k v s).modes.read ModeId.TV50hz_288p = s.modes.read ModeId.TV50hz_288p ∧
      (gx_video_Init k v s).modes.read ModeId.TV50hz_288i = s.modes.read ModeId.TV50hz_288i ∧
      (gx_video_Init k v s).modes.read ModeId.TV50hz_576i =
        s.modes.read ModeId.TV50hz_576i) ∧
    (s.config.render = 2 →
      (gx_video_Start k s).1.modes.read ModeId.TV60hz_480i =
        { s.modes.read ModeId.TV60hz_480i with
          viTVMode := andNot32 (s.modes.read ModeId.TV60hz_480i).viTVMode 3 ||| k.VI_PROGRESSIVE
          xfbMode := k.VI_XFBMODE_SF } ∧
      (gx_video_Start k s).1.modes.read ModeId.TV50hz_576i =
        { s.modes.read ModeId.TV50hz_576i with
          viTVMode := k.VI_TVMODE_PAL_PROG
          xfbMode := k.VI_XFBMODE_SF }) ∧
    (s.config.render = 1 →
      (gx_video_Start k s).1.modes.read ModeId.TV60hz_480i =
        { s.modes.read ModeId.TV60hz_480i with
          viTVMode := andNot32 (s.modes.read ModeId.TV60hz_480i).viTVMode 3 ||| k.VI_INTERLACE
          xfbMode := k.VI_XFBMODE_DF } ∧
      (gx_video_Start k s).1.modes.read ModeId.TV50hz_576i =
        { s.modes.read ModeId.TV50hz_576i with
          viTVMode := k.VI_TVMODE_PAL_INT
          xfbMode := k.VI_XFBMODE_DF }) ∧
    (s.config.render ≠ 1 → s.config.render ≠ 2 → (gx_video_Start k s).1.modes = s.modes) ∧
    (∀ q, q ≠ ModeId.TV60hz_480i → q ≠ ModeId.TV50hz_576i →
      (gx_video_Start k s).1.modes.read q = s.modes.read q) ∧
    (∀ (status r : Nat) (s1 : State) (ev : List Event),
      gx_video_Update k s status = some (r, s1, ev) →
      ((status &&& k.VIDEO_UPDATE = 0 ∨ s.viewport.changed &&& 1 = 0) →
        s1.modes = s.modes) ∧
      (status &&& k.VIDEO_UPDATE ≠ 0 → s.viewport.changed &&& 1 ≠ 0 →
        ∃ p r2 x, tvmodes (tvmodeIndex s.gc_pal s.config.render s.interlaced) = some p ∧
          s1.rmode = some p ∧
          configureVI s.config
            { s.modes.read p with
              fbWidth := efbWidth s.config (textureSize k s).1 (gxSetAspectRatio k s).1 }
            (gxSetAspectRatio k s).1 = some (r2, x) ∧
          s1.modes = s.modes.write p r2) ∧
      ∀ q, sameButScaler (s1.modes.read q) (s.modes.read q) ∧
        (s1.rmode ≠ some q → s1.modes.read q = s.modes.read q)) := by
  obtain ⟨_, h2, h3⟩ := startRenderModes_frame k s.config s.modes
  obtain ⟨w1, w2⟩ := startRenderModes_writes k s.config s.modes
  rw [gx_video_Start_modes]
  refine ⟨fun v => gx_video_Init_modes k v s, w1, w2, h3, h2, ?_⟩
  intro status r s1 ev hcall
  obtain ⟨u1, u2⟩ := gx_video_Update_writes k s status r s1 ev hcall
  refine ⟨u1, u2, ?_⟩
  intro q
  rcases gx_video_Update_modes k s status r s1 ev hcall with hm | ⟨p, r2, hp, hm, hs⟩
  · rw [hm]
    exact ⟨rfl, fun _ => rfl⟩
  · rw [hm]
    by_cases hq : q = p
    · subst hq
      rw [ModeStore.read_write]
      exact ⟨hs, fun h => absurd hp h⟩
    · rw [ModeStore.read_write_ne _ _ _ _ hq]
      exact ⟨rfl, fun _ => rfl⟩

theorem mode_objects_frame_witness :
    (∃ r s1 ev, gx_video_Update hdr mdState 4 = some (r, s1, ev) ∧
      s1.rmode = some ModeId.TV60hz_240p ∧
      (s1.modes.read ModeId.TV60hz_240p).fbWidth = 640 ∧
      (s1.modes.read ModeId.TV60hz_240p).viWidth = 644 ∧
      (s1.modes.read ModeId.TV60hz_240p).viXOrigin = 38 ∧
      ∀ q, sameButScaler (s1.modes.read q) (mdState.modes.read q) ∧
        (s1.rmode ≠ some q → s1.modes.read q = mdState.modes.read q)) ∧
    ((gx_video_Start hdr progressiveState).1.modes.read ModeId.TV60hz_480i).viTVMode = 22 ∧
    ((gx_video_Start hdr progressiveState).1.modes.read ModeId.TV60hz_480i).xfbMode = 0 ∧
    ((gx_video_Start hdr progressiveState).1.modes.read ModeId.TV50hz_576i).viTVMode = 6 := by
  obtain ⟨⟨r, s1, ev⟩, hcall⟩ := gx_video_Update_defined hdr mdState 4
    (Or.inr ⟨ModeId.TV60hz_240p, by decide, by decide, by decide, by decide⟩)
  obtain ⟨_, hu, hf⟩ := (mode_objects_frame hdr mdState).2.2.2.2.2 4 r s1 ev hcall
  obtain ⟨p, r2, x, hp, hr, hc, hm⟩ := hu (by decide) (by decide)
  have ep : tvmodes (tvmodeIndex mdState.gc_pal mdState.config.render mdState.interlaced) =
      some ModeId.TV60hz_240p := by decide
  rw [ep] at hp
  injection hp with hp
  subst hp
  have ec : configureVI mdState.config
      { mdState.modes.read ModeId.TV60hz_240p with
        fbWidth := efbWidth mdState.config (textureSize hdr mdState).1
          (gxSetAspectRatio hdr mdState).1 }
      (gxSetAspectRatio hdr mdState).1 =
      some ({ mdState.modes.read ModeId.TV60hz_240p with
        fbWidth := 640, viWidth := 644, viXOrigin := 38 }, 320) := by decide
  rw [ec] at hc
  injection hc with hc
  injection hc with hc1 hc2
  obtain ⟨g1, g2⟩ := (mode_objects_frame hdr progressiveState).2.1 (by decide)
  refine ⟨⟨r, s1, ev, hcall, hr, ?_, ?_, ?_, hf⟩, ?_, ?_, ?_⟩
  · rw [hm, ModeStore.read_write, ← hc1]
  · rw [hm, ModeStore.read_write, ← hc1]
  · rw [hm, ModeStore.read_write, ← hc1]
  · rw [g1]; decide
  · rw [g1]; decide
  · rw [g2]; decide

theorem startNtsc_congr (s t : State) (hc : s.config = t.config)
    (h1 : s.sms_ntsc = t.sms_ntsc) (h2 : s.md_ntsc = t.md_ntsc) :
    (startNtsc s).1.sms_ntsc = (startNtsc t).1.sms_ntsc ∧
    (startNtsc s).1.md_ntsc = (startNtsc t).1.md_ntsc := by
  unfold startNtsc
  simp only [hc, h1, h2]
  split_ifs
  · exact ⟨rfl, rfl⟩
  · exact ⟨h1, h2⟩

theorem gx_video_Start_filters (k : Hdr) (s : State) :
    (gx_video_Start k s).1.sms_ntsc = (startNtsc s).1.sms_ntsc ∧
    (gx_video_Start k s).1.md_ntsc = (startNtsc s).1.md_ntsc := by
  unfold gx_video_Start
  simp only
  rw [(startOverlays_frame k _).2.1, (startOverlays_frame k _).2.2]
  exact startNtsc_congr _ s rfl rfl rfl

/-- C13. Filter state left by `gx_video_Start`: the composite preset for
config.ntsc = 1, the S-Video preset for 2, the custom setup for 4, and for
config.ntsc = 3 the RGB preset is applied first and then overwritten by the
custom setup, because case 3 of the switch continues into case 4. -/
theorem preset_selection (k : Hdr) (s : State) :
    (s.config.ntsc = 1 →
      (gx_video_Start k s).1.sms_ntsc = some (FilterCtx.mk (some NtscSetup.composite)) ∧
      (gx_video_Start k s).1.md_ntsc = some (FilterCtx.mk (some NtscSetup.composite))) ∧
    (s.config.ntsc = 2 →
      (gx_video_Start k s).1.sms_ntsc = some (FilterCtx.mk (some NtscSetup.svideo)) ∧
      (gx_video_Start k s).1.md_ntsc = some (FilterCtx.mk (some NtscSetup.svideo))) ∧
    (s.config.ntsc = 3 →
      ntscSwitch s.config = [NtscSetup.rgb, ntsc_custom s.config] ∧
      (gx_video_Start k s).1.sms_ntsc = some (FilterCtx.mk (some (ntsc_custom s.config))) ∧
      (gx_video_Start k s).1.md_ntsc = some (FilterCtx.mk (some (ntsc_custom s.config)))) ∧
    (s.config.ntsc = 4 →
      (gx_video_Start k s).1.sms_ntsc = some (FilterCtx.mk (some (ntsc_custom s.config))) ∧
      (gx_video_Start k s).1.md_ntsc = some (FilterCtx.mk (some (ntsc_custom s.config)))) := by
  obtain ⟨hsms, hmd⟩ := gx_video_Start_filters k s
  rw [hsms, hmd]
  refine ⟨?_, ?_, ?_, ?_⟩
  · intro h
    simp [startNtsc, ntscSwitch, h]
  · intro h
    simp [startNtsc, ntscSwitch, h]
  · intro h
    simp [startNtsc, ntscSwitch, h]
  · intro h
    simp [startNtsc, ntscSwitch, h]

theorem preset_selection_witness :
    ntscSwitch rgbState.config = [NtscSetup.rgb, ntsc_custom rgbState.config] ∧
    (gx_video_Start hdr rgbState).1.sms_ntsc
      = some (FilterCtx.mk (some (ntsc_custom rgbState.config))) ∧
    (gx_video_Start hdr rgbState).1.md_ntsc
      = some (FilterCtx.mk (some (ntsc_custom rgbState.config))) :=
  (preset_selection hdr rgbState).2.2.1 (by decide)

/-! ## Vertical scale, VI width and displayed width -/

/-- The result of the scaler reset in terms of the result of "configure VI
width". -/
theorem gxResetScaler_result (k : Hdr) (s : State) (width : Nat) (p : ModeId)
    (r : GXRModeObj) (x : Int) (hp : s.rmode = some p)
    (hc : configureVI s.config
      { s.modes.read p with fbWidth := efbWidth s.config width (gxSetAspectRatio k s).1 }
      (gxSetAspectRatio k s).1 = some (r, x))
    (hw : r.viWidth ≠ 0) (hh : r.viHeight ≠ 0) :
    gxResetScaler k s width = some { s with
      modes := s.modes.write p r
      square :=
        { v0 := toS16 (Int.tdiv (s.config.xshift * r.fbWidth) r.viWidth - x)
          v6 := toS16 (Int.tdiv (s.config.xshift * r.fbWidth) r.viWidth - x)
          v2 := toS16 (Int.tdiv (s.config.xshift * r.fbWidth) r.viWidth + x)
          v4 := toS16 (Int.tdiv (s.config.xshift * r.fbWidth) r.viWidth + x)
          v1 := toS16 (Int.tdiv (s.config.yshift * r.efbHeight) r.viHeight +
            (if s.config.render ≠ 0 then (gxSetAspectRatio k s).2 * 2
             else (gxSetAspectRatio k s).2))
          v3 := toS16 (Int.tdiv (s.config.yshift * r.efbHeight) r.viHeight +
            (if s.config.render ≠ 0 then (gxSetAspectRatio k s).2 * 2
             else (gxSetAspectRatio k s).2))
          v5 := toS16 (Int.tdiv (s.config.yshift * r.efbHeight) r.viHeight -
            (if s.config.render ≠ 0 then (gxSetAspectRatio k s).2 * 2
             else (gxSetAspectRatio k s).2))
          v7 := toS16 (Int.tdiv (s.config.yshift * r.efbHeight) r.viHeight -
            (if s.config.render ≠ 0 then (gxSetAspectRatio k s).2 * 2
             else (gxSetAspectRatio k s).2)) } } := by
  unfold gxResetScaler
  simp only [hp, hc, cdivq, hw, hh, if_false]

theorem toS16_of_range (x : Int) (h1 : -32768 ≤ x) (h2 : x ≤ 32767) : toS16 x = x := by
  unfold toS16
  omega

/-- "Configure VI width" keeps the heights of the mode object. -/
theorem configureVI_heights (c : Config) (r : GXRModeObj) (xscale : Int) (r2 : GXRModeObj)
    (x2 : Int) (h : configureVI c r xscale = some (r2, x2)) :
    r2.efbHeight = r.efbHeight ∧ r2.viHeight = r.viHeight := by
  have hs := configureVI_frame c r xscale r2 x2 h
  unfold sameButScaler at hs
  have h1 := congrArg GXRModeObj.efbHeight hs
  have h2 := congrArg GXRModeObj.viHeight hs
  exact ⟨h1, h2⟩

/-- C21. Double-height modes double the vertical scale: when `rmode` points to
a mode object with non-zero VI width and height and the texture is not empty,
`gxResetScaler` returns, and with yscale the value returned by
`gxSetAspectRatio`, yshift = (config.yshift * efbHeight) / viHeight and k = 2
when config.render is non-zero, k = 1 otherwise, it leaves
square[1] = square[3] = yshift + k * yscale and
square[5] = square[7] = yshift - k * yscale, provided both values lie in the
signed 16-bit range. -/
theorem double_height_doubles_yscale (k : Hdr) (s : State) (width : Nat) (p : ModeId)
    (hp : s.rmode = some p) (hvw : (s.modes.read p).viWidth ≠ 0)
    (hvh : (s.modes.read p).viHeight ≠ 0) (hw : 1 ≤ width)
    (hhi : -32768 ≤
        cdiv (s.config.yshift * (s.modes.read p).efbHeight) (s.modes.read p).viHeight +
          (if s.config.render ≠ 0 then 2 else 1) * (gxSetAspectRatio k s).2 ∧
      cdiv (s.config.yshift * (s.modes.read p).efbHeight) (s.modes.read p).viHeight +
          (if s.config.render ≠ 0 then 2 else 1) * (gxSetAspectRatio k s).2 ≤ 32767)
    (hlo : -32768 ≤
        cdiv (s.config.yshift * (s.modes.read p).efbHeight) (s.modes.read p).viHeight -
          (if s.config.render ≠ 0 then 2 else 1) * (gxSetAspectRatio k s).2 ∧
      cdiv (s.config.yshift * (s.modes.read p).efbHeight) (s.modes.read p).viHeight -
          (if s.config.render ≠ 0 then 2 else 1) * (gxSetAspectRatio k s).2 ≤ 32767) :
    ∃ s2, gxResetScaler k s width = some s2 ∧
      s2.square.v1 =
        cdiv (s.config.yshift * (s.modes.read p).efbHeight) (s.modes.read p).viHeight +
          (if s.config.render ≠ 0 then 2 else 1) * (gxSetAspectRatio k s).2 ∧
      s2.square.v3 = s2.square.v1 ∧
      s2.square.v5 =
        cdiv (s.config.yshift * (s.modes.read p).efbHeight) (s.modes.read p).viHeight -
          (if s.config.render ≠ 0 then 2 else 1) * (gxSetAspectRatio k s).2 ∧
      s2.square.v7 = s2.square.v5 := by
  obtain ⟨r2, x2, hc, _, hvw2⟩ := configureVI_defined s.config
    { s.modes.read p with fbWidth := efbWidth s.config width (gxSetAspectRatio k s).1 }
    (gxSetAspectRatio k s).1 (efbWidth_pos _ _ _ hw) hvw
  obtain ⟨he, hv⟩ := configureVI_heights _ _ _ _ _ hc
  have he2 : r2.efbHeight = (s.modes.read p).efbHeight := he
  have hv2 : r2.viHeight = (s.modes.read p).viHeight := hv
  have hres := gxResetScaler_result k s width p r2 x2 hp hc (by omega) (by rw [hv2]; exact hvh)
  have hk : (if s.config.render ≠ 0 then (gxSetAspectRatio k s).2 * 2
      else (gxSetAspectRatio k s).2) =
      (if s.config.render ≠ 0 then 2 else 1) * (gxSetAspectRatio k s).2 := by
    split_ifs <;> ring
  rw [hk, he2, hv2] at hres
  refine ⟨_, hres, ?_, rfl, ?_, rfl⟩
  · exact toS16_of_range _ hhi.1 hhi.2
  · exact toS16_of_range _ hlo.1 hlo.2

theorem double_height_doubles_yscale_witness :
    ∃ s2, gxResetScaler hdr pal576SelectedState 320 = some s2 ∧
      s2.square.v1 = 200 ∧ s2.square.v3 = 200 ∧ s2.square.v5 = -200 ∧ s2.square.v7 = -200 ∧
      (gxSetAspectRatio hdr pal576SelectedState).2 = 100 := by
  obtain ⟨s2, h, h1, h3, h5, h7⟩ := double_height_doubles_yscale hdr pal576SelectedState 320
    ModeId.TV50hz_576i rfl (by decide) (by decide) (by decide) (by decide) (by decide)
  refine ⟨s2, h, ?_, ?_, ?_, ?_, by decide⟩
  · rw [h1]; decide
  · rw [h3, h1]; decide
  · rw [h5]; decide
  · rw [h7, h5]; decide

/-- C30. In original aspect mode the resolved scales ignore user scaling and
emulated width: two states with config.aspect non-zero that agree on
config.aspect, config.overscan, bit 0 of reg[12], system_clock, system_hw,
config.gg_extra, vdp_pal, gc_pal, config.render, viewport.h and viewport.y get
the same (xscale, yscale) from `gxSetAspectRatio`, whatever viewport.w,
viewport.x, config.xscale and config.yscale are. -/
theorem original_aspect_ignores_user_scaling (k : Hdr) (s t : State)
    (ha : s.config.aspect ≠ 0) (h1 : t.config.aspect = s.config.aspect)
    (h2 : t.config.overscan = s.config.overscan) (h3 : t.reg12 &&& 1 = s.reg12 &&& 1)
    (h4 : t.system_clock = s.system_clock) (h5 : t.system_hw = s.system_hw)
    (h6 : t.config.gg_extra = s.config.gg_extra) (h7 : t.vdp_pal = s.vdp_pal)
    (h8 : t.gc_pal = s.gc_pal) (h9 : t.config.render = s.config.render)
    (h10 : t.viewport.h = s.viewport.h) (h11 : t.viewport.y = s.viewport.y) :
    gxSetAspectRatio k t = gxSetAspectRatio k s := by
  have hat : t.config.aspect ≠ 0 := by rw [h1]; exact ha
  unfold gxSetAspectRatio
  simp only [ha, hat, ne_eq, not_false_eq_true, if_true, h1, h2, h3, h4, h5, h6, h7, h8, h9,
    h10, h11]

theorem original_aspect_ignores_user_scaling_witness :
    gxSetAspectRatio hdr mdUserScaledState = gxSetAspectRatio hdr mdState ∧
    mdUserScaledState.viewport.w ≠ mdState.viewport.w ∧
    mdUserScaledState.viewport.x ≠ mdState.viewport.x ∧
    mdUserScaledState.config.xscale ≠ mdState.config.xscale ∧
    mdUserScaledState.config.yscale ≠ mdState.config.yscale :=
  ⟨original_aspect_ignores_user_scaling hdr mdState mdUserScaledState (by decide) rfl rfl rfl
      rfl rfl rfl rfl rfl rfl rfl rfl,
    by decide, by decide, by decide, by decide⟩

/-- What "configure VI width" leaves in the VI fields of the mode object, for a
positive EFB width of at most 640 and a non-zero previous VI width. -/
theorem configureVI_viWidth (c : Config) (r : GXRModeObj) (xscale : Int)
    (hfb : 0 < r.fbWidth) (hfb2 : r.fbWidth ≤ 640) (hvw : r.viWidth ≠ 0) :
    ∃ r2 x2, configureVI c r xscale = some (r2, x2) ∧ r2.viHeight = r.viHeight ∧
      0 < r2.viWidth ∧ r2.viWidth ≤ 720 ∧ r2.viXOrigin = cdiv (720 - r2.viWidth) 2 ∧
      r2.viXOrigin + r2.viWidth ≤ 720 := by
  have h720 : toU16 (360 * 2) = 720 := by decide
  have h0 : toU16 (cdiv (720 - 360 * 2) 2) = 0 := by decide
  have hc0 : cdiv (720 - 720) 2 = 0 := by decide
  unfold configureVI
  by_cases h : xscale * 2 > r.fbWidth
  · by_cases h360 : xscale > 360
    · simp only [h, h360, if_true, cdivq, hvw, if_false]
      by_cases hoff : Int.tdiv ((xscale - 360) * r.fbWidth) r.viWidth = 0
      · simp only [hoff, ne_eq, not_true_eq_false, if_false]
        refine ⟨_, _, rfl, rfl, ?_⟩
        simp only [h720, h0, hc0]
        exact ⟨by omega, by omega, trivial, by omega⟩
      · simp only [hoff, ne_eq, not_false_eq_true, if_true]
        by_cases hf : c.bilinear = 0 ∧ c.ntsc = 0
        · simp only [hf, and_self, if_true]
          refine ⟨_, _, rfl, rfl, ?_⟩
          simp only [h720, h0, hc0]
          exact ⟨by omega, by omega, trivial, by omega⟩
        · simp only [hf, if_false]
          refine ⟨_, _, rfl, rfl, ?_⟩
          simp only [h720, h0, hc0]
          exact ⟨by omega, by omega, trivial, by omega⟩
    · simp only [h, h360, if_true, if_false, ne_eq, not_true_eq_false]
      refine ⟨_, _, rfl, rfl, ?_⟩
      have e1 : toU16 (xscale * 2) = xscale * 2 := by unfold toU16; omega
      have e2 : cdiv (720 - xscale * 2) 2 = 360 - xscale := by
        rw [cdiv_of_nonneg _ _ (by omega) (by decide)]
        omega
      have e3 : toU16 (360 - xscale) = 360 - xscale := by unfold toU16; omega
      refine ⟨?_, ?_, ?_, ?_⟩
      · show 0 < toU16 (xscale * 2)
        omega
      · show toU16 (xscale * 2) ≤ 720
        omega
      · show toU16 (cdiv (720 - xscale * 2) 2) = cdiv (720 - toU16 (xscale * 2)) 2
        rw [e1, e2, e3]
      · show toU16 (cdiv (720 - xscale * 2) 2) + toU16 (xscale * 2) ≤ 720
        rw [e1, e2, e3]
        omega
  · simp only [h, if_false]
    refine ⟨_, _, rfl, rfl, ?_⟩
    have e2 : cdiv (720 - r.fbWidth) 2 = (720 - r.fbWidth) / 2 :=
      cdiv_of_nonneg _ _ (by omega) (by decide)
    have e3 : toU16 ((720 - r.fbWidth) / 2) = (720 - r.fbWidth) / 2 := by unfold toU16; omega
    refine ⟨hfb, hfb2.trans (by decide), ?_, ?_⟩
    · show toU16 (cdiv (720 - r.fbWidth) 2) = cdiv (720 - r.fbWidth) 2
      rw [e2, e3]
    · show toU16 (cdiv (720 - r.fbWidth) 2) + r.fbWidth ≤ 720
      rw [e2, e3]
      omega

/-- C26. VI width invariant: when `rmode` points to a mode object with a
positive VI width and the texture is not empty, the division that saves the
over-width offset does not divide by zero, "configure VI width" leaves
0 < viWidth <= 720 and viXOrigin = (720 - viWidth) / 2, hence
viXOrigin + viWidth <= 720, the division of the x shift does not divide by
zero either, and `gxResetScaler` returns with that mode object whenever
`viHeight` is non-zero. -/
theorem vi_width_invariant (k : Hdr) (s : State) (width : Nat) (p : ModeId)
    (hp : s.rmode = some p) (hvw : 0 < (s.modes.read p).viWidth) (hw : 1 ≤ width) :
    cdivq (((gxSetAspectRatio k s).1 - 360) * efbWidth s.config width (gxSetAspectRatio k s).1)
      (s.modes.read p).viWidth ≠ none ∧
    ∃ r x, configureVI s.config
        { s.modes.read p with fbWidth := efbWidth s.config width (gxSetAspectRatio k s).1 }
        (gxSetAspectRatio k s).1 = some (r, x) ∧
      0 < r.viWidth ∧ r.viWidth ≤ 720 ∧ r.viXOrigin = cdiv (720 - r.viWidth) 2 ∧
      r.viXOrigin + r.viWidth ≤ 720 ∧
      cdivq (s.config.xshift * r.fbWidth) r.viWidth ≠ none ∧
      ((s.modes.read p).viHeight ≠ 0 →
        ∃ s2, gxResetScaler k s width = some s2 ∧ s2.modes.read p = r) := by
  have hne : (s.modes.read p).viWidth ≠ 0 := by omega
  constructor
  · simp [cdivq, hne]
  · obtain ⟨r2, x2, hc, hvh2, h1, h2, h3, h4⟩ := configureVI_viWidth s.config
      { s.modes.read p with fbWidth := efbWidth s.config width (gxSetAspectRatio k s).1 }
      (gxSetAspectRatio k s).1 (efbWidth_pos _ _ _ hw) (efbWidth_bounds _ _ _).2 hne
    have hne2 : r2.viWidth ≠ 0 := by omega
    refine ⟨r2, x2, hc, h1, h2, h3, h4, by simp [cdivq, hne2], ?_⟩
    intro hvh
    exact gxResetScaler_of_configureVI k s width p r2 x2 hp hc hne2 (by rw [hvh2]; exact hvh)

theorem vi_width_invariant_witness :
    ∃ r x, configureVI md240pState.config
        { md240pState.modes.read ModeId.TV60hz_240p with
          fbWidth := efbWidth md240pState.config 320 (gxSetAspectRatio hdr md240pState).1 }
        (gxSetAspectRatio hdr md240pState).1 = some (r, x) ∧
      0 < r.viWidth ∧ r.viWidth ≤ 720 ∧ r.viXOrigin = cdiv (720 - r.viWidth) 2 ∧
      r.viXOrigin + r.viWidth ≤ 720 ∧
      ∃ s2, gxResetScaler hdr md240pState 320 = some s2 ∧
        s2.modes.read ModeId.TV60hz_240p = r := by
  obtain ⟨r, x, hc, h1, h2, h3, h4, _, h6⟩ :=
    (vi_width_invariant hdr md240pState 320 ModeId.TV60hz_240p rfl (by decide) (by decide)).2
  exact ⟨r, x, hc, h1, h2, h3, h4, h6 (by decide)⟩

/-- With `xscale` in 0..360 and an EFB width in 1..640 "configure VI width"
saves no offset and keeps the EFB width: either VI upscaling is enabled, the VI
width is twice `xscale` and the GX scale half the EFB width, or it is disabled,
the VI width is the EFB width and the GX scale is `xscale`. -/
theorem configureVI_of_le_cases (c : Config) (r : GXRModeObj) (xscale : Int)
    (hfb : 0 < r.fbWidth) (hfb2 : r.fbWidth ≤ 640) (hx0 : 0 ≤ xscale) (hx : xscale ≤ 360) :
    ∃ r2 x2, configureVI c r xscale = some (r2, x2) ∧ r2.fbWidth = r.fbWidth ∧
      r2.viHeight = r.viHeight ∧
      ((r.fbWidth < xscale * 2 ∧ r2.viWidth = xscale * 2 ∧ x2 = r.fbWidth / 2) ∨
       (xscale * 2 ≤ r.fbWidth ∧ r2.viWidth = r.fbWidth ∧ x2 = xscale)) := by
  have hx2 : ¬ xscale > 360 := by omega
  unfold configureVI
  by_cases h : xscale * 2 > r.fbWidth
  · simp only [h, hx2, if_true, if_false, ne_eq, not_true_eq_false]
    refine ⟨_, _, rfl, rfl, rfl, Or.inl ⟨?_, ?_, ?_⟩⟩
    · trivial
    · show toU16 (xscale * 2) = xscale * 2
      unfold toU16
      omega
    · exact cdiv_of_nonneg _ _ (by omega) (by decide)
  · simp only [h, if_false]
    exact ⟨_, _, rfl, rfl, rfl, Or.inr ⟨by omega, rfl, rfl⟩⟩

/-- A shift scaled from VI to EFB pixels is no larger than the shift. -/
theorem tdiv_scale_bound (c fb vi B : Int) (h0 : 0 ≤ fb) (h1 : fb ≤ vi) (hv : 0 < vi)
    (hc1 : -B ≤ c) (hc2 : c ≤ B) :
    -B ≤ Int.tdiv (c * fb) vi ∧ Int.tdiv (c * fb) vi ≤ B := by
  rcases le_total 0 c with hc | hc
  · have hnn : 0 ≤ c * fb := mul_nonneg hc h0
    rw [Int.tdiv_eq_ediv hnn (le_of_lt hv)]
    have hle : c * fb / vi ≤ c :=
      Int.ediv_le_of_le_mul hv (mul_le_mul_of_nonneg_left h1 hc)
    have hge : 0 ≤ c * fb / vi := Int.ediv_nonneg hnn (le_of_lt hv)
    omega
  · have hnn : 0 ≤ -c * fb := mul_nonneg (by omega) h0
    have e : c * fb = -(-c * fb) := by ring
    rw [e, Int.neg_tdiv, Int.tdiv_eq_ediv hnn (le_of_lt hv)]
    have hle : -c * fb / vi ≤ -c :=
      Int.ediv_le_of_le_mul hv (mul_le_mul_of_nonneg_left h1 (by omega))
    have hge : 0 ≤ -c * fb / vi := Int.ediv_nonneg hnn (le_of_lt hv)
    omega

/-- C27 as stated fails: with a horizontal shift of 32767 the right edge of the
quad wraps in its signed 16-bit store. The resolved xscale is 322 and the EFB
width 640, yet square[2] - square[0] is -64896. -/
theorem displayed_width_wraps_with_large_shift :
    (gxSetAspectRatio hdr shiftedState).1 = 322 ∧
    efbWidth shiftedState.config 320 (gxSetAspectRatio hdr shiftedState).1 = 640 ∧
    (gxResetScaler hdr shiftedState 320).map
      (fun s2 => (s2.square.v0, s2.square.v2, (s2.modes.read ModeId.TV60hz_240p).viWidth,
        (s2.modes.read ModeId.TV60hz_240p).fbWidth)) = some (32243, -32653, 644, 640) ∧
    (-32653 - 32243 : Int) * 644 ≠ 2 * 322 * 640 := by
  decide

/-- C27, amended. Displayed width identity: when the resolved xscale lies in
0..360, the selected EFB width is even and config.xshift lies in
-32447..32447 (so that the vertices fit their signed 16-bit stores),
`gxResetScaler` returns (for a set `rmode`, a non-zero `viHeight` and a
non-empty texture), keeps the selected EFB width, and leaves
(square[2] - square[0]) * viWidth = 2 * xscale * fbWidth in both branches of
"configure VI width"; the quad is never wider than the EFB. -/
theorem displayed_width_identity (k : Hdr) (s : State) (width : Nat) (p : ModeId)
    (hp : s.rmode = some p) (hvh : (s.modes.read p).viHeight ≠ 0) (hw : 1 ≤ width)
    (hx0 : 0 ≤ (gxSetAspectRatio k s).1) (hx : (gxSetAspectRatio k s).1 ≤ 360)
    (heven : efbWidth s.config width (gxSetAspectRatio k s).1 % 2 = 0)
    (hs1 : -32447 ≤ s.config.xshift) (hs2 : s.config.xshift ≤ 32447) :
    ∃ s2, gxResetScaler k s width = some s2 ∧
      (s2.modes.read p).fbWidth = efbWidth s.config width (gxSetAspectRatio k s).1 ∧
      (s2.square.v2 - s2.square.v0) * (s2.modes.read p).viWidth =
        2 * (gxSetAspectRatio k s).1 * (s2.modes.read p).fbWidth ∧
      s2.square.v2 - s2.square.v0 ≤ (s2.modes.read p).fbWidth := by
  have hfb0 := efbWidth_pos s.config width (gxSetAspectRatio k s).1 hw
  have hfb1 := (efbWidth_bounds s.config width (gxSetAspectRatio k s).1).2
  obtain ⟨r2, x2, hc, hfb, hvh2, hcase⟩ := configureVI_of_le_cases s.config
    { s.modes.read p with fbWidth := efbWidth s.config width (gxSetAspectRatio k s).1 }
    (gxSetAspectRatio k s).1 hfb0 hfb1 hx0 hx
  have hfb2 : r2.fbWidth = efbWidth s.config width (gxSetAspectRatio k s).1 := hfb
  have hvh3 : r2.viHeight = (s.modes.read p).viHeight := hvh2
  have hcase2 : (r2.fbWidth < (gxSetAspectRatio k s).1 * 2 ∧
        r2.viWidth = (gxSetAspectRatio k s).1 * 2 ∧ x2 = r2.fbWidth / 2) ∨
      ((gxSetAspectRatio k s).1 * 2 ≤ r2.fbWidth ∧ r2.viWidth = r2.fbWidth ∧
        x2 = (gxSetAspectRatio k s).1) := by
    rw [hfb2]
    exact hcase
  have hvw : 0 < r2.viWidth ∧ r2.fbWidth ≤ r2.viWidth := by
    rcases hcase2 with ⟨h1, h2, _⟩ | ⟨h1, h2, _⟩ <;> omega
  have hres := gxResetScaler_result k s width p r2 x2 hp hc (by omega) (by rw [hvh3]; exact hvh)
  obtain ⟨b1, b2⟩ := tdiv_scale_bound s.config.xshift r2.fbWidth r2.viWidth 32447 (by omega)
    hvw.2 hvw.1 hs1 hs2
  have hx2 : 0 ≤ x2 ∧ x2 ≤ 320 := by
    rcases hcase2 with ⟨h1, h2, h3⟩ | ⟨h1, h2, h3⟩ <;> omega
  refine ⟨_, hres, ?_, ?_, ?_⟩
  · simp only [ModeStore.read_write]
    exact hfb2
  · simp only [ModeStore.read_write]
    rw [toS16_of_range _ (by omega) (by omega), toS16_of_range _ (by omega) (by omega)]
    rcases hcase2 with ⟨h1, h2, h3⟩ | ⟨h1, h2, h3⟩
    · have e : Int.tdiv (s.config.xshift * r2.fbWidth) r2.viWidth + x2 -
          (Int.tdiv (s.config.xshift * r2.fbWidth) r2.viWidth - x2) = r2.fbWidth := by omega
      rw [e, h2]
      ring
    · rw [h2, h3]
      ring
  · simp only [ModeStore.read_write]
    rw [toS16_of_range _ (by omega) (by omega), toS16_of_range _ (by omega) (by omega)]
    rcases hcase2 with ⟨h1, h2, h3⟩ | ⟨h1, h2, h3⟩ <;> omega

theorem displayed_width_identity_witness :
    ∃ s2, gxResetScaler hdr md240pState 320 = some s2 ∧
      (s2.modes.read ModeId.TV60hz_240p).fbWidth = 640 ∧
      (s2.square.v2 - s2.square.v0) * (s2.modes.read ModeId.TV60hz_240p).viWidth =
        2 * 322 * (s2.modes.read ModeId.TV60hz_240p).fbWidth := by
  obtain ⟨s2, h, h1, h2, _⟩ := displayed_width_identity hdr md240pState 320 ModeId.TV60hz_240p
    rfl (by decide) (by decide) (by decide) (by decide) (by decide) (by decide) (by decide)
  refine ⟨s2, h, ?_, ?_⟩
  · rw [h1]; decide
  · rw [h2]
    have e : (gxSetAspectRatio hdr md240pState).1 = 322 := by decide
    rw [e]

theorem ModeStore.write_write (m : ModeStore) (p : ModeId) (a b : GXRModeObj) :
    (m.write p a).write p b = m.write p b := by
  cases p <;> rfl

/-- With `xscale` at most 360 "configure VI width" does not read the previous
VI width. -/
theorem configureVI_forgets_viWidth (c : Config) (r : GXRModeObj) (xscale v : Int)
    (hx : xscale ≤ 360) :
    configureVI c { r with viWidth := v } xscale = configureVI c r xscale := by
  have hx2 : ¬ xscale > 360 := by omega
  unfold configureVI
  simp only [hx2, if_false, ne_eq, not_true_eq_false]

/-- C25. Where the scaler reads the previous VI width. When the resolved xscale
is at most 360 the result of `gxResetScaler` does not depend on the value
`rmode->viWidth` had before the call. When it is larger, the saved offset is
divided by the previous VI width: from the mode objects a scaler reset in
original aspect leaves behind (VI width 644) a reset in manual aspect with a
resolved xscale of 420 gives a quad of -379..379, the same call repeated gives
-373..373, and so does the first call from the static mode objects (VI width
720). -/
theorem scaler_reads_previous_vi_width :
    (∀ (k : Hdr) (s : State) (width : Nat) (p : ModeId) (v : Int),
      s.rmode = some p → (gxSetAspectRatio k s).1 ≤ 360 →
      gxResetScaler k
          { s with modes := s.modes.write p { s.modes.read p with viWidth := v } } width =
        gxResetScaler k s width) ∧
    (gxResetScaler hdr mdBilinearState 320).map (fun s1 => s1.modes) =
      some staleViState.modes ∧
    (gxSetAspectRatio hdr staleViState).1 = 420 ∧
    (gxResetScaler hdr staleViState 320).map (fun s2 => (s2.square.v0, s2.square.v2)) =
      some (-379, 379) ∧
    ((gxResetScaler hdr staleViState 320).bind (fun s2 => gxResetScaler hdr s2 320)).map
      (fun s3 => (s3.square.v0, s3.square.v2)) = some (-373, 373) ∧
    (gxResetScaler hdr { staleViState with modes := staticModes hdr } 320).map
      (fun s2 => (s2.square.v0, s2.square.v2)) = some (-373, 373) := by
  refine ⟨?_, by decide, by decide, by decide, by decide, by decide⟩
  intro k s width p v hp hx
  have hasp : ∀ m, gxSetAspectRatio k { s with modes := m } = gxSetAspectRatio k s :=
    fun _ => rfl
  unfold gxResetScaler
  simp only [hasp]
  simp only [hp, ModeStore.read_write, ModeStore.write_write]
  generalize s.modes.read p = r
  have hcv := configureVI_forgets_viWidth s.config
    { r with fbWidth := efbWidth s.config width (gxSetAspectRatio k s).1 }
    (gxSetAspectRatio k s).1 v hx
  obtain ⟨a1, a2, a3, a4, a5, a6, a7, a8, a9, a10, a11, a12, a13⟩ := r
  simp only at hcv ⊢
  rw [hcv]

theorem scaler_reads_previous_vi_width_witness :
    gxResetScaler hdr
        { md240pState with modes := (md240pState.modes.write ModeId.TV60hz_240p
            { md240pState.modes.read ModeId.TV60hz_240p with viWidth := 100 }) } 320 =
      gxResetScaler hdr md240pState 320 :=
  scaler_reads_previous_vi_width.1 hdr md240pState 320 ModeId.TV60hz_240p 100 rfl (by decide)

/-! ## Tiled addressing of the blitters and the filtered texture size -/

theorem outOffsets_append (a b : List BlitOp) :
    outOffsets (a ++ b) = outOffsets a ++ outOffsets b := by
  simp [outOffsets, List.filterMap_append]

theorem outOffsets_cons_beginRow (p : Sample) (ps : List Sample) (ops : List BlitOp) :
    outOffsets (BlitOp.beginRow p ps :: ops) = outOffsets ops := by
  simp [outOffsets, BlitOp.outOffset]

theorem smsNext_lineIndex (j : Nat) : smsNext (lineIndex j) = lineIndex (j + 1) := by
  unfold smsNext lineIndex cmod
  rw [Int.tmod_eq_emod (by omega) (by decide)]
  push_cast
  split_ifs <;> omega

theorem lineIndex_add_mul (m i : Nat) : lineIndex (8 * m + i) = 32 * (m : Int) + lineIndex i := by
  unfold lineIndex
  push_cast
  omega

/-- The seven stores of one chunk of the low-res blitter go to consecutive
pixels of the line in the tiled layout. -/
theorem smsChunk_offsets (base : Int) (x0 x1 x2 : Sample) (j : Nat) :
    outOffsets (smsChunk base x0 x1 x2 (lineIndex j)).1 =
      (List.range 7).map (fun (i : Nat) => base + 2 * lineIndex (j + i)) ∧
    (smsChunk base x0 x1 x2 (lineIndex j)).2 = lineIndex (j + 7) := by
  unfold smsChunk
  simp only [smsNext_lineIndex]
  exact ⟨rfl, trivial⟩

theorem range_map_split (f : Nat → Int) (a k : Nat) :
    (List.range (a + k)).map f = (List.range a).map f ++ (List.range k).map (fun i => f (a + i)) := by
  rw [List.range_add, List.map_append, List.map_map]
  rfl

theorem smsChunks_offsets (base : Int) (n : Nat) (input : Int) (j : Nat) :
    outOffsets (smsChunks base n input (lineIndex j)).1 =
      (List.range (7 * n)).map (fun (i : Nat) => base + 2 * lineIndex (j + i)) ∧
    (smsChunks base n input (lineIndex j)).2 = lineIndex (j + 7 * n) := by
  induction n generalizing input j with
  | zero => exact ⟨rfl, rfl⟩
  | succ n ih =>
    rw [smsChunks]
    simp only [outOffsets_append, (smsChunk_offsets base _ _ _ j).1,
      (smsChunk_offsets base _ _ _ j).2, (ih _ (j + 7)).1, (ih _ (j + 7)).2]
    constructor
    · rw [show 7 * (n + 1) = 7 + 7 * n by omega, range_map_split]
      simp only [Nat.add_assoc]
    · rw [show j + 7 + 7 * n = j + 7 * (n + 1) by omega]

/-- The eight stores of one chunk of the high-res blitter. -/
theorem mdChunk_offsets (base : Int) (x0 x1 x2 x3 : Sample) (m : Nat) :
    outOffsets (mdChunk base x0 x1 x2 x3 (32 * (m : Int))) =
      (List.range 8).map (fun (i : Nat) => base + 2 * lineIndex (8 * m + i)) := by
  simp only [lineIndex_add_mul]
  rfl

theorem mdChunks_offsets (base : Int) (n : Nat) (input : Int) (m : Nat) :
    outOffsets (mdChunks base n input (32 * (m : Int))).1 =
      (List.range (8 * n)).map (fun (i : Nat) => base + 2 * lineIndex (8 * m + i)) ∧
    (mdChunks base n input (32 * (m : Int))).2.2 = 32 * ((m + n : Nat) : Int) := by
  induction n generalizing input m with
  | zero => exact ⟨rfl, by simp [mdChunks]⟩
  | succ n ih =>
    rw [mdChunks]
    have e : 32 * (m : Int) + 32 = 32 * ((m + 1 : Nat) : Int) := by push_cast; ring
    simp only [outOffsets_append, mdChunk_offsets, e, (ih _ (m + 1)).1, (ih _ (m + 1)).2]
    constructor
    · rw [show 8 * (n + 1) = 8 + 8 * n by omega, range_map_split]
      congr 1
      apply List.map_congr_left
      intro i _
      rw [show 8 * (m + 1) + i = 8 * m + (8 + i) by omega]
    · rw [show m + 1 + n = m + (n + 1) by omega]

theorem tiledOffset_eq (tiles vline : Int) (k : Nat) :
    (tiles * 32) * (vline / 4) + (vline % 4) * 8 + 2 * lineIndex k =
      tiledOffset tiles k vline := by
  unfold tiledOffset lineIndex
  ring

/-- Where the low-res blitter stores its output: for a non-negative width and
line it returns, writes 7 * (in_width / 3 + 1) pixels, and stores the k-th of
them at the address of pixel (k, vline) of a tiled texture whose row stride is
`SMS_NTSC_OUT_WIDTH(in_width) / 4` tiles. -/
theorem sms_ntsc_blit_offsets (in_width vline : Int) (h : 0 ≤ in_width) (hv : 0 ≤ vline) :
    ∃ ops, sms_ntsc_blit in_width vline = some ops ∧
      pixelsWritten ops = 7 * ((in_width / 3).toNat + 1) ∧
      outOffsets ops = (List.range (7 * ((in_width / 3).toNat + 1))).map
        (fun (k : Nat) => tiledOffset (SMS_NTSC_OUT_WIDTH in_width / 4) k vline) := by
  have hcc : cdiv in_width 3 = in_width / 3 := Int.tdiv_eq_ediv h (by decide)
  have hneg : ¬ in_width / 3 < 0 := by omega
  have hvl : cdiv vline 4 = vline / 4 := Int.tdiv_eq_ediv hv (by decide)
  have hT : cdiv (SMS_NTSC_OUT_WIDTH in_width) 4 = SMS_NTSC_OUT_WIDTH in_width / 4 := by
    apply Int.tdiv_eq_ediv _ (by decide)
    simp only [SMS_NTSC_OUT_WIDTH, sms_ntsc_in_chunk, sms_ntsc_out_chunk, hcc]
    omega
  have h0 : (0 : Int) = lineIndex 0 := rfl
  unfold sms_ntsc_blit
  simp only [sms_ntsc_in_chunk, hcc, hneg, if_false, hvl, hT]
  refine ⟨_, rfl, ?_, ?_⟩
  · rw [pixelsWritten_cons_beginRow, pixelsWritten_append, smsChunks_written, smsChunk_written]
    omega
  · rw [outOffsets_cons_beginRow, outOffsets_append, h0, (smsChunks_offsets _ _ _ 0).2,
      (smsChunks_offsets _ _ _ 0).1, (smsChunk_offsets _ _ _ _ _).1,
      show 7 * ((in_width / 3).toNat + 1) = 7 * (in_width / 3).toNat + 7 by omega,
      range_map_split]
    simp only [Nat.zero_add, tiledOffset_eq]

/-- Where the high-res blitter stores its output: for a width of at least 4 it
returns, writes 8 * (in_width / 4) pixels, and stores the k-th of them at the
address of pixel (k, vline) of a tiled texture whose row stride is
`MD_NTSC_OUT_WIDTH(in_width) / 4` tiles. -/
theorem md_ntsc_blit_offsets (in_width vline : Int) (h : 4 ≤ in_width) :
    ∃ ops, md_ntsc_blit in_width vline = some ops ∧
      pixelsWritten ops = 8 * (in_width / 4).toNat ∧
      outOffsets ops = (List.range (8 * (in_width / 4).toNat)).map
        (fun (k : Nat) => tiledOffset (MD_NTSC_OUT_WIDTH in_width / 4) k vline) := by
  have hcc : cdiv in_width 4 = in_width / 4 := Int.tdiv_eq_ediv (by omega) (by decide)
  have hneg : ¬ in_width / 4 - 1 < 0 := by omega
  have h0 : (0 : Int) = 32 * ((0 : Nat) : Int) := rfl
  unfold md_ntsc_blit
  simp only [md_ntsc_in_chunk, hcc, hneg, if_false]
  refine ⟨_, rfl, ?_, ?_⟩
  · rw [pixelsWritten_cons_beginRow, pixelsWritten_append, mdChunks_written, mdChunk_written]
    omega
  · rw [outOffsets_cons_beginRow, outOffsets_append, h0, (mdChunks_offsets _ _ _ 0).2,
      (mdChunks_offsets _ _ _ 0).1, mdChunk_offsets,
      show 8 * (in_width / 4).toNat = 8 * (in_width / 4 - 1).toNat + 8 by omega,
      range_map_split]
    simp only [Nat.zero_add, Nat.mul_zero, tiledOffset_eq]

/-- C22. Tiled addressing of the blitters: for every line vline >= 0, and every
width for which the blitter returns (at least 0 for `sms_ntsc_blit`, at least 4
for `md_ntsc_blit`), the k-th output pixel is stored at byte offset
32 * (T * (vline / 4) + k / 4) + 8 * (vline mod 4) + 2 * (k mod 4) from
`bitmap.data`, for every k below the number of pixels written, where T is the
output width divided by 4. -/
theorem blitters_tiled_addressing :
    (∀ in_width vline : Int, 0 ≤ in_width → 0 ≤ vline →
      ∃ ops, sms_ntsc_blit in_width vline = some ops ∧
        outOffsets ops = (List.range (pixelsWritten ops)).map
          (fun (k : Nat) => tiledOffset (SMS_NTSC_OUT_WIDTH in_width / 4) k vline)) ∧
    (∀ in_width vline : Int, 4 ≤ in_width → 0 ≤ vline →
      ∃ ops, md_ntsc_blit in_width vline = some ops ∧
        outOffsets ops = (List.range (pixelsWritten ops)).map
          (fun (k : Nat) => tiledOffset (MD_NTSC_OUT_WIDTH in_width / 4) k vline)) := by
  constructor
  · intro in_width vline h hv
    obtain ⟨ops, hops, hw, ho⟩ := sms_ntsc_blit_offsets in_width vline h hv
    exact ⟨ops, hops, by rw [hw]; exact ho⟩
  · intro in_width vline h _
    obtain ⟨ops, hops, hw, ho⟩ := md_ntsc_blit_offsets in_width vline h
    exact ⟨ops, hops, by rw [hw]; exact ho⟩

theorem blitters_tiled_addressing_witness :
    (∃ ops, sms_ntsc_blit 4 5 = some ops ∧
      outOffsets ops = (List.range (pixelsWritten ops)).map
        (fun (k : Nat) => tiledOffset (SMS_NTSC_OUT_WIDTH 4 / 4) k 5)) ∧
    (∃ ops, md_ntsc_blit 8 5 = some ops ∧
      outOffsets ops = (List.range (pixelsWritten ops)).map
        (fun (k : Nat) => tiledOffset (MD_NTSC_OUT_WIDTH 8 / 4) k 5)) ∧
    tiledOffset 3 13 5 = 202 :=
  ⟨blitters_tiled_addressing.1 4 5 (by decide) (by decide),
    blitters_tiled_addressing.2 8 5 (by decide) (by decide), by decide⟩

theorem displayChanged_texture (k : Hdr) (s : State) (s2 : State) (ev : List Event)
    (h : displayChanged k s = some (s2, ev)) :
    s2.vwidth = (textureSize k s).1 ∧ s2.vheight = (textureSize k s).2 := by
  unfold displayChanged at h
  simp only at h
  generalize tvmodes _ = op at h
  cases op with
  | none => simp at h
  | some p =>
    simp only at h
    cases hs3 : gxResetScaler k
        { s with vwidth := (textureSize k s).1, vheight := (textureSize k s).2, rmode := some p }
        (textureSize k s).1 with
    | none => simp [hs3] at h
    | some s3 =>
      simp only [hs3, Option.some.injEq, Prod.mk.injEq] at h
      obtain ⟨m, sq, hm⟩ := gxResetScaler_frame k _ _ _ hs3
      rw [← h.1, hm]
      exact ⟨rfl, rfl⟩

/-- The texture size left by an update that found the display changed. -/
theorem gx_video_Update_texture (k : Hdr) (s : State) (status r : Nat) (s1 : State)
    (ev : List Event) (hupd : status &&& k.VIDEO_UPDATE ≠ 0)
    (hch : s.viewport.changed &&& 1 ≠ 0)
    (h : gx_video_Update k s status = some (r, s1, ev)) :
    s1.vwidth = (textureSize k s).1 ∧ s1.vheight = (textureSize k s).2 := by
  unfold gx_video_Update at h
  simp only [hupd, hch, ne_eq, not_false_eq_true, if_true] at h
  cases hd : displayChanged k { s with videoWait := s.videoSync } with
  | none => simp [hd] at h
  | some x =>
    obtain ⟨sa, eva⟩ := x
    simp only [hd, Option.some.injEq] at h
    have hs1 : s1 = (submitFrame k sa status eva).2.1 := congrArg (fun x => x.2.1) h.symm
    have hf := submitFrame_frame k sa status eva
    have ht := displayChanged_texture k _ _ _ hd
    have htex : textureSize k { s with videoWait := s.videoSync } = textureSize k s := rfl
    rw [htex] at ht
    rw [hs1, hf.2.2.1, hf.2.2.2.1]
    exact ht

/-- The texture size computed with the signal filter on, for a viewport whose
width and height are non-negative and below the 32-bit limits. -/
theorem textureSize_ntsc (k : Hdr) (s : State) (hntsc : s.config.ntsc ≠ 0)
    (hw0 : 0 ≤ s.viewport.w + 2 * s.viewport.x)
    (hw1 : s.viewport.w + 2 * s.viewport.x < 4294967296)
    (hh0 : 0 ≤ s.viewport.h + 2 * s.viewport.y)
    (hh1 : s.viewport.h + 2 * s.viewport.y < 2147483648) :
    (textureSize k s).1 =
      ((if s.reg12 &&& 1 ≠ 0 then k.MD_NTSC_OUT_WIDTH (s.viewport.w + 2 * s.viewport.x).toNat
        else k.SMS_NTSC_OUT_WIDTH (s.viewport.w + 2 * s.viewport.x).toNat) % 4294967296 / 4 * 4)
        % 4294967296 ∧
    ((textureSize k s).2 : Int) =
      if s.config.render ≠ 0 ∧ s.interlaced ≠ 0 then 2 * (s.viewport.h + 2 * s.viewport.y)
      else s.viewport.h + 2 * s.viewport.y := by
  have e1 : toU32 (s.viewport.w + 2 * s.viewport.x) = s.viewport.w + 2 * s.viewport.x := by
    unfold toU32; omega
  have e2 : toU32 (s.viewport.h + 2 * s.viewport.y) = s.viewport.h + 2 * s.viewport.y := by
    unfold toU32; omega
  unfold textureSize
  simp only [hntsc, ne_eq, not_false_eq_true, if_true, e1, e2]
  refine ⟨trivial, ?_⟩
  split_ifs <;> omega

/-- The filtered texture width in H32 mode, when the header macro is the one of
the low-res filter. -/
theorem textureSize_sms (k : Hdr) (s : State)
    (hsms : ∀ w : Nat, w < 4294967296 →
      k.SMS_NTSC_OUT_WIDTH w = (SMS_NTSC_OUT_WIDTH w).toNat)
    (hntsc : s.config.ntsc ≠ 0) (h32 : s.reg12 &&& 1 = 0)
    (hw0 : 0 ≤ s.viewport.w + 2 * s.viewport.x)
    (hw1 : s.viewport.w + 2 * s.viewport.x < 1073741824)
    (hh0 : 0 ≤ s.viewport.h + 2 * s.viewport.y)
    (hh1 : s.viewport.h + 2 * s.viewport.y < 2147483648) :
    ((textureSize k s).1 : Int) =
      SMS_NTSC_OUT_WIDTH (s.viewport.w + 2 * s.viewport.x) / 4 * 4 ∧
    7 ≤ SMS_NTSC_OUT_WIDTH (s.viewport.w + 2 * s.viewport.x) := by
  have hts := (textureSize_ntsc k s hntsc hw0 (by omega) hh0 hh1).1
  have hcast : (((s.viewport.w + 2 * s.viewport.x).toNat : Nat) : Int) =
      s.viewport.w + 2 * s.viewport.x := Int.toNat_of_nonneg hw0
  have hN : SMS_NTSC_OUT_WIDTH (s.viewport.w + 2 * s.viewport.x) =
      ((s.viewport.w + 2 * s.viewport.x) / 3 + 1) * 7 := by
    simp only [SMS_NTSC_OUT_WIDTH, sms_ntsc_in_chunk, sms_ntsc_out_chunk]
    rw [cdiv_of_nonneg _ _ hw0 (by decide)]
  have hb : 7 ≤ ((s.viewport.w + 2 * s.viewport.x) / 3 + 1) * 7 ∧
      ((s.viewport.w + 2 * s.viewport.x) / 3 + 1) * 7 < 4294967296 := by omega
  rw [hts]
  simp only [h32, ne_eq, not_true_eq_false, if_false,
    hsms (s.viewport.w + 2 * s.viewport.x).toNat (by omega), hcast, hN]
  generalize ((s.viewport.w + 2 * s.viewport.x) / 3 + 1) * 7 = n at hb ⊢
  rw [Nat.mod_eq_of_lt (by omega : n.toNat < 4294967296),
    Nat.mod_eq_of_lt (by omega : n.toNat / 4 * 4 < 4294967296)]
  omega

/-- The filtered texture width in H40 mode, when the header macro is the one of
the high-res filter. -/
theorem textureSize_md (k : Hdr) (s : State)
    (hmd : ∀ w : Nat, 3 ≤ w → w < 4294967296 →
      k.MD_NTSC_OUT_WIDTH w = (MD_NTSC_OUT_WIDTH w).toNat)
    (hntsc : s.config.ntsc ≠ 0) (h40 : s.reg12 &&& 1 ≠ 0)
    (hw0 : 3 ≤ s.viewport.w + 2 * s.viewport.x)
    (hw1 : s.viewport.w + 2 * s.viewport.x < 1073741824)
    (hh0 : 0 ≤ s.viewport.h + 2 * s.viewport.y)
    (hh1 : s.viewport.h + 2 * s.viewport.y < 2147483648) :
    ((textureSize k s).1 : Int) =
      MD_NTSC_OUT_WIDTH (s.viewport.w + 2 * s.viewport.x) / 4 * 4 ∧
    8 ≤ MD_NTSC_OUT_WIDTH (s.viewport.w + 2 * s.viewport.x) := by
  have hts := (textureSize_ntsc k s hntsc (by omega) (by omega) hh0 hh1).1
  have hcast : (((s.viewport.w + 2 * s.viewport.x).toNat : Nat) : Int) =
      s.viewport.w + 2 * s.viewport.x := Int.toNat_of_nonneg (by omega)
  have hN : MD_NTSC_OUT_WIDTH (s.viewport.w + 2 * s.viewport.x) =
      ((s.viewport.w + 2 * s.viewport.x - 3) / 4 + 1) * 8 := by
    simp only [MD_NTSC_OUT_WIDTH, md_ntsc_in_chunk, md_ntsc_out_chunk]
    rw [cdiv_of_nonneg _ _ (by omega) (by decide)]
  have hb : 8 ≤ ((s.viewport.w + 2 * s.viewport.x - 3) / 4 + 1) * 8 ∧
      ((s.viewport.w + 2 * s.viewport.x - 3) / 4 + 1) * 8 < 4294967296 := by omega
  rw [hts]
  simp only [h40, ne_eq, not_false_eq_true, if_true,
    hmd (s.viewport.w + 2 * s.viewport.x).toNat (by omega) (by omega), hcast, hN]
  generalize ((s.viewport.w + 2 * s.viewport.x - 3) / 4 + 1) * 8 = n at hb ⊢
  rw [Nat.mod_eq_of_lt (by omega : n.toNat < 4294967296),
    Nat.mod_eq_of_lt (by omega : n.toNat / 4 * 4 < 4294967296)]
  omega

/-- C23. Texture width under the signal filter. When the header macros are
those of the two filters, config.ntsc is non-zero, the display has changed and
the viewport has a width in the domain of the matching blitter (at least 0 in
H32 mode, at least 4 in H40 mode) and a non-negative height, both below the
32-bit limits, `gx_video_Update` returns and leaves: a vheight of
viewport.h + 2 * viewport.y, doubled exactly when config.render is non-zero and
interlaced is set; a vwidth that is the largest multiple of 4 not above the
output width N of the filter for the input width viewport.w + 2 * viewport.x;
and vwidth / 4 = N / 4 is the row stride of the matching blitter: that blitter
stores its k-th pixel of line vline at the address of pixel (k, vline) of a
tiled texture of width vwidth. -/
theorem filtered_texture_size (k : Hdr) (s : State) (status : Nat) (p : ModeId)
    (hsms : ∀ w : Nat, w < 4294967296 →
      k.SMS_NTSC_OUT_WIDTH w = (SMS_NTSC_OUT_WIDTH w).toNat)
    (hmd : ∀ w : Nat, 3 ≤ w → w < 4294967296 →
      k.MD_NTSC_OUT_WIDTH w = (MD_NTSC_OUT_WIDTH w).toNat)
    (hupd : status &&& k.VIDEO_UPDATE ≠ 0) (hch : s.viewport.changed &&& 1 ≠ 0)
    (hntsc : s.config.ntsc ≠ 0)
    (hp : tvmodes (tvmodeIndex s.gc_pal s.config.render s.interlaced) = some p)
    (hvw : (s.modes.read p).viWidth ≠ 0) (hvh : (s.modes.read p).viHeight ≠ 0)
    (hw0 : 0 ≤ s.viewport.w + 2 * s.viewport.x)
    (hw1 : s.viewport.w + 2 * s.viewport.x < 1073741824)
    (hw4 : s.reg12 &&& 1 ≠ 0 → 4 ≤ s.viewport.w + 2 * s.viewport.x)
    (hh0 : 0 ≤ s.viewport.h + 2 * s.viewport.y)
    (hh1 : s.viewport.h + 2 * s.viewport.y < 2147483648) :
    ∃ r s1 ev, gx_video_Update k s status = some (r, s1, ev) ∧
      (s1.vheight : Int) =
        (if s.config.render ≠ 0 ∧ s.interlaced ≠ 0 then 2 * (s.viewport.h + 2 * s.viewport.y)
         else s.viewport.h + 2 * s.viewport.y) ∧
      (s.reg12 &&& 1 = 0 →
        SMS_NTSC_OUT_WIDTH (s.viewport.w + 2 * s.viewport.x) - 4 < (s1.vwidth : Int) ∧
        (s1.vwidth : Int) ≤ SMS_NTSC_OUT_WIDTH (s.viewport.w + 2 * s.viewport.x) ∧
        s1.vwidth % 4 = 0 ∧
        (s1.vwidth : Int) / 4 = SMS_NTSC_OUT_WIDTH (s.viewport.w + 2 * s.viewport.x) / 4 ∧
        ∀ vline : Int, 0 ≤ vline →
          ∃ ops, sms_ntsc_blit (s.viewport.w + 2 * s.viewport.x) vline = some ops ∧
            outOffsets ops = (List.range (pixelsWritten ops)).map
              (fun (i : Nat) => tiledOffset ((s1.vwidth : Int) / 4) i vline)) ∧
      (s.reg12 &&& 1 ≠ 0 →
        MD_NTSC_OUT_WIDTH (s.viewport.w + 2 * s.viewport.x) - 4 < (s1.vwidth : Int) ∧
        (s1.vwidth : Int) ≤ MD_NTSC_OUT_WIDTH (s.viewport.w + 2 * s.viewport.x) ∧
        s1.vwidth % 4 = 0 ∧
        (s1.vwidth : Int) / 4 = MD_NTSC_OUT_WIDTH (s.viewport.w + 2 * s.viewport.x) / 4 ∧
        ∀ vline : Int, 0 ≤ vline →
          ∃ ops, md_ntsc_blit (s.viewport.w + 2 * s.viewport.x) vline = some ops ∧
            outOffsets ops = (List.range (pixelsWritten ops)).map
              (fun (i : Nat) => tiledOffset ((s1.vwidth : Int) / 4) i vline)) := by
  have hpos : 1 ≤ (textureSize k s).1 := by
    by_cases h : s.reg12 &&& 1 = 0
    · have := textureSize_sms k s hsms hntsc h hw0 hw1 hh0 hh1
      omega
    · have := textureSize_md k s hmd hntsc h (by have := hw4 h; omega) hw1 hh0 hh1
      omega
  obtain ⟨⟨r, s1, ev⟩, hcall⟩ := gx_video_Update_defined k s status
    (Or.inr ⟨p, hp, hvw, hvh, hpos⟩)
  obtain ⟨hvw1, hvh1⟩ := gx_video_Update_texture k s status r s1 ev hupd hch hcall
  refine ⟨r, s1, ev, hcall, ?_, ?_, ?_⟩
  · rw [hvh1]
    exact (textureSize_ntsc k s hntsc hw0 (by omega) hh0 hh1).2
  · intro h
    obtain ⟨e, h7⟩ := textureSize_sms k s hsms hntsc h hw0 hw1 hh0 hh1
    rw [hvw1]
    refine ⟨by omega, by omega, by omega, by omega, ?_⟩
    intro vline hv
    obtain ⟨ops, hops, hw, ho⟩ := sms_ntsc_blit_offsets _ vline hw0 hv
    refine ⟨ops, hops, ?_⟩
    rw [hw, ho]
    have e4 : ((textureSize k s).1 : Int) / 4 =
        SMS_NTSC_OUT_WIDTH (s.viewport.w + 2 * s.viewport.x) / 4 := by omega
    rw [e4]
  · intro h
    have h4 := hw4 h
    obtain ⟨e, h8⟩ := textureSize_md k s hmd hntsc h (by omega) hw1 hh0 hh1
    rw [hvw1]
    refine ⟨by omega, by omega, by omega, by omega, ?_⟩
    intro vline _
    obtain ⟨ops, hops, hw, ho⟩ := md_ntsc_blit_offsets _ vline h4
    refine ⟨ops, hops, ?_⟩
    rw [hw, ho]
    have e4 : ((textureSize k s).1 : Int) / 4 =
        MD_NTSC_OUT_WIDTH (s.viewport.w + 2 * s.viewport.x) / 4 := by omega
    rw [e4]

/-- The output-width macros of the concrete build are those of the two filters. -/
theorem hdr_out_width :
    (∀ w : Nat, w < 4294967296 → hdr.SMS_NTSC_OUT_WIDTH w = (SMS_NTSC_OUT_WIDTH w).toNat) ∧
    (∀ w : Nat, 3 ≤ w → w < 4294967296 →
      hdr.MD_NTSC_OUT_WIDTH w = (MD_NTSC_OUT_WIDTH w).toNat) := by
  constructor
  · intro w _
    show (w / 3 + 1) * 7 = (SMS_NTSC_OUT_WIDTH w).toNat
    simp only [SMS_NTSC_OUT_WIDTH, sms_ntsc_in_chunk, sms_ntsc_out_chunk]
    rw [cdiv_of_nonneg _ _ (by omega) (by decide)]
    omega
  · intro w hw hw2
    show ((toU32 ((w : Int) - 3)).toNat / 4 + 1) * 8 = (MD_NTSC_OUT_WIDTH w).toNat
    simp only [MD_NTSC_OUT_WIDTH, md_ntsc_in_chunk, md_ntsc_out_chunk, toU32]
    rw [cdiv_of_nonneg _ _ (by omega) (by decide)]
    omega

theorem filtered_texture_size_witness :
    ∃ r s1 ev, gx_video_Update hdr ntscH32State 4 = some (r, s1, ev) ∧
      s1.vheight = 192 ∧ s1.vwidth = 600 ∧
      SMS_NTSC_OUT_WIDTH (ntscH32State.viewport.w + 2 * ntscH32State.viewport.x) = 602 ∧
      ∃ ops, sms_ntsc_blit 256 7 = some ops ∧
        outOffsets ops = (List.range (pixelsWritten ops)).map
          (fun (i : Nat) => tiledOffset 150 i 7) := by
  obtain ⟨r, s1, ev, hcall, hvh, hsms, _⟩ := filtered_texture_size hdr ntscH32State 4
    ModeId.TV60hz_240p hdr_out_width.1 hdr_out_width.2 (by decide) (by decide) (by decide)
    (by decide) (by decide) (by decide) (by decide) (by decide) (by decide) (by decide)
    (by decide)
  obtain ⟨h1, h2, h3, h4, h5⟩ := hsms (by decide)
  have eN : SMS_NTSC_OUT_WIDTH (ntscH32State.viewport.w + 2 * ntscH32State.viewport.x) = 602 := by
    decide
  have eW : ntscH32State.viewport.w + 2 * ntscH32State.viewport.x = 256 := by decide
  have eH : (if ntscH32State.config.render ≠ 0 ∧ ntscH32State.interlaced ≠ 0
      then 2 * (ntscH32State.viewport.h + 2 * ntscH32State.viewport.y)
      else ntscH32State.viewport.h + 2 * ntscH32State.viewport.y) = 192 := by decide
  rw [eN] at h1 h2 h4
  rw [eH] at hvh
  have hv : s1.vwidth = 600 := by omega
  obtain ⟨ops, hops, ho⟩ := h5 7 (by decide)
  rw [eW] at hops
  rw [hv] at ho
  exact ⟨r, s1, ev, hcall, by omega, hv, eN, ops, hops, ho⟩

/-! ## Leaving emulation mode -/

/-- C24. Leaving emulation mode releases everything. `gx_video_Stop` frees, in
this order and once each, the two filter contexts that are allocated and, for
each of the six overlay textures that is open, its pixel data and the texture
itself, and nothing else; afterwards both filter contexts and all six overlay
textures are null. `gxTextureClose` on an open texture frees its data and the
texture and leaves a null pointer; on a null pointer it frees nothing and
leaves it null. A second `gx_video_Stop` frees nothing and changes nothing. -/
theorem stop_releases_everything (s : State) :
    (gx_video_Stop s).2 =
      (s.sms_ntsc.toList.map Freed.sms_ntsc) ++ (s.md_ntsc.toList.map Freed.md_ntsc) ++
        [s.crosshair0, s.crosshair1, s.cd_leds00, s.cd_leds01, s.cd_leds10,
          s.cd_leds11].flatMap
          (fun p => p.toList.flatMap (fun t => [Freed.texture_data t, Freed.texture t])) ∧
    (gx_video_Stop s).1.sms_ntsc = none ∧ (gx_video_Stop s).1.md_ntsc = none ∧
    (gx_video_Stop s).1.crosshair0 = none ∧ (gx_video_Stop s).1.crosshair1 = none ∧
    (gx_video_Stop s).1.cd_leds00 = none ∧ (gx_video_Stop s).1.cd_leds01 = none ∧
    (gx_video_Stop s).1.cd_leds10 = none ∧ (gx_video_Stop s).1.cd_leds11 = none ∧
    (∀ t, gxTextureClose (some t) = (none, [Freed.texture_data t, Freed.texture t])) ∧
    (∀ p, (gxTextureClose p).1 = none) ∧ gxTextureClose none = (none, []) ∧
    (gx_video_Stop (gx_video_Stop s).1).2 = [] ∧
    (gx_video_Stop (gx_video_Stop s).1).1 = (gx_video_Stop s).1 := by
  have hc : ∀ p, (gxTextureClose p).1 = none := by
    intro p
    cases p <;> rfl
  have hn : gxTextureClose none = (none, []) := rfl
  have hf : ∀ p : Option Png, (gxTextureClose p).2 =
      p.toList.flatMap (fun t => [Freed.texture_data t, Freed.texture t]) := by
    intro p
    cases p <;> rfl
  refine ⟨?_, rfl, rfl, hc _, hc _, hc _, hc _, hc _, hc _, fun _ => rfl, hc, hn, ?_, ?_⟩
  · simp only [gx_video_Stop, hf, List.flatMap_cons, List.flatMap_nil, List.append_assoc,
      List.append_nil]
    cases s.sms_ntsc <;> cases s.md_ntsc <;> rfl
  · simp only [gx_video_Stop, hc, hn, List.append_nil]
  · simp only [gx_video_Stop, hc]

theorem stop_releases_everything_witness :
    (gx_video_Stop overlayState).2 =
      [Freed.sms_ntsc { table := some NtscSetup.composite },
       Freed.texture_data Png.Crosshair_p1, Freed.texture Png.Crosshair_p1,
       Freed.texture_data Png.CD_access_on, Freed.texture Png.CD_access_on] ∧
    (gx_video_Stop (gx_video_Stop overlayState).1).2 = [] := by
  have h := stop_releases_everything overlayState
  refine ⟨?_, h.2.2.2.2.2.2.2.2.2.2.2.2.1⟩
  rw [h.1]
  decide

/-! ## Properties of the tile codec -/

theorem testBit_255 (i : Nat) : (255 : Nat).testBit i = decide (i < 8) := by
  rw [show (255 : Nat) = 2 ^ 8 - 1 from rfl, Nat.testBit_two_pow_sub_one]

theorem testBit_65535 (i : Nat) : (65535 : Nat).testBit i = decide (i < 16) := by
  rw [show (65535 : Nat) = 2 ^ 16 - 1 from rfl, Nat.testBit_two_pow_sub_one]

theorem testBit_65280 (i : Nat) :
    (65280 : Nat).testBit i = (decide (8 ≤ i) && decide (i < 16)) := by
  rw [show (65280 : Nat) = 255 <<< 8 from rfl, Nat.testBit_shiftLeft, testBit_255]
  by_cases h : 8 ≤ i
  · simp [h]
    omega
  · simp [h]

/-- A 32-bit pixel split into its AR and GB halves is reassembled unchanged. -/
theorem texelPixel_split (p : Nat) (hp : p < 4294967296) :
    texelPixel (texelAR p) (texelGB p) = p := by
  apply Nat.eq_of_testBit_eq
  intro i
  unfold texelPixel texelAR texelGB
  rw [show (4294967296 : Nat) = 2 ^ 32 from rfl]
  simp only [Nat.testBit_mod_two_pow, Nat.testBit_lor, Nat.testBit_land, Nat.testBit_shiftLeft,
    Nat.testBit_shiftRight, testBit_255, testBit_65535, testBit_65280]
  have hhi : 32 ≤ i → p.testBit i = false := by
    intro h
    apply Nat.testBit_lt_two_pow
    calc p < 2 ^ 32 := hp
      _ ≤ 2 ^ i := Nat.pow_le_pow_right (by decide) h
  by_cases h32 : i < 32
  · interval_cases i <;> simp
  · simp [h32, hhi (by omega)]

theorem store_same (a : Nat → Nat) (i v : Nat) : store a i v i = v := by
  simp [store]

theorem store_other (a : Nat → Nat) (i v j : Nat) (h : j ≠ i) : store a i v j = a j := by
  simp [store, h]

/-- What `n` passes of the pixel loop of the encoder do, when the GB texels lie
after the AR texels. -/
theorem encodePixels_spec (img : Nat → Nat) (n src ar gb : Nat) (data : Nat → Nat)
    (h : ar + n ≤ gb) :
    (encodePixels img n src ar gb data).1 = src + n ∧
    (encodePixels img n src ar gb data).2.1 = ar + n ∧
    (encodePixels img n src ar gb data).2.2.1 = gb + n ∧
    (∀ i q s, i < n → q = ar + i → s = src + i →
      (encodePixels img n src ar gb data).2.2.2 q = texelAR (img s)) ∧
    (∀ i q s, i < n → q = gb + i → s = src + i →
      (encodePixels img n src ar gb data).2.2.2 q = texelGB (img s)) ∧
    (∀ j, (j < ar ∨ ar + n ≤ j) → (j < gb ∨ gb + n ≤ j) →
      (encodePixels img n src ar gb data).2.2.2 j = data j) := by
  induction n generalizing src ar gb data with
  | zero =>
    refine ⟨rfl, rfl, rfl, ?_, ?_, ?_⟩
    · intro i q s hi
      omega
    · intro i q s hi
      omega
    · intro j _ _
      rfl
  | succ n ih =>
    obtain ⟨h1, h2, h3, h4, h5, h6⟩ := ih (src + 1) (ar + 1) (gb + 1)
      (store (store data ar (texelAR (img src))) gb (texelGB (img src))) (by omega)
    rw [encodePixels]
    refine ⟨by rw [h1]; omega, by rw [h2]; omega, by rw [h3]; omega, ?_, ?_, ?_⟩
    · intro i q s hi hq hs
      cases i with
      | zero =>
        rw [hq, hs]
        have e := h6 ar (by omega) (by omega)
        rw [store_other _ _ _ _ (by omega), store_same] at e
        exact e
      | succ i => exact h4 i q s (by omega) (by omega) (by omega)
    · intro i q s hi hq hs
      cases i with
      | zero =>
        rw [hq, hs]
        have e := h6 gb (by omega) (by omega)
        rw [store_same] at e
        exact e
      | succ i => exact h5 i q s (by omega) (by omega) (by omega)
    · intro j hj1 hj2
      rw [h6 j (by omega) (by omega), store_other _ _ _ _ (by omega),
        store_other _ _ _ _ (by omega)]

/-- What `n` passes of the pixel loop of the decoder do. -/
theorem decodePixels_spec (data : Nat → Nat) (n dst ar gb : Nat) (img_data : Nat → Nat) :
    (decodePixels data n dst ar gb img_data).1 = dst + n ∧
    (decodePixels data n dst ar gb img_data).2.1 = ar + n ∧
    (decodePixels data n dst ar gb img_data).2.2.1 = gb + n ∧
    (∀ i q a g, i < n → q = dst + i → a = ar + i → g = gb + i →
      (decodePixels data n dst ar gb img_data).2.2.2 q = texelPixel (data a) (data g)) ∧
    (∀ j, (j < dst ∨ dst + n ≤ j) →
      (decodePixels data n dst ar gb img_data).2.2.2 j = img_data j) := by
  induction n generalizing dst ar gb img_data with
  | zero =>
    refine ⟨rfl, rfl, rfl, ?_, ?_⟩
    · intro i q a g hi
      omega
    · intro j _
      rfl
  | succ n ih =>
    obtain ⟨h1, h2, h3, h4, h5⟩ := ih (dst + 1) (ar + 1) (gb + 1)
      (store img_data dst (texelPixel (data ar) (data gb)))
    rw [decodePixels]
    refine ⟨by rw [h1]; omega, by rw [h2]; omega, by rw [h3]; omega, ?_, ?_⟩
    · intro i q a g hi hq ha hg
      cases i with
      | zero =>
        rw [hq, ha, hg]
        have e := h5 dst (by omega)
        rw [store_same] at e
        exact e
      | succ i => exact h4 i q a g (by omega) (by omega) (by omega) (by omega)
    · intro j hj
      rw [h5 j (by omega), store_other _ _ _ _ (by omega)]

/-- What one tile of the encoder does: `W` is the distance between the row
pointers. -/
theorem encodeTile_spec (img : Nat → Nat) (W : Nat) (v : EncodeVars)
    (hgb : v.dst_gb = v.dst_ar + 16) (h2 : v.src2 = v.src1 + W) (h3 : v.src3 = v.src2 + W)
    (h4 : v.src4 = v.src3 + W) :
    (encodeTile img v).src1 = v.src1 + 4 ∧ (encodeTile img v).src2 = v.src2 + 4 ∧
    (encodeTile img v).src3 = v.src3 + 4 ∧ (encodeTile img v).src4 = v.src4 + 4 ∧
    (encodeTile img v).dst_ar = v.dst_ar + 32 ∧ (encodeTile img v).dst_gb = v.dst_gb + 32 ∧
    (∀ l i q s, l < 4 → i < 4 → q = v.dst_ar + 4 * l + i → s = v.src1 + l * W + i →
      (encodeTile img v).data q = texelAR (img s) ∧
      (encodeTile img v).data (q + 16) = texelGB (img s)) ∧
    (∀ j, (j < v.dst_ar ∨ v.dst_ar + 32 ≤ j) → (encodeTile img v).data j = v.data j) := by
  obtain ⟨a1, a2, a3, a4, a5, a6⟩ :=
    encodePixels_spec img 4 v.src1 v.dst_ar v.dst_gb v.data (by omega)
  obtain ⟨b1, b2, b3, b4, b5, b6⟩ :=
    encodePixels_spec img 4 v.src2 (v.dst_ar + 4) (v.dst_gb + 4)
      (encodePixels img 4 v.src1 v.dst_ar v.dst_gb v.data).2.2.2 (by omega)
  obtain ⟨c1, c2, c3, c4, c5, c6⟩ :=
    encodePixels_spec img 4 v.src3 (v.dst_ar + 4 + 4) (v.dst_gb + 4 + 4)
      (encodePixels img 4 v.src2 (v.dst_ar + 4) (v.dst_gb + 4)
        (encodePixels img 4 v.src1 v.dst_ar v.dst_gb v.data).2.2.2).2.2.2 (by omega)
  obtain ⟨d1, d2, d3, d4, d5, d6⟩ :=
    encodePixels_spec img 4 v.src4 (v.dst_ar + 4 + 4 + 4) (v.dst_gb + 4 + 4 + 4)
      (encodePixels img 4 v.src3 (v.dst_ar + 4 + 4) (v.dst_gb + 4 + 4)
        (encodePixels img 4 v.src2 (v.dst_ar + 4) (v.dst_gb + 4)
          (encodePixels img 4 v.src1 v.dst_ar v.dst_gb v.data).2.2.2).2.2.2).2.2.2 (by omega)
  unfold encodeTile
  simp only [a1, a2, a3, b1, b2, b3, c1, c2, c3, d1, d2, d3]
  generalize (encodePixels img 4 v.src1 v.dst_ar v.dst_gb v.data).2.2.2 = D1 at *
  generalize (encodePixels img 4 v.src2 (v.dst_ar + 4) (v.dst_gb + 4) D1).2.2.2 = D2 at *
  generalize (encodePixels img 4 v.src3 (v.dst_ar + 4 + 4) (v.dst_gb + 4 + 4) D2).2.2.2 = D3 at *
  generalize (encodePixels img 4 v.src4 (v.dst_ar + 4 + 4 + 4) (v.dst_gb + 4 + 4 + 4) D3).2.2.2
    = D4 at *
  clear a1 a2 a3 b1 b2 b3 c1 c2 c3 d1 d2 d3
  refine ⟨trivial, trivial, trivial, trivial, trivial, trivial, ?_, ?_⟩
  · intro l i q s hl hi hq hs
    interval_cases l
    · constructor
      · rw [d6 _ (by omega) (by omega), c6 _ (by omega) (by omega), b6 _ (by omega) (by omega)]
        exact a4 i q s hi (by omega) (by omega)
      · rw [d6 _ (by omega) (by omega), c6 _ (by omega) (by omega), b6 _ (by omega) (by omega)]
        exact a5 i _ s hi (by omega) (by omega)
    · constructor
      · rw [d6 _ (by omega) (by omega), c6 _ (by omega) (by omega)]
        exact b4 i q s hi (by omega) (by omega)
      · rw [d6 _ (by omega) (by omega), c6 _ (by omega) (by omega)]
        exact b5 i _ s hi (by omega) (by omega)
    · constructor
      · rw [d6 _ (by omega) (by omega)]
        exact c4 i q s hi (by omega) (by omega)
      · rw [d6 _ (by omega) (by omega)]
        exact c5 i _ s hi (by omega) (by omega)
    · exact ⟨d4 i q s hi (by omega) (by omega), d5 i _ s hi (by omega) (by omega)⟩
  · intro j hj
    rw [d6 _ (by omega) (by omega), c6 _ (by omega) (by omega), b6 _ (by omega) (by omega),
      a6 _ (by omega) (by omega)]

/-- What `n` tiles of the encoder do. -/
theorem encodeTiles_spec (img : Nat → Nat) (W n : Nat) (v : EncodeVars)
    (hgb : v.dst_gb = v.dst_ar + 16) (h2 : v.src2 = v.src1 + W) (h3 : v.src3 = v.src2 + W)
    (h4 : v.src4 = v.src3 + W) :
    (Nat.iterate (encodeTile img) n v).src1 = v.src1 + 4 * n ∧
    (Nat.iterate (encodeTile img) n v).src2 = v.src2 + 4 * n ∧
    (Nat.iterate (encodeTile img) n v).src3 = v.src3 + 4 * n ∧
    (Nat.iterate (encodeTile img) n v).src4 = v.src4 + 4 * n ∧
    (Nat.iterate (encodeTile img) n v).dst_ar = v.dst_ar + 32 * n ∧
    (Nat.iterate (encodeTile img) n v).dst_gb = v.dst_gb + 32 * n ∧
    (∀ t l i q s, t < n → l < 4 → i < 4 → q = v.dst_ar + 32 * t + 4 * l + i →
      s = v.src1 + l * W + 4 * t + i →
      (Nat.iterate (encodeTile img) n v).data q = texelAR (img s) ∧
      (Nat.iterate (encodeTile img) n v).data (q + 16) = texelGB (img s)) ∧
    (∀ j, (j < v.dst_ar ∨ v.dst_ar + 32 * n ≤ j) →
      (Nat.iterate (encodeTile img) n v).data j = v.data j) := by
  induction n generalizing v with
  | zero =>
    refine ⟨rfl, rfl, rfl, rfl, rfl, rfl, ?_, ?_⟩
    · intro t l i q s ht
      omega
    · intro j _
      rfl
  | succ n ih =>
    obtain ⟨t1, t2, t3, t4, t5, t6, t7, t8⟩ := encodeTile_spec img W v hgb h2 h3 h4
    obtain ⟨r1, r2, r3, r4, r5, r6, r7, r8⟩ := ih (encodeTile img v)
      (by omega) (by omega) (by omega) (by omega)
    have e : Nat.iterate (encodeTile img) (n + 1) v =
        Nat.iterate (encodeTile img) n (encodeTile img v) := rfl
    rw [e]
    refine ⟨by omega, by omega, by omega, by omega, by omega, by omega, ?_, ?_⟩
    · intro t l i q s ht hl hi hq hs
      cases t with
      | zero =>
        rw [r8 q (by omega), r8 (q + 16) (by omega)]
        exact t7 l i q s hl hi (by omega) (by omega)
      | succ t => exact r7 t l i q s (by omega) hl hi (by omega) (by omega)
    · intro j hj
      rw [r8 j (by omega), t8 j (by omega)]

/-- What one row of tiles of the encoder does, for a width that is a multiple
of 4. -/
theorem encodeRow_spec (img : Nat → Nat) (W : Nat) (v : EncodeVars) (hW : W % 4 = 0)
    (hgb : v.dst_gb = v.dst_ar + 16) (h2 : v.src2 = v.src1 + W) (h3 : v.src3 = v.src2 + W)
    (h4 : v.src4 = v.src3 + W) :
    (encodeRow img W v).src1 = v.src1 + 4 * W ∧
    (encodeRow img W v).src2 = (encodeRow img W v).src1 + W ∧
    (encodeRow img W v).src3 = (encodeRow img W v).src2 + W ∧
    (encodeRow img W v).src4 = (encodeRow img W v).src3 + W ∧
    (encodeRow img W v).dst_ar = v.dst_ar + 8 * W ∧
    (encodeRow img W v).dst_gb = (encodeRow img W v).dst_ar + 16 ∧
    (∀ l x q s, l < 4 → x < W → q = v.dst_ar + 32 * (x / 4) + 4 * l + x % 4 →
      s = v.src1 + l * W + x →
      (encodeRow img W v).data q = texelAR (img s) ∧
      (encodeRow img W v).data (q + 16) = texelGB (img s)) ∧
    (∀ j, (j < v.dst_ar ∨ v.dst_ar + 8 * W ≤ j) → (encodeRow img W v).data j = v.data j) := by
  obtain ⟨r1, r2, r3, r4, r5, r6, r7, r8⟩ :=
    encodeTiles_spec img W ((W + 3) / 4) v hgb h2 h3 h4
  unfold encodeRow
  simp only
  refine ⟨by omega, trivial, trivial, trivial, by omega, by omega, ?_, ?_⟩
  · intro l x q s hl hx hq hs
    exact r7 (x / 4) l (x % 4) q s (by omega) hl (by omega) (by omega) (by omega)
  · intro j hj
    exact r8 j (by omega)

/-- What `n` rows of tiles of the encoder do. -/
theorem encodeRows_spec (img : Nat → Nat) (W n : Nat) (v : EncodeVars) (hW : W % 4 = 0)
    (hgb : v.dst_gb = v.dst_ar + 16) (h2 : v.src2 = v.src1 + W) (h3 : v.src3 = v.src2 + W)
    (h4 : v.src4 = v.src3 + W) :
    (∀ ty l x q s, ty < n → l < 4 → x < W →
      q = v.dst_ar + 8 * W * ty + 32 * (x / 4) + 4 * l + x % 4 →
      s = v.src1 + (4 * ty + l) * W + x →
      (Nat.iterate (encodeRow img W) n v).data q = texelAR (img s) ∧
      (Nat.iterate (encodeRow img W) n v).data (q + 16) = texelGB (img s)) ∧
    (∀ j, j < v.dst_ar → (Nat.iterate (encodeRow img W) n v).data j = v.data j) := by
  induction n generalizing v with
  | zero =>
    refine ⟨?_, ?_⟩
    · intro ty l x q s ht
      omega
    · intro j _
      rfl
  | succ n ih =>
    obtain ⟨t1, t2, t3, t4, t5, t6, t7, t8⟩ := encodeRow_spec img W v hW hgb h2 h3 h4
    obtain ⟨r7, r8⟩ := ih (encodeRow img W v) t6 t2 t3 t4
    have e : Nat.iterate (encodeRow img W) (n + 1) v =
        Nat.iterate (encodeRow img W) n (encodeRow img W v) := rfl
    rw [e]
    refine ⟨?_, ?_⟩
    · intro ty l x q s ht hl hx hq hs
      cases ty with
      | zero =>
        have e0 : 8 * W * 0 = 0 := by ring
        have e1 : (4 * 0 + l) * W = l * W := by ring
        rw [e0] at hq
        rw [e1] at hs
        rw [r8 q (by omega), r8 (q + 16) (by omega)]
        exact t7 l x q s hl hx (by omega) (by omega)
      | succ ty =>
        have e0 : 8 * W * (ty + 1) = 8 * W * ty + 8 * W := by ring
        have e1 : (4 * (ty + 1) + l) * W = (4 * ty + l) * W + 4 * W := by ring
        rw [e0] at hq
        rw [e1] at hs
        exact r7 ty l x q s (by omega) hl hx (by omega) (by omega)
    · intro j hj
      rw [r8 j (by omega), t8 j (by omega)]

/-- Where the encoding loop of `gxTextureOpenPNG` stores the two halves of each
pixel, for a width and a height that are multiples of 4. -/
theorem gxTextureOpenPNG_encode_spec (img : Nat → Nat) (W H : Nat) (hW : W % 4 = 0)
    (hH : H % 4 = 0) (ty l x : Nat) (hty : ty < H / 4) (hl : l < 4) (hx : x < W) :
    gxTextureOpenPNG_encode img W H (8 * W * ty + 32 * (x / 4) + 4 * l + x % 4) =
      texelAR (img ((4 * ty + l) * W + x)) ∧
    gxTextureOpenPNG_encode img W H (8 * W * ty + 32 * (x / 4) + 4 * l + x % 4 + 16) =
      texelGB (img ((4 * ty + l) * W + x)) := by
  unfold gxTextureOpenPNG_encode
  have hn : (H + 3) / 4 = H / 4 := by omega
  rw [hn]
  exact (encodeRows_spec img W (H / 4)
    { src1 := 0, src2 := W, src3 := 2 * W, src4 := 3 * W, dst_ar := 0, dst_gb := 16,
      data := fun _ => 0 } hW rfl (by simp) (by simp only; omega) (by simp only; omega)).1
    ty l x _ _ hty hl hx (by simp) (by simp)

/-- What one tile of the decoder does: `W`, at least 4, is the distance between
the row pointers. -/
theorem decodeTile_spec (data : Nat → Nat) (W : Nat) (v : DecodeVars) (hW : 4 ≤ W)
    (hgb : v.gb = v.ar + 16) (h2 : v.dst2 = v.dst1 + W) (h3 : v.dst3 = v.dst2 + W)
    (h4 : v.dst4 = v.dst3 + W) :
    (decodeTile data v).dst1 = v.dst1 + 4 ∧ (decodeTile data v).dst2 = v.dst2 + 4 ∧
    (decodeTile data v).dst3 = v.dst3 + 4 ∧ (decodeTile data v).dst4 = v.dst4 + 4 ∧
    (decodeTile data v).ar = v.ar + 32 ∧ (decodeTile data v).gb = v.gb + 32 ∧
    (∀ l i q a, l < 4 → i < 4 → q = v.dst1 + l * W + i → a = v.ar + 4 * l + i →
      (decodeTile data v).img_data q = texelPixel (data a) (data (a + 16))) ∧
    (∀ j, (∀ l, l < 4 → (j < v.dst1 + l * W ∨ v.dst1 + l * W + 4 ≤ j)) →
      (decodeTile data v).img_data j = v.img_data j) := by
  obtain ⟨a1, a2, a3, a4, a5⟩ := decodePixels_spec data 4 v.dst1 v.ar v.gb v.img_data
  obtain ⟨b1, b2, b3, b4, b5⟩ := decodePixels_spec data 4 v.dst2 (v.ar + 4) (v.gb + 4)
    (decodePixels data 4 v.dst1 v.ar v.gb v.img_data).2.2.2
  obtain ⟨c1, c2, c3, c4, c5⟩ := decodePixels_spec data 4 v.dst3 (v.ar + 4 + 4) (v.gb + 4 + 4)
    (decodePixels data 4 v.dst2 (v.ar + 4) (v.gb + 4)
      (decodePixels data 4 v.dst1 v.ar v.gb v.img_data).2.2.2).2.2.2
  obtain ⟨d1, d2, d3, d4, d5⟩ :=
    decodePixels_spec data 4 v.dst4 (v.ar + 4 + 4 + 4) (v.gb + 4 + 4 + 4)
      (decodePixels data 4 v.dst3 (v.ar + 4 + 4) (v.gb + 4 + 4)
        (decodePixels data 4 v.dst2 (v.ar + 4) (v.gb + 4)
          (decodePixels data 4 v.dst1 v.ar v.gb v.img_data).2.2.2).2.2.2).2.2.2
  unfold decodeTile
  simp only [a1, a2, a3, b1, b2, b3, c1, c2, c3, d1, d2, d3]
  generalize (decodePixels data 4 v.dst1 v.ar v.gb v.img_data).2.2.2 = D1 at *
  generalize (decodePixels data 4 v.dst2 (v.ar + 4) (v.gb + 4) D1).2.2.2 = D2 at *
  generalize (decodePixels data 4 v.dst3 (v.ar + 4 + 4) (v.gb + 4 + 4) D2).2.2.2 = D3 at *
  generalize (decodePixels data 4 v.dst4 (v.ar + 4 + 4 + 4) (v.gb + 4 + 4 + 4) D3).2.2.2
    = D4 at *
  clear a1 a2 a3 b1 b2 b3 c1 c2 c3 d1 d2 d3
  refine ⟨trivial, trivial, trivial, trivial, trivial, trivial, ?_, ?_⟩
  · intro l i q a hl hi hq ha
    interval_cases l
    · rw [d5 _ (by omega), c5 _ (by omega), b5 _ (by omega)]
      exact a4 i q a _ hi (by omega) (by omega) (by omega)
    · rw [d5 _ (by omega), c5 _ (by omega)]
      exact b4 i q a _ hi (by omega) (by omega) (by omega)
    · rw [d5 _ (by omega)]
      exact c4 i q a _ hi (by omega) (by omega) (by omega)
    · exact d4 i q a _ hi (by omega) (by omega) (by omega)
  · intro j hj
    have j0 := hj 0 (by omega)
    have j1 := hj 1 (by omega)
    have j2 := hj 2 (by omega)
    have j3 := hj 3 (by omega)
    rw [d5 _ (by omega), c5 _ (by omega), b5 _ (by omega), a5 _ (by omega)]

/-- What `n` tiles of the decoder do, when they fit in the width. -/
theorem decodeTiles_spec (data : Nat → Nat) (W n : Nat) (v : DecodeVars) (hW : 4 * n ≤ W)
    (hgb : v.gb = v.ar + 16) (h2 : v.dst2 = v.dst1 + W) (h3 : v.dst3 = v.dst2 + W)
    (h4 : v.dst4 = v.dst3 + W) :
    (Nat.iterate (decodeTile data) n v).dst1 = v.dst1 + 4 * n ∧
    (Nat.iterate (decodeTile data) n v).dst2 = v.dst2 + 4 * n ∧
    (Nat.iterate (decodeTile data) n v).dst3 = v.dst3 + 4 * n ∧
    (Nat.iterate (decodeTile data) n v).dst4 = v.dst4 + 4 * n ∧
    (Nat.iterate (decodeTile data) n v).ar = v.ar + 32 * n ∧
    (Nat.iterate (decodeTile data) n v).gb = v.gb + 32 * n ∧
    (∀ t l i q a, t < n → l < 4 → i < 4 → q = v.dst1 + l * W + 4 * t + i →
      a = v.ar + 32 * t + 4 * l + i →
      (Nat.iterate (decodeTile data) n v).img_data q = texelPixel (data a) (data (a + 16))) ∧
    (∀ j, (∀ l, l < 4 → (j < v.dst1 + l * W ∨ v.dst1 + l * W + 4 * n ≤ j)) →
      (Nat.iterate (decodeTile data) n v).img_data j = v.img_data j) := by
  induction n generalizing v with
  | zero =>
    refine ⟨rfl, rfl, rfl, rfl, rfl, rfl, ?_, ?_⟩
    · intro t l i q a ht
      omega
    · intro j _
      rfl
  | succ n ih =>
    obtain ⟨t1, t2, t3, t4, t5, t6, t7, t8⟩ :=
      decodeTile_spec data W v (by omega) hgb h2 h3 h4
    obtain ⟨r1, r2, r3, r4, r5, r6, r7, r8⟩ := ih (decodeTile data v)
      (by omega) (by omega) (by omega) (by omega) (by omega)
    have e : Nat.iterate (decodeTile data) (n + 1) v =
        Nat.iterate (decodeTile data) n (decodeTile data v) := rfl
    rw [e]
    refine ⟨by omega, by omega, by omega, by omega, by omega, by omega, ?_, ?_⟩
    · intro t l i q a ht hl hi hq ha
      cases t with
      | zero =>
        have hfr : ∀ m, m < 4 → (q < (decodeTile data v).dst1 + m * W ∨
            (decodeTile data v).dst1 + m * W + 4 * n ≤ q) := by
          intro m hm
          rw [t1]
          interval_cases m <;> interval_cases l <;> omega
        rw [r8 q hfr]
        exact t7 l i q a hl hi (by omega) (by omega)
      | succ t => exact r7 t l i q a (by omega) hl hi (by omega) (by omega)
    · intro j hj
      have hfr : ∀ m, m < 4 → (j < (decodeTile data v).dst1 + m * W ∨
          (decodeTile data v).dst1 + m * W + 4 * n ≤ j) := by
        intro m hm
        have := hj m hm
        rw [t1]
        omega
      have hft : ∀ m, m < 4 → (j < v.dst1 + m * W ∨ v.dst1 + m * W + 4 ≤ j) := by
        intro m hm
        have := hj m hm
        omega
      rw [r8 j hfr, t8 j hft]

/-- What one row of tiles of the decoder does, for a width that is a multiple
of 4. -/
theorem decodeRow_spec (data : Nat → Nat) (W : Nat) (v : DecodeVars) (hW : W % 4 = 0)
    (hgb : v.gb = v.ar + 16) (h2 : v.dst2 = v.dst1 + W) (h3 : v.dst3 = v.dst2 + W)
    (h4 : v.dst4 = v.dst3 + W) :
    (decodeRow data W v).dst1 = v.dst1 + 4 * W ∧
    (decodeRow data W v).dst2 = (decodeRow data W v).dst1 + W ∧
    (decodeRow data W v).dst3 = (decodeRow data W v).dst2 + W ∧
    (decodeRow data W v).dst4 = (decodeRow data W v).dst3 + W ∧
    (decodeRow data W v).ar = v.ar + 8 * W ∧
    (decodeRow data W v).gb = (decodeRow data W v).ar + 16 ∧
    (∀ l x q a, l < 4 → x < W → q = v.dst1 + l * W + x →
      a = v.ar + 32 * (x / 4) + 4 * l + x % 4 →
      (decodeRow data W v).img_data q = texelPixel (data a) (data (a + 16))) ∧
    (∀ j, (j < v.dst1 ∨ v.dst1 + 4 * W ≤ j) →
      (decodeRow data W v).img_data j = v.img_data j) := by
  obtain ⟨r1, r2, r3, r4, r5, r6, r7, r8⟩ :=
    decodeTiles_spec data W ((W + 3) / 4) v (by omega) hgb h2 h3 h4
  unfold decodeRow
  simp only
  refine ⟨by omega, trivial, trivial, trivial, by omega, by omega, ?_, ?_⟩
  · intro l x q a hl hx hq ha
    exact r7 (x / 4) l (x % 4) q a (by omega) hl (by omega) (by omega) (by omega)
  · intro j hj
    apply r8 j
    intro m hm
    interval_cases m <;> omega

/-- What `n` rows of tiles of the decoder do. -/
theorem decodeRows_spec (data : Nat → Nat) (W n : Nat) (v : DecodeVars) (hW : W % 4 = 0)
    (hgb : v.gb = v.ar + 16) (h2 : v.dst2 = v.dst1 + W) (h3 : v.dst3 = v.dst2 + W)
    (h4 : v.dst4 = v.dst3 + W) :
    (∀ ty l x q a, ty < n → l < 4 → x < W → q = v.dst1 + (4 * ty + l) * W + x →
      a = v.ar + 8 * W * ty + 32 * (x / 4) + 4 * l + x % 4 →
      (Nat.iterate (decodeRow data W) n v).img_data q =
        texelPixel (data a) (data (a + 16))) ∧
    (∀ j, j < v.dst1 → (Nat.iterate (decodeRow data W) n v).img_data j = v.img_data j) := by
  induction n generalizing v with
  | zero =>
    refine ⟨?_, ?_⟩
    · intro ty l x q a ht
      omega
    · intro j _
      rfl
  | succ n ih =>
    obtain ⟨t1, t2, t3, t4, t5, t6, t7, t8⟩ := decodeRow_spec data W v hW hgb h2 h3 h4
    obtain ⟨r7, r8⟩ := ih (decodeRow data W v) t6 t2 t3 t4
    have e : Nat.iterate (decodeRow data W) (n + 1) v =
        Nat.iterate (decodeRow data W) n (decodeRow data W v) := rfl
    rw [e]
    refine ⟨?_, ?_⟩
    · intro ty l x q a ht hl hx hq ha
      cases ty with
      | zero =>
        have e0 : 8 * W * 0 = 0 := by ring
        have e1 : (4 * 0 + l) * W = l * W := by ring
        rw [e0] at ha
        rw [e1] at hq
        have hlt : q < (decodeRow data W v).dst1 := by
          rw [t1]
          interval_cases l <;> omega
        rw [r8 q hlt]
        exact t7 l x q a hl hx hq (by omega)
      | succ ty =>
        have e0 : 8 * W * (ty + 1) = 8 * W * ty + 8 * W := by ring
        have e1 : (4 * (ty + 1) + l) * W = (4 * ty + l) * W + 4 * W := by ring
        rw [e0] at ha
        rw [e1] at hq
        exact r7 ty l x q a (by omega) hl hx (by omega) (by omega)
    · intro j hj
      rw [r8 j (by omega), t8 j (by omega)]

/-- What the decoding loop of `gxTextureWritePNG` stores for each pixel, for a
width and a height that are multiples of 4. -/
theorem gxTextureWritePNG_decode_spec (data : Nat → Nat) (W H : Nat) (hW : W % 4 = 0)
    (hH : H % 4 = 0) (ty l x : Nat) (hty : ty < H / 4) (hl : l < 4) (hx : x < W) :
    gxTextureWritePNG_decode data W H ((4 * ty + l) * W + x) =
      texelPixel (data (8 * W * ty + 32 * (x / 4) + 4 * l + x % 4))
        (data (8 * W * ty + 32 * (x / 4) + 4 * l + x % 4 + 16)) := by
  unfold gxTextureWritePNG_decode
  have hn : (H + 3) / 4 = H / 4 := by omega
  rw [hn]
  exact (decodeRows_spec data W (H / 4)
    { dst1 := 0, dst2 := W, dst3 := W + W, dst4 := W + W + W, ar := 0, gb := 16,
      img_data := fun _ => 0 } hW rfl (by simp) rfl rfl).1
    ty l x _ _ hty hl hx (by simp) (by simp)

/-- C29. Tile codec round trip: for every image whose width and height are
multiples of 4 and whose pixels are 32-bit values, the decoding loop of
`gxTextureWritePNG` applied to the texture data left by the encoding loop of
`gxTextureOpenPNG` gives back pixel (x, y) of the image, for every x below the
width and every y below the height; and every 32-bit pixel split into its AR
and GB halves is reassembled unchanged. -/
theorem tile_codec_round_trip (img : Nat → Nat) (width height : Nat)
    (hw : width % 4 = 0) (hh : height % 4 = 0)
    (himg : ∀ i, i < width * height → img i < 4294967296) :
    (∀ x y, x < width → y < height →
      gxTextureWritePNG_decode (gxTextureOpenPNG_encode img width height) width height
        (y * width + x) = img (y * width + x)) ∧
    (∀ p, p < 4294967296 → texelPixel (texelAR p) (texelGB p) = p) := by
  refine ⟨?_, texelPixel_split⟩
  intro x y hx hy
  have ey : 4 * (y / 4) + y % 4 = y := by omega
  have hlt : y * width + x < width * height := by
    calc y * width + x < y * width + width := by omega
      _ = (y + 1) * width := by ring
      _ ≤ height * width := Nat.mul_le_mul_right width (by omega)
      _ = width * height := Nat.mul_comm _ _
  have hd := gxTextureWritePNG_decode_spec (gxTextureOpenPNG_encode img width height)
    width height hw hh (y / 4) (y % 4) x (by omega) (by omega) hx
  obtain ⟨ha, hg⟩ := gxTextureOpenPNG_encode_spec img width height hw hh (y / 4) (y % 4) x
    (by omega) (by omega) hx
  rw [ey] at hd ha hg
  rw [hd, ha, hg]
  exact texelPixel_split _ (himg _ hlt)

theorem tile_codec_round_trip_witness :
    gxTextureWritePNG_decode (gxTextureOpenPNG_encode sampleImage 4 4) 4 4 (2 * 4 + 1) =
      sampleImage (2 * 4 + 1) :=
  (tile_codec_round_trip sampleImage 4 4 rfl rfl
    (fun _ _ => Nat.mod_lt _ (by decide))).1 1 2 (by decide) (by decide)

end GxVideo
